import Mathlib

/-! Multi-target tracker registry (`src/src/Tracker.cpp`).

A shallow embedding of the tracking manager of `Tracker.cpp`:
`SingleTracker` (one track), `TrackerManager` (the registry `tracker_vec`
plus the next-identity counter `id_list`) with `insertTracker`,
`findTrackerByID`, `findTracker`, `deleteTracker`; the per-frame update
`calcVel`, `doSingleTracking`, `markForDeletion`; and `TrackingSystem` with
`initTrackingSystem`, `updateTrackingSystem`, `startTracking`,
`isValidCollision`, `detectCollisions`.

Modelling conventions.
* `int` is `Int`: signed overflow is undefined behaviour in C++, so the model
  describes the executions in which no `int` operation overflows.
* `std::vector<std::shared_ptr<SingleTracker>>` is `List SingleTracker`;
  the registry is the only holder that mutates a track.
* `Tracker.h` is not part of the sources: the macros `FAIL`, `SUCCESS`, the
  constructor and the setters of `SingleTracker` and `getNextID` are modelled
  from the specification and marked so.
* In `findTracker` the `double` values are either converted `int`s (areas,
  squared distances, thresholds), kept as `Int`, or the quotient of two
  converted `int`s, kept in `Dbl`: NaN and the infinities of a division by
  zero are separate values and a finite quotient is the exact rational. For
  32-bit operands the rounded quotient exceeds the rounded constant `0.9`
  exactly when the exact quotient exceeds 9/10, and is `0.0` exactly when
  the numerator is 0, so the comparisons of the code are the comparisons of
  the model.
* In `markForDeletion` the product `0.01 * area` is the rational `area / 100`.
* In `isValidCollision` the `double` areas are rationals; for the integer
  areas `detectCollisions` passes, the rounded products `a2 * 0.8` and
  `a2 * 1.2` compare with an integer as the exact products do.
* What a track takes from the dlib tracker in one frame (position,
  confidence) is the parameter `External`; the threads of `startTracking`,
  each working on its own track, are run one after the other.
* `cv::Rect`, `cv::Point` follow OpenCV: `area = width * height`, `a & b`
  is the intersection, empty results being the all-zero rectangle.
* `std::cout` diagnostics are not modelled; `*last_event` is a `String`
  threaded through the operations.
-/

namespace Tracker

/-! ## OpenCV value types -/

/-- The type `cv::Point`: integer pixel coordinates. -/
structure Point where
  x : Int
  y : Int
deriving DecidableEq, Repr

/-- Operator `+` of `cv::Point`. -/
def Point.add (a b : Point) : Point := ⟨a.x + b.x, a.y + b.y⟩

/-- Operator `-` of `cv::Point`. -/
def Point.sub (a b : Point) : Point := ⟨a.x - b.x, a.y - b.y⟩

instance : Add Point := ⟨Point.add⟩
instance : Sub Point := ⟨Point.sub⟩

/-- The type `cv::Rect`: top-left corner, width and height. -/
structure Rect where
  x : Int
  y : Int
  width : Int
  height : Int
deriving DecidableEq, Repr

/-- Method `cv::Rect::area()`. -/
def Rect.area (r : Rect) : Int := r.width * r.height

/-- Operator `&` of `cv::Rect`: the intersection, or `Rect()` when the
overlap has no positive width or height. -/
def Rect.inter (a b : Rect) : Rect :=
  let x1 := max a.x b.x
  let y1 := max a.y b.y
  let w := min (a.x + a.width) (b.x + b.width) - x1
  let h := min (a.y + a.height) (b.y + b.height) - y1
  if w ≤ 0 ∨ h ≤ 0 then ⟨0, 0, 0, 0⟩ else ⟨x1, y1, w, h⟩

/-- The centre `cv::Point(rect.x + rect.width / 2, rect.y + rect.height / 2)`
as `findTracker` computes it (C++ `/` truncates towards zero). -/
def Rect.center (r : Rect) : Point :=
  ⟨r.x + Int.tdiv r.width 2, r.y + Int.tdiv r.height 2⟩

/-- The type `cv::Scalar`, a four-channel colour; presentation data only. -/
structure Scalar where
  v0 : Int
  v1 : Int
  v2 : Int
  v3 : Int
deriving DecidableEq, Repr

/-! ## Doubles with NaN -/

/-- The values a `double` quotient of two `int`s can take. -/
inductive Dbl where
  | nan
  | ninf
  | pinf
  | fin (q : ℚ)
deriving DecidableEq

/-- The conversion `int` to `double`. -/
def Dbl.ofInt (i : Int) : Dbl := Dbl.fin i

/-- The `double` division `a / b` of two converted `int`s: `0/0` is NaN and
`a/0` is an infinity with the sign of `a`. -/
def Dbl.divInt (a b : Int) : Dbl :=
  if b = 0 then
    (if a = 0 then Dbl.nan else if 0 < a then Dbl.pinf else Dbl.ninf)
  else Dbl.fin ((a : ℚ) / (b : ℚ))

/-- The comparison `a < b` on doubles; false as soon as one side is NaN. -/
def Dbl.lt : Dbl → Dbl → Bool
  | Dbl.nan, _ => false
  | _, Dbl.nan => false
  | Dbl.ninf, Dbl.ninf => false
  | Dbl.ninf, _ => true
  | Dbl.pinf, _ => false
  | Dbl.fin _, Dbl.ninf => false
  | Dbl.fin _, Dbl.pinf => true
  | Dbl.fin p, Dbl.fin q => decide (p < q)

/-- The comparison `a != b` on doubles; true as soon as one side is NaN. -/
def Dbl.ne : Dbl → Dbl → Bool
  | Dbl.nan, _ => true
  | _, Dbl.nan => true
  | Dbl.ninf, Dbl.ninf => false
  | Dbl.pinf, Dbl.pinf => false
  | Dbl.fin p, Dbl.fin q => decide (p ≠ q)
  | _, _ => true

/-- The function `std::max(a, b)`, which is `(a < b) ? b : a`. -/
def Dbl.max (a b : Dbl) : Dbl := if Dbl.lt a b then b else a

/-! ## Constants -/

/-- Modelled from the spec: the macro `FAIL` of `Tracker.h` (not under
`src/`). The spec has `findByIdentity` return "index or not found", so the
value is one no index can take. -/
def FAIL : Int := -1

/-- Modelled from the spec: the macro `SUCCESS` of `Tracker.h` (not under
`src/`), the result of an operation that did not fail. -/
def SUCCESS : Int := 1

/-- The constant `LABEL_PERSON` of `yolo_labels.hpp`. -/
def LABEL_PERSON : Int := 0

/-- The constant `LABEL_CAR` of `yolo_labels.hpp`. -/
def LABEL_CAR : Int := 2

/-- The constant `LABEL_UNKNOWN` of `yolo_labels.hpp`. -/
def LABEL_UNKNOWN : Int := 99

/-! ## One track -/

/-- The class `SingleTracker`: the state of one track. The field list is
that of the accessors `Tracker.cpp` uses. -/
structure SingleTracker where
  target_id : Int
  confidence : ℚ
  rect : Rect
  center : Point
  is_tracking_started : Bool
  color : Scalar
  label : Int
  update_from_detection : Bool
  no_update_counter : Int
  to_delete : Bool
  modvel : ℚ
  vel : Point
  c_q : List Point
deriving DecidableEq

/-- Modelled from the spec: the constructor
`SingleTracker(_target_id, _init_rect, _color, _label)` of `Tracker.h` (not
under `src/`). A new track has the given identity, box, colour and label,
its centre derived from the box, tracking not started, a zero staleness
counter and no deletion mark. -/
def SingleTracker.new (_target_id : Int) (_init_rect : Rect) (_color : Scalar)
    (_label : Int) : SingleTracker :=
  { target_id := _target_id
    confidence := 0
    rect := _init_rect
    center := _init_rect.center
    is_tracking_started := false
    color := _color
    label := _label
    update_from_detection := false
    no_update_counter := 0
    to_delete := false
    modvel := 0
    vel := _init_rect.center
    c_q := [] }

/-- Modelled from the spec: setter `setCenter(cv::Point)` of `Tracker.h`. -/
def SingleTracker.setCenter (t : SingleTracker) (c : Point) : SingleTracker :=
  { t with center := c }

/-- Modelled from the spec: setter `setRect(cv::Rect)` of `Tracker.h`. -/
def SingleTracker.setRect (t : SingleTracker) (r : Rect) : SingleTracker :=
  { t with rect := r }

/-- Modelled from the spec: setter `setUpdateFromDetection` of `Tracker.h`. -/
def SingleTracker.setUpdateFromDetection (t : SingleTracker) (b : Bool) :
    SingleTracker :=
  { t with update_from_detection := b }

/-- Modelled from the spec: setter `setNoUpdateCounter` of `Tracker.h`. -/
def SingleTracker.setNoUpdateCounter (t : SingleTracker) (n : Int) :
    SingleTracker :=
  { t with no_update_counter := n }

/-- Modelled from the spec: setter `setLabel` of `Tracker.h`. -/
def SingleTracker.setLabel (t : SingleTracker) (l : Int) : SingleTracker :=
  { t with label := l }

/-- Modelled from the spec: setter `setColor` of `Tracker.h`. -/
def SingleTracker.setColor (t : SingleTracker) (c : Scalar) : SingleTracker :=
  { t with color := c }

/-- Method `SingleTracker::markForDeletion` (its effect on the track; the
return value is always `SUCCESS`). -/
def SingleTracker.markForDeletion (t : SingleTracker) : SingleTracker :=
  let frames : Int := 12
  let min_vel : ℚ := (1 / 100 : ℚ) * (t.rect.area : ℚ)
  if t.no_update_counter ≥ frames ∧ t.modvel < min_vel then
    { t with to_delete := true }
  else t

/-! ## The registry -/

/-- The class `TrackerManager`: the vector `tracker_vec` of tracks in
insertion order and the next-identity counter `id_list`. -/
structure TrackerManager where
  tracker_vec : List SingleTracker
  id_list : Int
deriving DecidableEq

/-- Modelled from the spec: getter `getNextID()` of `Tracker.h`, "the counter
value that would be assigned to a brand-new, unmatched detection". -/
def TrackerManager.getNextID (m : TrackerManager) : Int := m.id_list

/-- Method `TrackerManager::findTrackerByID`: the position of the first track
whose identity is `_target_id`, or `FAIL`. -/
def TrackerManager.findTrackerByID (m : TrackerManager) (_target_id : Int) : Int :=
  match m.tracker_vec.findIdx? (fun ptr => ptr.target_id == _target_id) with
  | none => FAIL
  | some i => (i : Int)

/-- The assignment through `tracker_vec[i]->...`: the track at position `i`
is replaced by `f` of itself. -/
def modifyAt (f : SingleTracker → SingleTracker) :
    List SingleTracker → Nat → List SingleTracker
  | [], _ => []
  | t :: ts, 0 => f t :: ts
  | t :: ts, i + 1 => t :: modifyAt f ts i

/-- A run of `n` characters `=`, the rule of the notices. -/
def rule (n : Nat) : String := "".pushn '=' n

/-- The text `insertTracker` stores in `*last_event` for a new track: a
header (26 `=`, " Notice! ", 26 `=`), the line naming the identity, and a
rule of 61 `=`, each ended by `std::endl`. -/
def creationEvent (id : Int) : String :=
  rule 26 ++ " Notice! " ++ rule 26 ++ "\n" ++
  "Target ID : " ++ toString id ++ " is now been tracked\n" ++
  rule 61 ++ "\n"

/-- The text `deleteTracker` stores in `*last_event`. -/
def deletionEvent (id : Int) : String :=
  rule 26 ++ " Notice! " ++ rule 26 ++ "\n" ++
  "Target ID : " ++ toString id ++ " is going out of the frame.\n" ++
  "Target ID : " ++ toString id ++ " is erased!\n" ++
  rule 61 ++ "\n"

/-- Method `TrackerManager::insertTracker(cv::Rect, cv::Scalar, int, int, bool,
std::string*)`. The result is the returned code, the registry afterwards and
the content of `*last_event` afterwards. -/
def TrackerManager.insertTracker (m : TrackerManager) (_init_rect : Rect)
    (_color : Scalar) (_target_id : Int) (_label : Int) (update : Bool)
    (last_event : String) : Int × TrackerManager × String :=
  if _init_rect.area = 0 then (FAIL, m, last_event)
  else
    let result_idx := m.findTrackerByID _target_id
    let new_tracker := SingleTracker.new _target_id _init_rect _color _label
    if result_idx ≠ FAIL then
      if !update then (FAIL, m, last_event)
      else
        let upd := fun (t : SingleTracker) =>
          (((((t.setCenter new_tracker.center).setRect _init_rect
            ).setUpdateFromDetection update).setNoUpdateCounter 0
            ).setLabel _label).setColor _color
        (SUCCESS, { m with tracker_vec := modifyAt upd m.tracker_vec result_idx.toNat },
          last_event)
    else
      let id_list := _target_id + 1
      (SUCCESS, { tracker_vec := m.tracker_vec ++ [new_tracker], id_list := id_list },
        creationEvent (id_list - 1))

/-- Method `TrackerManager::insertTracker(std::shared_ptr<SingleTracker>, bool)`;
`none` is the null pointer. The result is the returned code and the registry
afterwards. -/
def TrackerManager.insertTrackerPtr (m : TrackerManager)
    (new_single_tracker : Option SingleTracker) (update : Bool) :
    Int × TrackerManager :=
  match new_single_tracker with
  | none => (FAIL, m)
  | some nt =>
    let result_idx := m.findTrackerByID nt.target_id
    if result_idx ≠ FAIL then
      if !update then (FAIL, m)
      else
        let upd := fun (t : SingleTracker) =>
          (((t.setCenter nt.center).setRect nt.rect
            ).setUpdateFromDetection update).setNoUpdateCounter 0
        (SUCCESS, { m with tracker_vec := modifyAt upd m.tracker_vec result_idx.toNat })
    else
      (SUCCESS, { tracker_vec := m.tracker_vec ++ [nt], id_list := nt.target_id + 1 })

/-- Method `TrackerManager::deleteTracker`. The result is the returned code,
the registry afterwards and the content of `*last_event` afterwards. -/
def TrackerManager.deleteTracker (m : TrackerManager) (_target_id : Int)
    (last_event : String) : Int × TrackerManager × String :=
  let result_idx := m.findTrackerByID _target_id
  if result_idx = FAIL then (FAIL, m, last_event)
  else
    (SUCCESS, { m with tracker_vec := m.tracker_vec.eraseIdx result_idx.toNat },
      deletionEvent _target_id)

/-- The list of identities in the registry, in registry order. -/
def TrackerManager.ids (m : TrackerManager) : List Int :=
  m.tracker_vec.map (fun t => t.target_id)

/-! ## Association -/

/-- The value `max_per_area` of `findTracker` for one track:
`std::max(in_area / track.area(), in_area / rect.area())`. -/
def maxPerArea (s_tracker : SingleTracker) (rect : Rect) : Dbl :=
  let in_area := (s_tracker.rect.inter rect).area
  Dbl.max (Dbl.divInt in_area s_tracker.rect.area) (Dbl.divInt in_area rect.area)

/-- The constant `max_overlap_thresh = 0.9` of `findTracker`. -/
def max_overlap_thresh : Dbl := Dbl.fin (9 / 10)

/-- The first loop of `findTracker`: every track contributes its ratio to
`areas`, and joins `selection` when the ratio passes the threshold and the
labels agree or the track is `LABEL_UNKNOWN`. -/
def overlapLoop (rect : Rect) (label : Int) :
    List SingleTracker → List Dbl × List SingleTracker →
    List Dbl × List SingleTracker
  | [], acc => acc
  | s_tracker :: rest, (areas, selection) =>
    let max_per_area := maxPerArea s_tracker rect
    let areas := areas ++ [max_per_area]
    if Dbl.lt max_overlap_thresh max_per_area ∧
        (s_tracker.label = label ∨ s_tracker.label = LABEL_UNKNOWN) then
      overlapLoop rect label rest (areas, selection ++ [s_tracker])
    else
      overlapLoop rect label rest (areas, selection)

/-- The squared distance `diff.x*diff.x + diff.y*diff.y` between a track's
centre and the centre of the detection. -/
def centerDistance (s_tracker : SingleTracker) (rect : Rect) : Int :=
  let n_center := rect.center
  let diff := s_tracker.center - n_center
  diff.x * diff.x + diff.y * diff.y

/-- The second loop of `findTracker` over `selection`, on the pair
`(min_distance, best)`; `none` is `NULL`. -/
def bestLoop (rect : Rect) (dist_thresh : Int) :
    List SingleTracker → Int × Option SingleTracker → Int × Option SingleTracker
  | [], acc => acc
  | s_tracker :: rest, (min_distance, best) =>
    let distance := centerDistance s_tracker rect
    if best = none ∧ distance < dist_thresh then
      bestLoop rect dist_thresh rest (distance, some s_tracker)
    else if best ≠ none ∧ distance < min_distance then
      bestLoop rect dist_thresh rest (distance, some s_tracker)
    else
      bestLoop rect dist_thresh rest (min_distance, best)

/-- The third loop of `findTracker`: `new_object` stays true unless some
entry of `areas` differs from `0.0`. -/
def newObjectLoop : List Dbl → Bool
  | [] => true
  | area :: rest => if Dbl.ne area (Dbl.fin 0) then false else newObjectLoop rest

/-- Method `TrackerManager::findTracker`: the identity to update, the next
free identity, or `-1`. -/
def TrackerManager.findTracker (m : TrackerManager) (rect : Rect) (label : Int) : Int :=
  let dist_thresh : Int := (rect.height * rect.width) >>> (1 : Nat)
  let min_distance : Int := (rect.height * rect.width) + 10
  let (areas, selection) := overlapLoop rect label m.tracker_vec ([], [])
  let best := (bestLoop rect dist_thresh selection (min_distance, none)).2
  let new_object := newObjectLoop areas
  match best with
  | some b => b.target_id
  | none => if new_object then m.getNextID else -1

/-! ## Sequences of registry calls -/

/-- One call on the registry: either overload of `insertTracker`, or
`deleteTracker`. -/
inductive Call where
  | insertRect (rect : Rect) (color : Scalar) (id : Int) (label : Int) (update : Bool)
  | insertShared (p : Option SingleTracker) (update : Bool)
  | erase (id : Int)

/-- The effect of one call on the registry and on `*last_event`. -/
def Call.apply (st : TrackerManager × String) : Call → TrackerManager × String
  | Call.insertRect rect color id label update =>
    (st.1.insertTracker rect color id label update st.2).2
  | Call.insertShared p update => ((st.1.insertTrackerPtr p update).2, st.2)
  | Call.erase id => (st.1.deleteTracker id st.2).2

/-- The registry after a sequence of calls, from the state `st`. -/
def runCalls (st : TrackerManager × String) (calls : List Call) :
    TrackerManager × String :=
  calls.foldl Call.apply st

/-! ## The per-frame update of one track -/

/-- Modelled from the spec: the macro `TRUE` of `Tracker.h` (not under
`src/`), the C truth value. -/
def TRUE : Int := 1

/-- Modelled from the spec: the macro `FALSE` of `Tracker.h` (not under
`src/`), the C falsity value. -/
def FALSE : Int := 0

/-- Operator `/` of `cv::Point` by an `int`: each coordinate is divided with
the truncating division of C++. -/
def Point.divInt (a : Point) (b : Int) : Point := ⟨Int.tdiv a.x b, Int.tdiv a.y b⟩

/-- The type `cv::Mat`, of which the code only asks whether it is empty. -/
structure Mat where
  empty : Bool
deriving DecidableEq, Repr

/-- What one call of `doSingleTracking` takes from code outside the sources:
`center` and `rect` are what `setCenter(updated_rect)` and
`setRect(updated_rect)` store from the position `tracker.get_position()` of
the dlib tracker, `confidence` is the value `tracker.update_noscale` returns,
and `modvel` is the value of `modvel` once `setVel` (of `Tracker.h`) has
stored the new velocity estimate. -/
structure External where
  center : Point
  rect : Rect
  confidence : ℚ
  modvel : ℚ
deriving DecidableEq

/-- Modelled from the spec: setter `setConfidence` of `Tracker.h`. -/
def SingleTracker.setConfidence (t : SingleTracker) (c : ℚ) : SingleTracker :=
  { t with confidence := c }

/-- Modelled from the spec: setter `setIsTrackingStarted` of `Tracker.h`. -/
def SingleTracker.setIsTrackingStarted (t : SingleTracker) (b : Bool) : SingleTracker :=
  { t with is_tracking_started := b }

/-- Modelled from the spec: setter `setVel` of `Tracker.h`, which stores the
velocity estimate; `modvel` is the magnitude `Tracker.h` keeps with it. -/
def SingleTracker.setVel (t : SingleTracker) (v : Point) (modvel : ℚ) : SingleTracker :=
  { t with vel := v, modvel := modvel }

/-- Modelled from the spec: `saveLastCenter` of `Tracker.h`, "append `center`
to `centerHistory` (evict oldest beyond capacity 5)". -/
def SingleTracker.saveLastCenter (t : SingleTracker) (c : Point) : SingleTracker :=
  { t with c_q := (t.c_q ++ [c]).drop ((t.c_q ++ [c]).length - 5) }

/-- The pair `(delta_x, delta_y)` of `calcVel`: five times the step from
`c_q[0]` to `c_q[4]` when the history holds at least 5 centres, else zero. -/
def rawDelta (c_q : List Point) : Point :=
  if c_q.length ≥ 5 then
    ⟨((c_q.getD 4 ⟨0, 0⟩).x - (c_q.getD 0 ⟨0, 0⟩).x) * 5,
     ((c_q.getD 4 ⟨0, 0⟩).y - (c_q.getD 0 ⟨0, 0⟩).y) * 5⟩
  else ⟨0, 0⟩

/-- Method `SingleTracker::calcVel`. -/
def SingleTracker.calcVel (t : SingleTracker) (modvel : ℚ) : SingleTracker :=
  let delta := rawDelta t.c_q
  let avgvel := ((t.vel - t.center) + delta).divInt 2
  t.setVel (t.center + avgvel) modvel

/-- Method `SingleTracker::startSingleTracking`: the returned code and the
track afterwards. -/
def SingleTracker.startSingleTracking (t : SingleTracker) (_mat_img : Mat) :
    Int × SingleTracker :=
  if _mat_img.empty then (FAIL, t)
  else (SUCCESS, t.setIsTrackingStarted true)

/-- Method `SingleTracker::isTargetInsideFrame`. -/
def SingleTracker.isTargetInsideFrame (t : SingleTracker) (_frame_width _frame_height : Int) :
    Int :=
  let cur_x := t.center.x
  let cur_y := t.center.y
  let is_x_inside := decide (0 ≤ cur_x) && decide (cur_x < _frame_width)
  let is_y_inside := decide (0 ≤ cur_y) && decide (cur_y < _frame_height)
  if is_x_inside && is_y_inside then TRUE else FALSE

/-- Method `SingleTracker::doSingleTracking`: the returned code and the track
afterwards. The variable `confidence` that receives `update_noscale`'s result
is local to the `else` block, so `setConfidence(confidence)` is passed the
member. -/
def SingleTracker.doSingleTracking (t : SingleTracker) (_mat_img : Mat) (ext : External) :
    Int × SingleTracker :=
  if _mat_img.empty then (FAIL, t)
  else
    let t := if t.update_from_detection then t.setUpdateFromDetection false else t
    let t := t.setCenter ext.center
    let t := t.setRect ext.rect
    let t := t.setConfidence t.confidence
    let t := t.saveLastCenter t.center
    let t := t.calcVel ext.modvel
    let t := { t with no_update_counter := t.no_update_counter + 1 }
    (SUCCESS, t.markForDeletion)

/-! ## The tracking system -/

/-- The colour macros `COLOR_CAR`, `COLOR_PERSON`, `COLOR_UNKNOWN` of
`Tracker.h` (not under `src/`), taken as given. -/
structure Colors where
  COLOR_CAR : Scalar
  COLOR_PERSON : Scalar
  COLOR_UNKNOWN : Scalar

/-- The class `TrackingSystem`: the frame size, the initial targets, the
registry, and the string `last_event` points to. -/
structure TrackingSystem where
  frame_width : Int
  frame_height : Int
  init_target : List (Rect × Int)
  manager : TrackerManager
  last_event : String
deriving DecidableEq

/-- The `if` / `else if` that opens the body of the loops of
`initTrackingSystem` and `updateTrackingSystem`: an item labelled CAR or
PERSON sets `color` and `label`; for any other item they keep the values
they had. -/
def pickLabel (c : Colors) (second : Int) (color : Scalar) (label : Int) : Scalar × Int :=
  if second = LABEL_CAR then (c.COLOR_CAR, LABEL_CAR)
  else if second = LABEL_PERSON then (c.COLOR_PERSON, LABEL_PERSON)
  else (color, label)

/-- The loop of `initTrackingSystem` over the remaining targets; `index`,
`color` and `label` are the variables declared before the loop. -/
def initLoop (c : Colors) : List (Rect × Int) → Int → Scalar → Int →
    TrackerManager × String → Int × (TrackerManager × String)
  | [], _, _, _, st => (SUCCESS, st)
  | i :: rest, index, color, label, st =>
    let cl := pickLabel c i.2 color label
    let r := st.1.insertTracker i.1 cl.1 index cl.2 false st.2
    if r.1 = FAIL then (FAIL, r.2)
    else initLoop c rest (index + 1) cl.1 cl.2 r.2

/-- Method `TrackingSystem::initTrackingSystem`: the returned code and the
system afterwards. -/
def TrackingSystem.initTrackingSystem (c : Colors) (s : TrackingSystem) :
    Int × TrackingSystem :=
  let r := initLoop c s.init_target 0 c.COLOR_UNKNOWN LABEL_UNKNOWN (s.manager, s.last_event)
  (r.1, { s with manager := r.2.1, last_event := r.2.2 })

/-- The loop of `updateTrackingSystem` over the remaining detections;
`color` and `label` are the variables declared before the loop. -/
def updateLoop (c : Colors) : List (Rect × Int) → Scalar → Int →
    TrackerManager × String → Int × (TrackerManager × String)
  | [], _, _, st => (SUCCESS, st)
  | i :: rest, color, label, st =>
    let cl := pickLabel c i.2 color label
    let index := st.1.findTracker i.1 cl.2
    if index ≠ -1 then
      let r := st.1.insertTracker i.1 cl.1 index cl.2 true st.2
      if r.1 = FAIL then (FAIL, r.2)
      else updateLoop c rest cl.1 cl.2 r.2
    else updateLoop c rest cl.1 cl.2 st

/-- Method `TrackingSystem::updateTrackingSystem`: the returned code and the
system afterwards. -/
def TrackingSystem.updateTrackingSystem (c : Colors) (s : TrackingSystem)
    (updated_results : List (Rect × Int)) : Int × TrackingSystem :=
  let r := updateLoop c updated_results c.COLOR_UNKNOWN LABEL_UNKNOWN (s.manager, s.last_event)
  (r.1, { s with manager := r.2.1, last_event := r.2.2 })

/-- The first `for_each` of `startTracking`: a track whose tracking has not
started runs `startSingleTracking` and is flagged as started. -/
def startAll (_mat_img : Mat) (tracker_vec : List SingleTracker) : List SingleTracker :=
  tracker_vec.map (fun ptr =>
    if !ptr.is_tracking_started then
      ((ptr.startSingleTracking _mat_img).2).setIsTrackingStarted true
    else ptr)

/-- The thread pool of `startTracking`, joined: every track runs
`doSingleTracking` once; `ext k` is what the track at position `k` gets from
its dlib tracker. -/
def trackAll (_mat_img : Mat) (ext : Nat → External) :
    Nat → List SingleTracker → List SingleTracker
  | _, [] => []
  | k, ptr :: rest =>
    (ptr.doSingleTracking _mat_img (ext k)).2 :: trackAll _mat_img ext (k + 1) rest

/-- The tracks of the registry after the two update passes of
`startTracking`, before any deletion. -/
def TrackingSystem.updatedTracks (s : TrackingSystem) (_mat_img : Mat)
    (ext : Nat → External) : List SingleTracker :=
  trackAll _mat_img ext 0 (startAll _mat_img s.manager.tracker_vec)

/-- The vector `tracker_erase` of `startTracking`: the identities of the
tracks outside the frame or marked for deletion. -/
def trackerErase (frame_width frame_height : Int) (tracker_vec : List SingleTracker) :
    List Int :=
  (tracker_vec.filter (fun i =>
    decide (i.isTargetInsideFrame frame_width frame_height = FALSE) || i.to_delete)).map
    (fun i => i.target_id)

/-- The last loop of `startTracking`: `deleteTracker` for every collected
identity. -/
def eraseAll (tracker_erase : List Int) (st : TrackerManager × String) :
    TrackerManager × String :=
  tracker_erase.foldl (fun st i => (st.1.deleteTracker i st.2).2) st

/-- Method `TrackingSystem::startTracking`: the returned code and the system
afterwards. -/
def TrackingSystem.startTracking (s : TrackingSystem) (_mat_img : Mat)
    (ext : Nat → External) : Int × TrackingSystem :=
  if _mat_img.empty then (FAIL, s)
  else
    let tracked := s.updatedTracks _mat_img ext
    let tracker_erase := trackerErase s.frame_width s.frame_height tracked
    let r := eraseAll tracker_erase ({ s.manager with tracker_vec := tracked }, s.last_event)
    (SUCCESS, { s with manager := r.1, last_event := r.2 })

/-! ## Collisions -/

/-- Function `isValidCollision`. The areas are `double`s, modelled as
rationals; `threshold` is 0.2 and `ratioPtoC` is 31. When the labels differ
and the first is CAR, `std::swap` exchanges the labels and the two argument
pairs, while `a1` and `a2`, read before, keep their values. -/
def isValidCollision (area1 area2 : ℚ × Int) : Bool :=
  let ratioPtoC : ℚ := 31
  let threshold : ℚ := 2 / 10
  let a1 := area1.1
  let label1 := area1.2
  let a2 := area2.1
  let label2 := area2.2
  if label1 = LABEL_UNKNOWN ∨ label2 = LABEL_UNKNOWN then false
  else
    let labels : Int × Int :=
      if label1 ≠ label2 ∧ label1 = LABEL_CAR then (label2, label1) else (label1, label2)
    let label1 := labels.1
    let label2 := labels.2
    if label1 = LABEL_PERSON then
      if label2 = LABEL_PERSON then
        decide (a1 > a2 * (1 - threshold) ∧ a1 < a2 * (1 + threshold))
      else if label2 = LABEL_CAR then
        decide (a1 * ratioPtoC > a2 * (1 - threshold) ∧ a1 * ratioPtoC < a2 * (1 + threshold))
      else false
    else if label1 = LABEL_CAR then
      decide (a1 > a2 * (1 - threshold) ∧ a1 < a2 * (1 + threshold))
    else false

/-- The value `cvRound(n * .5)`: half of `n`, a half being rounded to the
even neighbour. -/
def roundHalf (n : Int) : Int :=
  if n % 2 = 0 then n / 2 else if (n / 2) % 2 = 0 then n / 2 else n / 2 + 1

/-- The point `(a + b) * .5` of `detectCollisions`, where the circle is drawn. -/
def midpoint (a b : Point) : Point := ⟨roundHalf (a + b).x, roundHalf (a + b).y⟩

/-- One collision `detectCollisions` reports: the two identities it prints
and the centre of the circle it draws. -/
structure Collision where
  id_i : Int
  id_j : Int
  mark : Point
deriving DecidableEq, Repr

/-- The test of `detectCollisions` on the tracks `iRef` and `jRef`. -/
def collides (iRef jRef : SingleTracker) : Bool :=
  let recti := iRef.rect
  let rectj := jRef.rect
  let intersects := decide ((recti.inter rectj).area > 0)
  intersects && isValidCollision ((recti.area : ℚ), iRef.label) ((rectj.area : ℚ), jRef.label)

/-- The inner loop of `detectCollisions`: `iRef` against the tracks after it. -/
def collisionsWith (iRef : SingleTracker) : List SingleTracker → List Collision
  | [] => []
  | jRef :: rest =>
    (if collides iRef jRef then
      [⟨iRef.target_id, jRef.target_id, midpoint iRef.center jRef.center⟩]
     else []) ++ collisionsWith iRef rest

/-- The outer loop of `detectCollisions`. -/
def collisionLoop : List SingleTracker → List Collision
  | [] => []
  | iRef :: rest => collisionsWith iRef rest ++ collisionLoop rest

/-- Method `TrackingSystem::detectCollisions`: the returned code, the
collisions reported, and the system afterwards. -/
def TrackingSystem.detectCollisions (s : TrackingSystem) :
    Int × List Collision × TrackingSystem :=
  if s.manager.tracker_vec.length = 0 then (FAIL, [], s)
  else (SUCCESS, collisionLoop s.manager.tracker_vec, s)

/-! ## Definitions that follow the specification -/

/-- Follows the spec's words: the collisions of "every unordered pair" of
tracks, taken as the pairs of positions `i < j` in registry order, whose
boxes have positive intersection area and pass `isValidCollision`; each is
reported with the two identities and the midpoint of the centres. -/
def collisionPairs (l : List SingleTracker) : List Collision :=
  (List.range l.length).flatMap (fun i =>
    (List.range l.length).filterMap (fun j =>
      match l[i]?, l[j]? with
      | some a, some b =>
        if i < j ∧ 0 < (a.rect.inter b.rect).area ∧
            isValidCollision ((a.rect.area : ℚ), a.label) ((b.rect.area : ℚ), b.label) = true
        then some ⟨a.target_id, b.target_id, midpoint a.center b.center⟩
        else none
      | _, _ => none))

/-- Follows the spec's words: the minimum of the distance `d` over the
candidates, if there is a candidate. -/
def minDist (d : SingleTracker → Int) : List SingleTracker → Option Int
  | [] => none
  | t :: ts =>
    match minDist d ts with
    | none => some (d t)
    | some m => some (min (d t) m)

/-- Follows the spec's words: the gated arg-min. A candidate is selected when
the minimum of `d` over all candidates is below `dist_thresh`, and it is the
first candidate, in registry order, that attains the minimum. -/
def gatedArgMin (d : SingleTracker → Int) (dist_thresh : Int)
    (candidates : List SingleTracker) : Option SingleTracker :=
  match minDist d candidates with
  | none => none
  | some m => if m < dist_thresh then candidates.find? (fun t => d t == m) else none

/-- A call names no identity below the counter: the identity an
`insertTracker` call names is already in the registry or is at least
`getNextID()`. -/
def Call.respectsCounter (m : TrackerManager) : Call → Bool
  | Call.insertRect _ _ id _ _ => m.ids.contains id || decide (m.getNextID ≤ id)
  | Call.insertShared (some nt) _ =>
    m.ids.contains nt.target_id || decide (m.getNextID ≤ nt.target_id)
  | Call.insertShared none _ => true
  | Call.erase _ => true

/-- Every call of the sequence respects the counter in the state it is made
in. -/
def callsRespectCounter (st : TrackerManager × String) : List Call → Bool
  | [] => true
  | c :: cs => c.respectsCounter st.1 && callsRespectCounter (c.apply st) cs

/-- The track `b` is the first element of `l` at which `d` is least: `d` is
strictly larger before it and at least as large after it. -/
def FirstArgMin (d : SingleTracker → Int) (l : List SingleTracker) (b : SingleTracker) : Prop :=
  ∃ p q, l = p ++ b :: q ∧ (∀ u ∈ p, d b < d u) ∧ (∀ u ∈ q, d b ≤ d u)

/-! ## Definitions for the remaining claims -/

/-- The constant `LABEL_BUS` of `yolo_labels.hpp`. -/
def LABEL_BUS : Int := 5

/-- The closing `if` / `else if` / `else if` of `findTracker`, branch by
branch; `none` stands for an `index` that no branch has assigned. -/
def assignIndex (best : Option SingleTracker) (new_object : Bool) (nextID : Int) :
    Option Int :=
  if best = none ∧ new_object = true then some nextID
  else if best ≠ none then best.map (fun b => b.target_id)
  else if new_object = false then some (-1)
  else none

/-- Method `TrackerManager::findTracker` with its closing chain kept as
written: the value returned, or `none` if `index` were returned unassigned. -/
def TrackerManager.findTrackerChecked (m : TrackerManager) (rect : Rect) (label : Int) :
    Option Int :=
  let dist_thresh : Int := (rect.height * rect.width) >>> (1 : Nat)
  let min_distance : Int := (rect.height * rect.width) + 10
  let (areas, selection) := overlapLoop rect label m.tracker_vec ([], [])
  let best := (bestLoop rect dist_thresh selection (min_distance, none)).2
  let new_object := newObjectLoop areas
  assignIndex best new_object m.getNextID

/-- One call on the tracking system after its initialisation:
`updateTrackingSystem`, `startTracking`, or `deleteTracker` on its registry. -/
inductive SysCall where
  | update (updated_results : List (Rect × Int))
  | track (_mat_img : Mat) (ext : Nat → External)
  | erase (id : Int)

/-- The system after one call. -/
def SysCall.apply (c : Colors) (s : TrackingSystem) : SysCall → TrackingSystem
  | SysCall.update updated_results => (s.updateTrackingSystem c updated_results).2
  | SysCall.track _mat_img ext => (s.startTracking _mat_img ext).2
  | SysCall.erase id =>
    { s with manager := (s.manager.deleteTracker id s.last_event).2.1,
             last_event := (s.manager.deleteTracker id s.last_event).2.2 }

/-- The system after one `initTrackingSystem` call followed by a sequence of
calls. -/
def runSystem (c : Colors) (s : TrackingSystem) (calls : List SysCall) : TrackingSystem :=
  calls.foldl (SysCall.apply c) (s.initTrackingSystem c).2

/-! ## Lemmas on the registry -/

theorem findIdx_split (p : SingleTracker → Bool) (l : List SingleTracker) :
    (l.findIdx? p = none ∧ ∀ t ∈ l, p t = false) ∨
    ∃ pre t post, l = pre ++ t :: post ∧ (∀ u ∈ pre, p u = false) ∧ p t = true ∧
      l.findIdx? p = some pre.length := by
  induction l with
  | nil => left; simp
  | cons a l ih =>
    by_cases ha : p a = true
    · right
      exact ⟨[], a, l, by simp, by simp, ha, by simp [List.findIdx?_cons, ha]⟩
    · have ha' : p a = false := by simpa using ha
      rcases ih with ⟨h1, h2⟩ | ⟨pre, t, post, h1, h2, h3, h4⟩
      · left
        refine ⟨?_, ?_⟩
        · simp [List.findIdx?_cons, ha', h1]
        · intro t ht
          rcases List.mem_cons.mp ht with rfl | ht
          · exact ha'
          · exact h2 t ht
      · right
        refine ⟨a :: pre, t, post, by simp [h1], ?_, h3, ?_⟩
        · intro u hu
          rcases List.mem_cons.mp hu with rfl | hu
          · exact ha'
          · exact h2 u hu
        · simp [List.findIdx?_cons, ha', h4]

theorem modifyAt_append (f : SingleTracker → SingleTracker) (pre : List SingleTracker)
    (t : SingleTracker) (post : List SingleTracker) :
    modifyAt f (pre ++ t :: post) pre.length = pre ++ f t :: post := by
  induction pre with
  | nil => simp [modifyAt]
  | cons a pre ih => simp [modifyAt, ih]

theorem eraseIdx_append_cons (pre : List SingleTracker)
    (t : SingleTracker) (post : List SingleTracker) :
    (pre ++ t :: post).eraseIdx pre.length = pre ++ post := by
  induction pre with
  | nil => simp
  | cons a pre ih => simp [ih]

/-- The two possible outcomes of `findTrackerByID`: `FAIL` when no track has
the identity, otherwise the position of the first track that has it. -/
theorem findTrackerByID_cases (m : TrackerManager) (id : Int) :
    (m.findTrackerByID id = FAIL ∧ ∀ t ∈ m.tracker_vec, t.target_id ≠ id) ∨
    ∃ pre t post, m.tracker_vec = pre ++ t :: post ∧
      (∀ u ∈ pre, u.target_id ≠ id) ∧ t.target_id = id ∧
      m.findTrackerByID id = (pre.length : Int) := by
  rcases findIdx_split (fun ptr => ptr.target_id == id) m.tracker_vec with
    ⟨h1, h2⟩ | ⟨pre, t, post, h1, h2, h3, h4⟩
  · left
    refine ⟨by simp [TrackerManager.findTrackerByID, h1], ?_⟩
    intro t ht
    simpa using h2 t ht
  · right
    refine ⟨pre, t, post, h1, ?_, by simpa using h3, by simp [TrackerManager.findTrackerByID, h4]⟩
    intro u hu
    simpa using h2 u hu

theorem natCast_ne_FAIL (n : Nat) : (n : Int) ≠ FAIL := by
  unfold FAIL; omega

theorem findTrackerByID_eq_FAIL_iff (m : TrackerManager) (id : Int) :
    m.findTrackerByID id = FAIL ↔ ∀ t ∈ m.tracker_vec, t.target_id ≠ id := by
  constructor
  · intro h
    rcases findTrackerByID_cases m id with ⟨_, h2⟩ | ⟨pre, t, post, _, _, _, h4⟩
    · exact h2
    · rw [h4] at h
      exact absurd h (natCast_ne_FAIL _)
  · intro h
    rcases findTrackerByID_cases m id with ⟨h1, _⟩ | ⟨pre, t, post, h1, _, h3, _⟩
    · exact h1
    · exact absurd h3 (h t (by simp [h1]))

theorem ids_modifyAt (f : SingleTracker → SingleTracker)
    (hf : ∀ t, (f t).target_id = t.target_id) (l : List SingleTracker) (i : Nat) :
    (modifyAt f l i).map (fun t => t.target_id) = l.map (fun t => t.target_id) := by
  induction l generalizing i with
  | nil => simp [modifyAt]
  | cons a l ih =>
    cases i with
    | zero => simp [modifyAt, hf]
    | succ i => simp [modifyAt, ih]

theorem insertTracker_ids_nodup (m : TrackerManager) (rect : Rect) (color : Scalar)
    (id label : Int) (update : Bool) (ev : String) (h : m.ids.Nodup) :
    (m.insertTracker rect color id label update ev).2.1.ids.Nodup := by
  unfold TrackerManager.insertTracker
  by_cases ha : rect.area = 0
  · simpa [ha] using h
  · rcases findTrackerByID_cases m id with ⟨h1, h2⟩ | ⟨pre, t, post, h1, h2, h3, h4⟩
    · simp only [ha, h1, if_false, ne_eq, not_true_eq_false, TrackerManager.ids,
        List.map_append, List.map_cons, List.map_nil]
      rw [List.nodup_append]
      refine ⟨h, by simp, ?_⟩
      intro a ha1 ha2
      simp only [List.mem_singleton] at ha2
      rcases List.mem_map.mp ha1 with ⟨u, hu, hu2⟩
      apply h2 u hu
      rw [hu2, ha2]
      rfl
    · have hne : (pre.length : Int) ≠ FAIL := natCast_ne_FAIL _
      cases update with
      | false => simpa [ha, h4, hne] using h
      | true =>
        simp only [ha, h4, hne, if_false, ne_eq, not_false_eq_true, if_true,
          Bool.not_true, Bool.false_eq_true, TrackerManager.ids]
        rw [ids_modifyAt]
        · exact h
        · intro t; rfl

theorem insertTrackerPtr_ids_nodup (m : TrackerManager) (p : Option SingleTracker)
    (update : Bool) (h : m.ids.Nodup) :
    (m.insertTrackerPtr p update).2.ids.Nodup := by
  unfold TrackerManager.insertTrackerPtr
  cases p with
  | none => simpa using h
  | some nt =>
    rcases findTrackerByID_cases m nt.target_id with ⟨h1, h2⟩ | ⟨pre, t, post, h1, h2, h3, h4⟩
    · simp only [h1, if_false, ne_eq, not_true_eq_false, TrackerManager.ids,
        List.map_append, List.map_cons, List.map_nil]
      rw [List.nodup_append]
      refine ⟨h, by simp, ?_⟩
      intro a ha1 ha2
      simp only [List.mem_singleton] at ha2
      rcases List.mem_map.mp ha1 with ⟨u, hu, hu2⟩
      apply h2 u hu
      rw [hu2, ha2]
    · have hne : (pre.length : Int) ≠ FAIL := natCast_ne_FAIL _
      cases update with
      | false => simpa [h4, hne] using h
      | true =>
        simp only [h4, hne, if_false, ne_eq, not_false_eq_true, if_true,
          Bool.not_true, Bool.false_eq_true, TrackerManager.ids]
        rw [ids_modifyAt]
        · exact h
        · intro t; rfl

theorem deleteTracker_ids_nodup (m : TrackerManager) (id : Int) (ev : String)
    (h : m.ids.Nodup) : (m.deleteTracker id ev).2.1.ids.Nodup := by
  unfold TrackerManager.deleteTracker
  by_cases hf : m.findTrackerByID id = FAIL
  · simpa [hf] using h
  · simp only [hf, if_false, TrackerManager.ids]
    exact List.Nodup.sublist
      (List.Sublist.map _ (List.eraseIdx_sublist m.tracker_vec _)) h

theorem apply_ids_nodup (st : TrackerManager × String) (c : Call) (h : st.1.ids.Nodup) :
    (c.apply st).1.ids.Nodup := by
  cases c with
  | insertRect rect color id label update =>
    exact insertTracker_ids_nodup st.1 rect color id label update st.2 h
  | insertShared p update => exact insertTrackerPtr_ids_nodup st.1 p update h
  | erase id => exact deleteTracker_ids_nodup st.1 id st.2 h

theorem runCalls_ids_nodup (calls : List Call) (st : TrackerManager × String)
    (h : st.1.ids.Nodup) : (runCalls st calls).1.ids.Nodup := by
  induction calls generalizing st with
  | nil => exact h
  | cons c cs ih => exact ih (c.apply st) (apply_ids_nodup st c h)

/-- Claim C1. Starting from an empty registry (whatever the next-identity counter
and the last event are), after every finite sequence of `insertTracker` calls
(either overload, any arguments) and `deleteTracker` calls, the identities of
the tracks in `tracker_vec` are pairwise distinct. -/
theorem C1_identity_unique (n : Int) (ev : String) (calls : List Call) :
    ((runCalls (⟨[], n⟩, ev) calls).1.tracker_vec.map (fun t => t.target_id)).Nodup :=
  runCalls_ids_nodup calls (⟨[], n⟩, ev) (by simp [TrackerManager.ids])

/-! ## Lemmas on `findTracker` -/

theorem overlapLoop_eq (rect : Rect) (label : Int) (l : List SingleTracker)
    (areas : List Dbl) (selection : List SingleTracker) :
    overlapLoop rect label l (areas, selection) =
      (areas ++ l.map (fun t => maxPerArea t rect),
       selection ++ l.filter (fun t =>
         decide (Dbl.lt max_overlap_thresh (maxPerArea t rect) = true ∧
           (t.label = label ∨ t.label = LABEL_UNKNOWN)))) := by
  induction l generalizing areas selection with
  | nil => simp [overlapLoop]
  | cons a l ih =>
    unfold overlapLoop
    dsimp only
    by_cases hc : Dbl.lt max_overlap_thresh (maxPerArea a rect) = true ∧
        (a.label = label ∨ a.label = LABEL_UNKNOWN)
    · rw [if_pos hc, ih]
      simp [List.filter_cons, hc]
    · rw [if_neg hc, ih]
      simp [List.filter_cons, hc]

theorem newObjectLoop_eq_true_iff (areas : List Dbl) :
    newObjectLoop areas = true ↔ ∀ a ∈ areas, Dbl.ne a (Dbl.fin 0) = false := by
  induction areas with
  | nil => simp [newObjectLoop]
  | cons a l ih =>
    unfold newObjectLoop
    by_cases h : Dbl.ne a (Dbl.fin 0) = true
    · simp [h]
    · have h' : Dbl.ne a (Dbl.fin 0) = false := by simpa using h
      simp [h', ih]

theorem centerDistance_nonneg (t : SingleTracker) (rect : Rect) :
    0 ≤ centerDistance t rect := by
  unfold centerDistance
  exact add_nonneg (mul_self_nonneg _) (mul_self_nonneg _)

theorem bestLoop_append (rect : Rect) (th : Int) (l1 l2 : List SingleTracker)
    (st : Int × Option SingleTracker) :
    bestLoop rect th (l1 ++ l2) st = bestLoop rect th l2 (bestLoop rect th l1 st) := by
  induction l1 generalizing st with
  | nil => simp [bestLoop]
  | cons a l ih =>
    obtain ⟨md, best⟩ := st
    simp only [List.cons_append, bestLoop]
    split_ifs <;> exact ih _

/-- Once the running minimum is 0, no later candidate replaces `best`. -/
theorem bestLoop_zero (rect : Rect) (th : Int) (l : List SingleTracker) (b : SingleTracker) :
    bestLoop rect th l (0, some b) = (0, some b) := by
  induction l with
  | nil => simp [bestLoop]
  | cons a l ih =>
    have h := centerDistance_nonneg a rect
    have h1 : ¬ ((some b : Option SingleTracker) = none ∧ centerDistance a rect < th) := by
      simp
    have h2 : ¬ ((some b : Option SingleTracker) ≠ none ∧ centerDistance a rect < 0) := by
      intro hh; omega
    simp only [bestLoop]
    rw [if_neg h1, if_neg h2]
    exact ih

/-- While every candidate seen is at a positive distance, either nothing is
selected or the running minimum is positive. -/
theorem bestLoop_pos (rect : Rect) (th : Int) (l : List SingleTracker)
    (hl : ∀ u ∈ l, centerDistance u rect ≠ 0) (st : Int × Option SingleTracker)
    (hst : st.2 = none ∨ 0 < st.1) :
    (bestLoop rect th l st).2 = none ∨ 0 < (bestLoop rect th l st).1 := by
  induction l generalizing st with
  | nil => simpa [bestLoop] using hst
  | cons a l ih =>
    obtain ⟨md, best⟩ := st
    have ha : 0 < centerDistance a rect :=
      lt_of_le_of_ne (centerDistance_nonneg a rect) (Ne.symm (hl a (by simp)))
    have hl' : ∀ u ∈ l, centerDistance u rect ≠ 0 := fun u hu => hl u (by simp [hu])
    simp only [bestLoop]
    split_ifs
    · exact ih hl' _ (Or.inr ha)
    · exact ih hl' _ (Or.inr ha)
    · exact ih hl' _ hst

/-- A candidate at distance 0, met when every earlier candidate was at a
positive distance and the threshold is positive, is the final `best`. -/
theorem bestLoop_first_zero (rect : Rect) (th : Int) (hth : 0 < th)
    (pre post : List SingleTracker) (T : SingleTracker)
    (hpre : ∀ u ∈ pre, centerDistance u rect ≠ 0) (hT : centerDistance T rect = 0)
    (md : Int) :
    (bestLoop rect th (pre ++ T :: post) (md, none)).2 = some T := by
  rw [bestLoop_append]
  have h := bestLoop_pos rect th pre hpre (md, none) (Or.inl rfl)
  generalize bestLoop rect th pre (md, none) = st at h
  obtain ⟨md', best⟩ := st
  simp only [bestLoop, hT]
  cases best with
  | none =>
    have h1 : (none : Option SingleTracker) = none ∧ (0 : Int) < th := ⟨rfl, hth⟩
    rw [if_pos h1, bestLoop_zero]
  | some b =>
    have hmd : 0 < md' := by
      rcases h with h | h
      · exact absurd h (by simp)
      · exact h
    have h1 : ¬ ((some b : Option SingleTracker) = none ∧ (0 : Int) < th) := by simp
    have h2 : (some b : Option SingleTracker) ≠ none ∧ (0 : Int) < md' := ⟨by simp, hmd⟩
    rw [if_neg h1, if_pos h2, bestLoop_zero]

theorem bestLoop_nil_selection (rect : Rect) (th md : Int) :
    (bestLoop rect th [] (md, none)).2 = none := by
  simp [bestLoop]

/-- The intersection of a box of positive width and height with itself. -/
theorem Rect.inter_self (r : Rect) (hw : 0 < r.width) (hh : 0 < r.height) :
    r.inter r = r := by
  unfold Rect.inter
  simp only [max_self, min_self, add_sub_cancel_left]
  rw [if_neg (by omega)]

/-- The area of an intersection is never negative. -/
theorem Rect.inter_area_nonneg (a b : Rect) : 0 ≤ (a.inter b).area := by
  unfold Rect.inter Rect.area
  dsimp only
  split_ifs with h
  · simp
  · push_neg at h
    exact le_of_lt (mul_pos h.1 h.2)

theorem maxPerArea_self (t : SingleTracker) (hw : 0 < t.rect.width) (hh : 0 < t.rect.height) :
    maxPerArea t t.rect = Dbl.fin 1 := by
  have ha : 0 < t.rect.area := mul_pos hw hh
  have ha' : t.rect.area ≠ 0 := ne_of_gt ha
  have hq : (t.rect.area : ℚ) ≠ 0 := by exact_mod_cast ha'
  unfold maxPerArea
  simp only [Rect.inter_self t.rect hw hh, Dbl.divInt, ha', if_false, div_self hq, Dbl.max,
    Dbl.lt]
  simp

theorem maxPerArea_zero (t : SingleTracker) (rect : Rect)
    (hin : (t.rect.inter rect).area = 0) (ht : t.rect.area ≠ 0) (hr : rect.area ≠ 0) :
    maxPerArea t rect = Dbl.fin 0 := by
  unfold maxPerArea
  simp [hin, Dbl.divInt, ht, hr, Dbl.max, Dbl.lt]

@[simp] theorem Point.sub_x (a b : Point) : (a - b).x = a.x - b.x := rfl

@[simp] theorem Point.sub_y (a b : Point) : (a - b).y = a.y - b.y := rfl

theorem findTracker_eq (m : TrackerManager) (rect : Rect) (label : Int) :
    m.findTracker rect label =
      match (bestLoop rect ((rect.height * rect.width) >>> (1 : Nat))
          (m.tracker_vec.filter (fun t =>
            decide (Dbl.lt max_overlap_thresh (maxPerArea t rect) = true ∧
              (t.label = label ∨ t.label = LABEL_UNKNOWN))))
          ((rect.height * rect.width) + 10, none)).2 with
      | some b => b.target_id
      | none =>
        if newObjectLoop (m.tracker_vec.map (fun t => maxPerArea t rect)) then m.getNextID
        else -1 := by
  unfold TrackerManager.findTracker
  simp only [overlapLoop_eq, List.nil_append]

theorem centerDistance_eq_zero_iff (t : SingleTracker) (rect : Rect) :
    centerDistance t rect = 0 ↔ t.center = rect.center := by
  unfold centerDistance
  simp only [Point.sub_x, Point.sub_y]
  constructor
  · intro h
    have h1 : (t.center.x - rect.center.x) * (t.center.x - rect.center.x) = 0 := by
      nlinarith [mul_self_nonneg (t.center.x - rect.center.x),
        mul_self_nonneg (t.center.y - rect.center.y)]
    have h2 : (t.center.y - rect.center.y) * (t.center.y - rect.center.y) = 0 := by
      nlinarith [mul_self_nonneg (t.center.x - rect.center.x),
        mul_self_nonneg (t.center.y - rect.center.y)]
    have h3 : t.center.x = rect.center.x := by
      have := mul_self_eq_zero.mp h1; omega
    have h4 : t.center.y = rect.center.y := by
      have := mul_self_eq_zero.mp h2; omega
    cases hc : t.center
    cases hr : rect.center
    simp_all
  · intro h
    rw [h]; simp

theorem shiftRight_one_pos (a : Int) (h : 2 ≤ a) : (0 : Int) < a >>> (1 : Nat) := by
  rw [Int.shiftRight_eq_div_pow]
  norm_num
  omega

/-- With no track of zero area in the registry, a detection of non-zero area
whose intersection with every track has area zero gets `getNextID()`. -/
theorem findTracker_no_overlap (m : TrackerManager) (rect : Rect) (label : Int)
    (hr : rect.area ≠ 0) (ht : ∀ t ∈ m.tracker_vec, t.rect.area ≠ 0)
    (hin : ∀ t ∈ m.tracker_vec, (t.rect.inter rect).area = 0) :
    m.findTracker rect label = m.getNextID := by
  rw [findTracker_eq]
  have hsel : m.tracker_vec.filter (fun t =>
      decide (Dbl.lt max_overlap_thresh (maxPerArea t rect) = true ∧
        (t.label = label ∨ t.label = LABEL_UNKNOWN))) = [] := by
    rw [List.filter_eq_nil_iff]
    intro t htm
    rw [maxPerArea_zero t rect (hin t htm) (ht t htm) hr]
    simp only [max_overlap_thresh, Dbl.lt]
    norm_num
  have hnew : newObjectLoop (m.tracker_vec.map (fun t => maxPerArea t rect)) = true := by
    rw [newObjectLoop_eq_true_iff]
    intro a ha
    rcases List.mem_map.mp ha with ⟨t, htm, rfl⟩
    rw [maxPerArea_zero t rect (hin t htm) (ht t htm) hr]
    simp [Dbl.ne]
  rw [hsel, hnew]
  simp [bestLoop]

/-- Claim C2, amended. For a registry `pre ++ T :: post` and a detection whose box
is `T`'s box and whose label is `T`'s label: when the box has positive width
and height and an area of at least 2, `T`'s centre is the centre of its box,
and no track before `T` in the registry has that same centre, `findTracker`
returns `T`'s identity. -/
theorem C2_identical_box (m : TrackerManager) (pre post : List SingleTracker)
    (T : SingleTracker) (hvec : m.tracker_vec = pre ++ T :: post)
    (hw : 0 < T.rect.width) (hh : 0 < T.rect.height)
    (harea : 2 ≤ T.rect.width * T.rect.height)
    (hcenter : T.center = T.rect.center)
    (hfirst : ∀ u ∈ pre, u.center ≠ T.rect.center) :
    m.findTracker T.rect T.label = T.target_id := by
  rw [findTracker_eq, hvec, List.filter_append, List.filter_cons]
  have hT : decide (Dbl.lt max_overlap_thresh (maxPerArea T T.rect) = true ∧
      (T.label = T.label ∨ T.label = LABEL_UNKNOWN)) = true := by
    rw [maxPerArea_self T hw hh]
    simp only [max_overlap_thresh, Dbl.lt, true_or, and_true, decide_eq_true_eq]
    norm_num
  rw [if_pos hT]
  have hth : (0 : Int) < (T.rect.height * T.rect.width) >>> (1 : Nat) :=
    shiftRight_one_pos _ (by rw [mul_comm]; exact harea)
  have hpre : ∀ u ∈ pre.filter (fun t =>
      decide (Dbl.lt max_overlap_thresh (maxPerArea t T.rect) = true ∧
        (t.label = T.label ∨ t.label = LABEL_UNKNOWN))), centerDistance u T.rect ≠ 0 := by
    intro u hu hd
    exact hfirst u (List.mem_filter.mp hu).1 ((centerDistance_eq_zero_iff u T.rect).mp hd)
  rw [bestLoop_first_zero T.rect _ hth _ _ T hpre
    ((centerDistance_eq_zero_iff T T.rect).mpr hcenter)]

/-- Witness of claim C2 as amended: the 10x10 PERSON track of identity 0, second in
a registry whose first track lies elsewhere. -/
theorem C2_identical_box_witness :
    (⟨[SingleTracker.new 4 ⟨50, 50, 10, 10⟩ ⟨0, 0, 255, 0⟩ LABEL_CAR,
       SingleTracker.new 0 ⟨0, 0, 10, 10⟩ ⟨0, 0, 255, 0⟩ LABEL_PERSON], 5⟩ :
        TrackerManager).findTracker ⟨0, 0, 10, 10⟩ LABEL_PERSON = 0 :=
  C2_identical_box
    ⟨[SingleTracker.new 4 ⟨50, 50, 10, 10⟩ ⟨0, 0, 255, 0⟩ LABEL_CAR,
      SingleTracker.new 0 ⟨0, 0, 10, 10⟩ ⟨0, 0, 255, 0⟩ LABEL_PERSON], 5⟩
    [SingleTracker.new 4 ⟨50, 50, 10, 10⟩ ⟨0, 0, 255, 0⟩ LABEL_CAR] []
    (SingleTracker.new 0 ⟨0, 0, 10, 10⟩ ⟨0, 0, 255, 0⟩ LABEL_PERSON) rfl
    (by decide) (by decide) (by decide) rfl
    (by intro u hu; simp at hu; subst hu; decide)

/-- Counterexample to claim C2. A 1x1 PERSON track of identity 0, alone in the
registry, and a detection with the same box and label: the box has area 1,
yet `findTracker` returns -1, not the identity 0. And with two tracks of the
same 10x10 box and label, identities 0 and 1, a detection of that box and
label resolves to 0, not to the second track's identity 1. -/
theorem C2_counterexample :
    (Rect.area ⟨0, 0, 1, 1⟩ ≠ 0 ∧
      (SingleTracker.new 0 ⟨0, 0, 1, 1⟩ ⟨0, 0, 255, 0⟩ LABEL_PERSON).target_id = 0 ∧
      (⟨[SingleTracker.new 0 ⟨0, 0, 1, 1⟩ ⟨0, 0, 255, 0⟩ LABEL_PERSON], 1⟩ :
        TrackerManager).findTracker ⟨0, 0, 1, 1⟩ LABEL_PERSON = -1) ∧
    (Rect.area ⟨0, 0, 10, 10⟩ ≠ 0 ∧
      (SingleTracker.new 1 ⟨0, 0, 10, 10⟩ ⟨0, 0, 255, 0⟩ LABEL_PERSON).target_id = 1 ∧
      (⟨[SingleTracker.new 0 ⟨0, 0, 10, 10⟩ ⟨0, 0, 255, 0⟩ LABEL_PERSON,
         SingleTracker.new 1 ⟨0, 0, 10, 10⟩ ⟨0, 0, 255, 0⟩ LABEL_PERSON], 2⟩ :
        TrackerManager).findTracker ⟨0, 0, 10, 10⟩ LABEL_PERSON = 0) := by
  refine ⟨⟨by decide, rfl, ?_⟩, ⟨by decide, rfl, ?_⟩⟩
  · have e1 : ((1 : Int) >>> (1 : Nat)) = 0 := by decide
    have e2 : Int.tdiv 1 2 = 0 := by decide
    norm_num [TrackerManager.findTracker, overlapLoop, maxPerArea, SingleTracker.new,
      Rect.inter, Rect.area, Dbl.divInt, Dbl.max, Dbl.lt, max_overlap_thresh, bestLoop,
      centerDistance, newObjectLoop, Dbl.ne, Rect.center, LABEL_PERSON, e1, e2]
  · have e1 : ((100 : Int) >>> (1 : Nat)) = 50 := by decide
    have e2 : Int.tdiv 10 2 = 5 := by decide
    norm_num [TrackerManager.findTracker, overlapLoop, maxPerArea, SingleTracker.new,
      Rect.inter, Rect.area, Dbl.divInt, Dbl.max, Dbl.lt, max_overlap_thresh, bestLoop,
      centerDistance, newObjectLoop, Dbl.ne, Rect.center, LABEL_PERSON, e1, e2]
    simp

/-- Claim C3, the failing input. A track whose box has zero area enters the (empty)
registry through the `shared_ptr` overload of `insertTracker`, which has no
area check. For the 10x10 detection at (100,100) the intersection with that
track has area zero, the ratio `0.0 / 0` is NaN, NaN differs from `0.0`, and
`findTracker` returns -1 although `getNextID()` is 1. -/
theorem C3_zero_area_track :
    (TrackerManager.insertTrackerPtr ⟨[], 0⟩
        (some (SingleTracker.new 0 ⟨0, 0, 0, 0⟩ ⟨0, 0, 255, 0⟩ LABEL_PERSON)) false) =
      (SUCCESS, ⟨[SingleTracker.new 0 ⟨0, 0, 0, 0⟩ ⟨0, 0, 255, 0⟩ LABEL_PERSON], 1⟩) ∧
    Rect.area ⟨100, 100, 10, 10⟩ ≠ 0 ∧
    ((SingleTracker.new 0 ⟨0, 0, 0, 0⟩ ⟨0, 0, 255, 0⟩ LABEL_PERSON).rect.inter
        ⟨100, 100, 10, 10⟩).area = 0 ∧
    maxPerArea (SingleTracker.new 0 ⟨0, 0, 0, 0⟩ ⟨0, 0, 255, 0⟩ LABEL_PERSON)
      ⟨100, 100, 10, 10⟩ = Dbl.nan ∧
    (⟨[SingleTracker.new 0 ⟨0, 0, 0, 0⟩ ⟨0, 0, 255, 0⟩ LABEL_PERSON], 1⟩ :
        TrackerManager).findTracker ⟨100, 100, 10, 10⟩ LABEL_PERSON = -1 ∧
    (⟨[SingleTracker.new 0 ⟨0, 0, 0, 0⟩ ⟨0, 0, 255, 0⟩ LABEL_PERSON], 1⟩ :
        TrackerManager).getNextID = 1 := by
  refine ⟨?_, by decide, ?_, ?_, ?_, rfl⟩
  · simp [TrackerManager.insertTrackerPtr, TrackerManager.findTrackerByID, SingleTracker.new]
  · decide
  · simp [maxPerArea, SingleTracker.new, Rect.inter, Rect.area, Dbl.divInt, Dbl.max, Dbl.lt]
  · have e1 : ((100 : Int) >>> (1 : Nat)) = 50 := by decide
    norm_num [TrackerManager.findTracker, overlapLoop, maxPerArea, SingleTracker.new,
      Rect.inter, Rect.area, Dbl.divInt, Dbl.max, Dbl.lt, max_overlap_thresh, bestLoop,
      centerDistance, newObjectLoop, Dbl.ne, Rect.center, LABEL_PERSON, e1]

/-- Claim C4, amended. The tracks `findTracker` selects as candidates are, in
registry order, exactly those whose overlap ratio with the detection exceeds
0.9 and whose label equals the detection's label or is `LABEL_UNKNOWN`; the
detection's own label is no wildcard: a detection labelled `LABEL_UNKNOWN`
whose box (of positive width and height) is the box of the only track, a
`LABEL_PERSON` track, gets -1. -/
theorem C4_candidate_rule (rect : Rect) (label : Int) (l : List SingleTracker) :
    (overlapLoop rect label l ([], [])).2 =
      l.filter (fun t =>
        decide (Dbl.lt (Dbl.fin (9 / 10)) (maxPerArea t rect) = true ∧
          (t.label = label ∨ t.label = LABEL_UNKNOWN))) ∧
    (∀ (T : SingleTracker) (n : Int), 0 < T.rect.width → 0 < T.rect.height →
      T.label = LABEL_PERSON →
      (⟨[T], n⟩ : TrackerManager).findTracker T.rect LABEL_UNKNOWN = -1) := by
  constructor
  · rw [overlapLoop_eq]
    rfl
  · intro T n hw hh hl
    rw [findTracker_eq]
    have hsel : [T].filter (fun t =>
        decide (Dbl.lt max_overlap_thresh (maxPerArea t T.rect) = true ∧
          (t.label = LABEL_UNKNOWN ∨ t.label = LABEL_UNKNOWN))) = [] := by
      rw [List.filter_eq_nil_iff]
      intro t ht
      simp only [List.mem_singleton] at ht
      subst ht
      simp [hl, LABEL_PERSON, LABEL_UNKNOWN]
    have hnew : newObjectLoop ([T].map (fun t => maxPerArea t T.rect)) = false := by
      simp [maxPerArea_self T hw hh, newObjectLoop, Dbl.ne]
    simp only [hsel, hnew]
    simp [bestLoop]

/-- Witness of claim C4 as amended: the PERSON track of box (0,0,10,10). -/
theorem C4_candidate_rule_witness :
    (⟨[SingleTracker.new 0 ⟨0, 0, 10, 10⟩ ⟨0, 0, 255, 0⟩ LABEL_PERSON], 1⟩ :
        TrackerManager).findTracker
      (SingleTracker.new 0 ⟨0, 0, 10, 10⟩ ⟨0, 0, 255, 0⟩ LABEL_PERSON).rect LABEL_UNKNOWN = -1 :=
  (C4_candidate_rule ⟨0, 0, 10, 10⟩ LABEL_UNKNOWN []).2
    (SingleTracker.new 0 ⟨0, 0, 10, 10⟩ ⟨0, 0, 255, 0⟩ LABEL_PERSON) 1
    (by decide) (by decide) rfl

/-- Counterexample to claim C4. The only track is a PERSON track of identity 0 with
box (0,0,10,10); the detection has the same box and label `LABEL_UNKNOWN`.
The overlap ratio is 1, above 0.9, and the detection's label is UNKNOWN, yet
the track is not selected and `findTracker` returns -1 instead of 0. -/
theorem C4_counterexample :
    maxPerArea (SingleTracker.new 0 ⟨0, 0, 10, 10⟩ ⟨0, 0, 255, 0⟩ LABEL_PERSON)
      ⟨0, 0, 10, 10⟩ = Dbl.fin 1 ∧
    (overlapLoop ⟨0, 0, 10, 10⟩ LABEL_UNKNOWN
      [SingleTracker.new 0 ⟨0, 0, 10, 10⟩ ⟨0, 0, 255, 0⟩ LABEL_PERSON] ([], [])).2 = [] ∧
    (⟨[SingleTracker.new 0 ⟨0, 0, 10, 10⟩ ⟨0, 0, 255, 0⟩ LABEL_PERSON], 1⟩ :
        TrackerManager).findTracker ⟨0, 0, 10, 10⟩ LABEL_UNKNOWN = -1 := by
  have e1 : ((100 : Int) >>> (1 : Nat)) = 50 := by decide
  have e2 : Int.tdiv 10 2 = 5 := by decide
  refine ⟨?_, ?_, ?_⟩
  · exact maxPerArea_self _ (by decide) (by decide)
  · norm_num [overlapLoop, maxPerArea, SingleTracker.new, Rect.inter, Rect.area, Dbl.divInt,
      Dbl.max, Dbl.lt, max_overlap_thresh, LABEL_PERSON, LABEL_UNKNOWN]
  · norm_num [TrackerManager.findTracker, overlapLoop, maxPerArea, SingleTracker.new,
      Rect.inter, Rect.area, Dbl.divInt, Dbl.max, Dbl.lt, max_overlap_thresh, bestLoop,
      centerDistance, newObjectLoop, Dbl.ne, Rect.center, LABEL_PERSON, LABEL_UNKNOWN, e1, e2]

/-! ## Insertion, deletion and the deletion mark -/

/-- Claim C5. When the registry already holds a track of identity `id`, the call
`insertTracker(box, color, id, label, update=false)` with a non-zero-area box
returns `FAIL` and the registry (every track, their order, the next-identity
counter) and `*last_event` are exactly as before. -/
theorem C5_insert_duplicate_fails (m : TrackerManager) (box : Rect) (color : Scalar)
    (id label : Int) (ev : String) (hbox : box.area ≠ 0)
    (hid : ∃ t ∈ m.tracker_vec, t.target_id = id) :
    m.insertTracker box color id label false ev = (FAIL, m, ev) := by
  have hne : m.findTrackerByID id ≠ FAIL := by
    intro h
    obtain ⟨t, ht, hti⟩ := hid
    exact (findTrackerByID_eq_FAIL_iff m id).mp h t ht hti
  simp [TrackerManager.insertTracker, hbox, hne]

/-- Witness of claim C5 on the registry holding one 10x10 track of identity 0. -/
theorem C5_insert_duplicate_fails_witness :
    (⟨[SingleTracker.new 0 ⟨0, 0, 10, 10⟩ ⟨0, 0, 255, 0⟩ LABEL_PERSON], 1⟩ :
        TrackerManager).insertTracker ⟨5, 5, 10, 10⟩ ⟨0, 0, 255, 0⟩ 0 LABEL_CAR false ""
      = (FAIL, ⟨[SingleTracker.new 0 ⟨0, 0, 10, 10⟩ ⟨0, 0, 255, 0⟩ LABEL_PERSON], 1⟩, "") :=
  C5_insert_duplicate_fails _ ⟨5, 5, 10, 10⟩ _ 0 _ "" (by decide)
    ⟨SingleTracker.new 0 ⟨0, 0, 10, 10⟩ ⟨0, 0, 255, 0⟩ LABEL_PERSON, by simp, rfl⟩

/-- Claim C6. For a box with `width * height = 0`, `insertTracker` returns `FAIL`
for `update = false` and for `update = true`, whether or not the identity is
in the registry, and the registry, the next-identity counter and
`*last_event` are exactly as before. -/
theorem C6_insert_zero_area_fails (m : TrackerManager) (box : Rect) (color : Scalar)
    (id label : Int) (update : Bool) (ev : String) (hbox : box.width * box.height = 0) :
    m.insertTracker box color id label update ev = (FAIL, m, ev) := by
  have h : box.area = 0 := hbox
  simp [TrackerManager.insertTracker, h]

/-- Witness of claim C6: a 0x10 box, `update = true`, identity 0 present. -/
theorem C6_insert_zero_area_fails_witness :
    (⟨[SingleTracker.new 0 ⟨0, 0, 10, 10⟩ ⟨0, 0, 255, 0⟩ LABEL_PERSON], 1⟩ :
        TrackerManager).insertTracker ⟨5, 5, 0, 10⟩ ⟨0, 0, 255, 0⟩ 0 LABEL_CAR true ""
      = (FAIL, ⟨[SingleTracker.new 0 ⟨0, 0, 10, 10⟩ ⟨0, 0, 255, 0⟩ LABEL_PERSON], 1⟩, "") :=
  C6_insert_zero_area_fails _ ⟨5, 5, 0, 10⟩ _ 0 _ true "" (by decide)

/-- Claim C7. When the registry holds a track of identity `id` and the box has
non-zero area, `insertTracker(box, color, id, label, update=true)` returns
`SUCCESS`; the first (hence, identities being unique, the) track `t` of
identity `id` gets box `box`, label `label`, colour `color`, the
update-from-detection flag set and the no-update counter 0 (and the centre of
the box), all its other fields, its identity among them, being kept; the
tracks before and after it, the length and order of the registry, the
next-identity counter and `*last_event` are unchanged. -/
theorem C7_insert_update (m : TrackerManager) (box : Rect) (color : Scalar)
    (id label : Int) (ev : String) (hbox : box.area ≠ 0)
    (hid : ∃ t ∈ m.tracker_vec, t.target_id = id) :
    ∃ pre t post, m.tracker_vec = pre ++ t :: post ∧
      (∀ u ∈ pre, u.target_id ≠ id) ∧ t.target_id = id ∧
      m.insertTracker box color id label true ev =
        (SUCCESS,
         { tracker_vec := pre ++
             { t with center := box.center, rect := box, label := label, color := color,
                      update_from_detection := true, no_update_counter := 0 } :: post,
           id_list := m.id_list },
         ev) := by
  rcases findTrackerByID_cases m id with ⟨_, h2⟩ | ⟨pre, t, post, h1, h2, h3, h4⟩
  · obtain ⟨t, ht, hti⟩ := hid
    exact absurd hti (h2 t ht)
  · refine ⟨pre, t, post, h1, h2, h3, ?_⟩
    have hne : (pre.length : Int) ≠ FAIL := natCast_ne_FAIL _
    simp only [TrackerManager.insertTracker, hbox, h4, hne, if_false, ne_eq,
      not_false_eq_true, if_true, Bool.not_true, Bool.false_eq_true, Int.toNat_ofNat]
    rw [h1, modifyAt_append]
    rfl

/-- Witness of claim C7 on the registry holding one 10x10 track of identity 0. -/
theorem C7_insert_update_witness :
    ∃ pre t post,
      (⟨[SingleTracker.new 0 ⟨0, 0, 10, 10⟩ ⟨0, 0, 255, 0⟩ LABEL_PERSON], 1⟩ :
        TrackerManager).tracker_vec = pre ++ t :: post ∧
      (∀ u ∈ pre, u.target_id ≠ 0) ∧ t.target_id = 0 ∧
      (⟨[SingleTracker.new 0 ⟨0, 0, 10, 10⟩ ⟨0, 0, 255, 0⟩ LABEL_PERSON], 1⟩ :
        TrackerManager).insertTracker ⟨5, 5, 10, 10⟩ ⟨255, 0, 0, 0⟩ 0 LABEL_CAR true "" =
        (SUCCESS,
         { tracker_vec := pre ++
             { t with center := Rect.center ⟨5, 5, 10, 10⟩, rect := ⟨5, 5, 10, 10⟩,
                      label := LABEL_CAR, color := ⟨255, 0, 0, 0⟩,
                      update_from_detection := true, no_update_counter := 0 } :: post,
           id_list := 1 },
         "") :=
  C7_insert_update _ ⟨5, 5, 10, 10⟩ ⟨255, 0, 0, 0⟩ 0 LABEL_CAR "" (by decide)
    ⟨SingleTracker.new 0 ⟨0, 0, 10, 10⟩ ⟨0, 0, 255, 0⟩ LABEL_PERSON, by simp, rfl⟩

/-- Claim C8. When no track of the registry has identity `id` and the box has
non-zero area, `insertTracker(box, color, id, label, update, last_event)`
returns `SUCCESS`; the new registry is the old one with exactly one track
appended at the end, of identity `id`, box `box` and label `label`;
`getNextID()` is `id + 1` afterwards; and `*last_event` is the creation
notice whose middle line reads "Target ID : id is now been tracked". -/
theorem C8_insert_new (m : TrackerManager) (box : Rect) (color : Scalar)
    (id label : Int) (update : Bool) (ev : String) (hbox : box.area ≠ 0)
    (hid : ∀ t ∈ m.tracker_vec, t.target_id ≠ id) :
    ∃ nt : SingleTracker, nt.target_id = id ∧ nt.rect = box ∧ nt.label = label ∧
      m.insertTracker box color id label update ev =
        (SUCCESS, { tracker_vec := m.tracker_vec ++ [nt], id_list := id + 1 },
         rule 26 ++ " Notice! " ++ rule 26 ++ "\n" ++
         "Target ID : " ++ toString id ++ " is now been tracked\n" ++ rule 61 ++ "\n") ∧
      (m.insertTracker box color id label update ev).2.1.getNextID = id + 1 := by
  have hf : m.findTrackerByID id = FAIL := (findTrackerByID_eq_FAIL_iff m id).mpr hid
  refine ⟨SingleTracker.new id box color label, rfl, rfl, rfl, ?_, ?_⟩
  · simp [TrackerManager.insertTracker, hbox, hf, creationEvent]
  · simp [TrackerManager.insertTracker, hbox, hf, TrackerManager.getNextID]

/-- Witness of claim C8: identity 7 inserted into a registry holding identity 0. -/
theorem C8_insert_new_witness :
    ∃ nt : SingleTracker, nt.target_id = 7 ∧ nt.rect = ⟨5, 5, 10, 10⟩ ∧ nt.label = LABEL_CAR ∧
      (⟨[SingleTracker.new 0 ⟨0, 0, 10, 10⟩ ⟨0, 0, 255, 0⟩ LABEL_PERSON], 1⟩ :
        TrackerManager).insertTracker ⟨5, 5, 10, 10⟩ ⟨255, 0, 0, 0⟩ 7 LABEL_CAR false "" =
        (SUCCESS,
         { tracker_vec :=
             [SingleTracker.new 0 ⟨0, 0, 10, 10⟩ ⟨0, 0, 255, 0⟩ LABEL_PERSON] ++ [nt],
           id_list := 7 + 1 },
         rule 26 ++ " Notice! " ++ rule 26 ++ "\n" ++
         "Target ID : " ++ toString (7 : Int) ++ " is now been tracked\n" ++ rule 61 ++ "\n") ∧
      ((⟨[SingleTracker.new 0 ⟨0, 0, 10, 10⟩ ⟨0, 0, 255, 0⟩ LABEL_PERSON], 1⟩ :
        TrackerManager).insertTracker ⟨5, 5, 10, 10⟩ ⟨255, 0, 0, 0⟩ 7 LABEL_CAR false ""
        ).2.1.getNextID = 7 + 1 :=
  C8_insert_new _ ⟨5, 5, 10, 10⟩ ⟨255, 0, 0, 0⟩ 7 LABEL_CAR false "" (by decide)
    (by intro t ht; simp at ht; subst ht; decide)

/-- Claim C9. `deleteTracker(id)` returns `FAIL` and leaves the registry and
`*last_event` as they were when no track has identity `id`. Otherwise it
returns `SUCCESS`, the new registry is the old one with the (first) track of
identity `id` taken out, the tracks before and after it keeping their order
and the next-identity counter its value, and `*last_event` is the deletion
notice carrying `id`; identities being unique in the registry beforehand,
`findTrackerByID(id)` returns `FAIL` afterwards. -/
theorem C9_delete (m : TrackerManager) (id : Int) (ev : String) :
    ((∀ t ∈ m.tracker_vec, t.target_id ≠ id) → m.deleteTracker id ev = (FAIL, m, ev)) ∧
    ((∃ t ∈ m.tracker_vec, t.target_id = id) →
      ∃ pre t post, m.tracker_vec = pre ++ t :: post ∧
        (∀ u ∈ pre, u.target_id ≠ id) ∧ t.target_id = id ∧
        m.deleteTracker id ev =
          (SUCCESS, { tracker_vec := pre ++ post, id_list := m.id_list },
           rule 26 ++ " Notice! " ++ rule 26 ++ "\n" ++
           "Target ID : " ++ toString id ++ " is going out of the frame.\n" ++
           "Target ID : " ++ toString id ++ " is erased!\n" ++ rule 61 ++ "\n") ∧
        ((m.tracker_vec.map (fun t => t.target_id)).Nodup →
          (m.deleteTracker id ev).2.1.findTrackerByID id = FAIL)) := by
  constructor
  · intro h
    have hf : m.findTrackerByID id = FAIL := (findTrackerByID_eq_FAIL_iff m id).mpr h
    simp [TrackerManager.deleteTracker, hf]
  · intro hid
    rcases findTrackerByID_cases m id with ⟨_, h2⟩ | ⟨pre, t, post, h1, h2, h3, h4⟩
    · obtain ⟨t, ht, hti⟩ := hid
      exact absurd hti (h2 t ht)
    · have hne : (pre.length : Int) ≠ FAIL := natCast_ne_FAIL _
      have hdel : m.deleteTracker id ev =
          (SUCCESS, { tracker_vec := pre ++ post, id_list := m.id_list }, deletionEvent id) := by
        simp only [TrackerManager.deleteTracker, h4, hne, if_false, Int.toNat_ofNat]
        rw [h1, eraseIdx_append_cons]
      refine ⟨pre, t, post, h1, h2, h3, ?_, ?_⟩
      · rw [hdel]; simp [deletionEvent]
      · intro hnd
        rw [hdel]
        apply (findTrackerByID_eq_FAIL_iff _ id).mpr
        intro u hu
        simp only [List.mem_append] at hu
        rcases hu with hu | hu
        · exact h2 u hu
        · intro hui
          rw [h1] at hnd
          simp only [List.map_append, List.map_cons] at hnd
          have h5 := (List.nodup_append.mp hnd).2.1
          have h6 := (List.nodup_cons.mp h5).1
          apply h6
          rw [h3, ← hui]
          exact List.mem_map.mpr ⟨u, hu, rfl⟩

/-- Witness of claim C9 on the registry of identities 0, 1: deleting 5 fails and
changes nothing; after deleting 0 the lookup of 0 fails. -/
theorem C9_delete_witness :
    (⟨[SingleTracker.new 0 ⟨0, 0, 10, 10⟩ ⟨0, 0, 255, 0⟩ LABEL_PERSON,
       SingleTracker.new 1 ⟨50, 50, 10, 10⟩ ⟨0, 0, 255, 0⟩ LABEL_PERSON], 2⟩ :
        TrackerManager).deleteTracker 5 "" =
      (FAIL, ⟨[SingleTracker.new 0 ⟨0, 0, 10, 10⟩ ⟨0, 0, 255, 0⟩ LABEL_PERSON,
       SingleTracker.new 1 ⟨50, 50, 10, 10⟩ ⟨0, 0, 255, 0⟩ LABEL_PERSON], 2⟩, "") ∧
    ((⟨[SingleTracker.new 0 ⟨0, 0, 10, 10⟩ ⟨0, 0, 255, 0⟩ LABEL_PERSON,
       SingleTracker.new 1 ⟨50, 50, 10, 10⟩ ⟨0, 0, 255, 0⟩ LABEL_PERSON], 2⟩ :
        TrackerManager).deleteTracker 0 "").2.1.findTrackerByID 0 = FAIL := by
  refine ⟨(C9_delete _ 5 "").1 (by intro t ht; simp at ht; rcases ht with rfl | rfl <;> decide), ?_⟩
  obtain ⟨_, _, _, _, _, _, _, h⟩ := (C9_delete
    (⟨[SingleTracker.new 0 ⟨0, 0, 10, 10⟩ ⟨0, 0, 255, 0⟩ LABEL_PERSON,
       SingleTracker.new 1 ⟨50, 50, 10, 10⟩ ⟨0, 0, 255, 0⟩ LABEL_PERSON], 2⟩ :
        TrackerManager) 0 "").2
    ⟨SingleTracker.new 0 ⟨0, 0, 10, 10⟩ ⟨0, 0, 255, 0⟩ LABEL_PERSON, by simp, rfl⟩
  exact h (by decide)

/-- Claim C10. For a track not yet marked, after `markForDeletion` the deletion
mark is set if and only if the no-update counter is at least 12 and `modvel`
is strictly below 0.01 times the area of the bounding box; so, `modvel` being
below that bound, a counter of 12 marks the track and a counter of 11 does
not. -/
theorem C10_markForDeletion (t : SingleTracker) (h : t.to_delete = false) :
    (t.markForDeletion.to_delete = true ↔
      (12 ≤ t.no_update_counter ∧ t.modvel < (1 / 100 : ℚ) * (t.rect.area : ℚ))) ∧
    (t.modvel < (1 / 100 : ℚ) * (t.rect.area : ℚ) →
      ({ t with no_update_counter := 12 } : SingleTracker).markForDeletion.to_delete = true ∧
      ({ t with no_update_counter := 11 } : SingleTracker).markForDeletion.to_delete = false) := by
  constructor
  · unfold SingleTracker.markForDeletion
    dsimp only
    by_cases hc : t.no_update_counter ≥ 12 ∧ t.modvel < (1 / 100 : ℚ) * (t.rect.area : ℚ)
    · rw [if_pos hc]
      exact ⟨fun _ => hc, fun _ => rfl⟩
    · rw [if_neg hc, h]
      exact ⟨fun h' => Bool.noConfusion h', fun h' => absurd h' hc⟩
  · intro hv
    constructor
    · unfold SingleTracker.markForDeletion
      dsimp only
      have hc : (12 : Int) ≥ 12 ∧ t.modvel < (1 / 100 : ℚ) * (t.rect.area : ℚ) :=
        ⟨by decide, hv⟩
      rw [if_pos hc]
    · unfold SingleTracker.markForDeletion
      dsimp only
      have hc : ¬ ((11 : Int) ≥ 12 ∧ t.modvel < (1 / 100 : ℚ) * (t.rect.area : ℚ)) :=
        fun hc => absurd hc.1 (by decide)
      rw [if_neg hc]
      exact h

/-- Witness of claim C10: a fresh 10x10 track (area 100, `modvel` 0, unmarked). -/
theorem C10_markForDeletion_witness :
    ({ SingleTracker.new 0 ⟨0, 0, 10, 10⟩ ⟨0, 0, 255, 0⟩ LABEL_PERSON with
        no_update_counter := 12 } : SingleTracker).markForDeletion.to_delete = true ∧
    ({ SingleTracker.new 0 ⟨0, 0, 10, 10⟩ ⟨0, 0, 255, 0⟩ LABEL_PERSON with
        no_update_counter := 11 } : SingleTracker).markForDeletion.to_delete = false :=
  (C10_markForDeletion (SingleTracker.new 0 ⟨0, 0, 10, 10⟩ ⟨0, 0, 255, 0⟩ LABEL_PERSON) rfl).2
    (by simp [SingleTracker.new, Rect.area])

/-! ## The per-frame update, the empty frame, collisions -/

theorem markForDeletion_frame (t : SingleTracker) :
    t.markForDeletion.vel = t.vel ∧ t.markForDeletion.center = t.center ∧
    t.markForDeletion.c_q = t.c_q ∧ t.markForDeletion.target_id = t.target_id := by
  unfold SingleTracker.markForDeletion
  dsimp only
  split_ifs <;> exact ⟨rfl, rfl, rfl, rfl⟩

/-- The centre, history and velocity estimate after `doSingleTracking` on a
non-empty frame. -/
theorem doSingleTracking_vel (t : SingleTracker) (img : Mat) (ext : External)
    (himg : img.empty = false) :
    (t.doSingleTracking img ext).1 = SUCCESS ∧
    (t.doSingleTracking img ext).2.center = ext.center ∧
    (t.doSingleTracking img ext).2.c_q = (t.saveLastCenter ext.center).c_q ∧
    (t.doSingleTracking img ext).2.vel =
      ext.center +
        ((t.vel - ext.center) + rawDelta (t.saveLastCenter ext.center).c_q).divInt 2 := by
  unfold SingleTracker.doSingleTracking
  simp only [himg, Bool.false_eq_true, if_false]
  refine ⟨trivial, ?_, ?_, ?_⟩
  · rw [(markForDeletion_frame _).2.1]
    cases t.update_from_detection <;> rfl
  · rw [(markForDeletion_frame _).2.2.1]
    cases t.update_from_detection <;> rfl
  · rw [(markForDeletion_frame _).1]
    cases t.update_from_detection <;> rfl

/-- Claim C11, amended. After a successful `doSingleTracking` (non-empty
frame), the new velocity estimate is
`newCenter + ((previousVelocityEstimate - newCenter) + rawDelta) / 2`: the
centre subtracted from the previous estimate is the new centre, which is set
before `calcVel` runs; `/ 2` truncates each coordinate towards zero, and
`rawDelta` is `(history[4] - history[0]) * 5` when the history, the new centre
included, holds at least 5 entries and `(0,0)` otherwise. -/
theorem C11_velocity_update (t : SingleTracker) (img : Mat) (ext : External)
    (himg : img.empty = false) :
    (t.doSingleTracking img ext).1 = SUCCESS ∧
    (t.doSingleTracking img ext).2.center = ext.center ∧
    (t.doSingleTracking img ext).2.vel =
      (t.doSingleTracking img ext).2.center +
        ((t.vel - (t.doSingleTracking img ext).2.center) +
          (if 5 ≤ (t.doSingleTracking img ext).2.c_q.length then
            (⟨(((t.doSingleTracking img ext).2.c_q.getD 4 ⟨0, 0⟩).x -
                ((t.doSingleTracking img ext).2.c_q.getD 0 ⟨0, 0⟩).x) * 5,
              (((t.doSingleTracking img ext).2.c_q.getD 4 ⟨0, 0⟩).y -
                ((t.doSingleTracking img ext).2.c_q.getD 0 ⟨0, 0⟩).y) * 5⟩ : Point)
           else ⟨0, 0⟩)).divInt 2 := by
  obtain ⟨h1, h2, h3, h4⟩ := doSingleTracking_vel t img ext himg
  refine ⟨h1, h2, ?_⟩
  rw [h4, h2, h3]
  rfl

/-- Witness of claim C11 as amended: centre (0,0), estimate (0,0), empty
history, new centre (10,0); the new estimate is (5,0). -/
theorem C11_velocity_update_witness :
    (({ SingleTracker.new 0 ⟨-5, -5, 10, 10⟩ ⟨0, 0, 255, 0⟩ LABEL_PERSON with
          center := ⟨0, 0⟩, vel := ⟨0, 0⟩ } : SingleTracker).doSingleTracking ⟨false⟩
        ⟨⟨10, 0⟩, ⟨5, -5, 10, 10⟩, 1, 0⟩).2.center = ⟨10, 0⟩ :=
  (C11_velocity_update
    ({ SingleTracker.new 0 ⟨-5, -5, 10, 10⟩ ⟨0, 0, 255, 0⟩ LABEL_PERSON with
          center := ⟨0, 0⟩, vel := ⟨0, 0⟩ } : SingleTracker) ⟨false⟩
        ⟨⟨10, 0⟩, ⟨5, -5, 10, 10⟩, 1, 0⟩ rfl).2.1

/-- Counterexample to claim C11. A track with centre (0,0), velocity estimate
(0,0) and empty history is updated to the centre (10,0). The update succeeds
and the new estimate is (5,0), whereas
`newCenter + ((previousVelocityEstimate - previousCenter) + rawDelta) / 2`
is (10,0), `rawDelta` being (0,0) for the history before and after. -/
theorem C11_counterexample :
    (({ SingleTracker.new 0 ⟨-5, -5, 10, 10⟩ ⟨0, 0, 255, 0⟩ LABEL_PERSON with
          center := ⟨0, 0⟩, vel := ⟨0, 0⟩ } : SingleTracker).doSingleTracking ⟨false⟩
        ⟨⟨10, 0⟩, ⟨5, -5, 10, 10⟩, 1, 0⟩).1 = SUCCESS ∧
    (({ SingleTracker.new 0 ⟨-5, -5, 10, 10⟩ ⟨0, 0, 255, 0⟩ LABEL_PERSON with
          center := ⟨0, 0⟩, vel := ⟨0, 0⟩ } : SingleTracker).doSingleTracking ⟨false⟩
        ⟨⟨10, 0⟩, ⟨5, -5, 10, 10⟩, 1, 0⟩).2.vel = ⟨5, 0⟩ ∧
    rawDelta [] = ⟨0, 0⟩ ∧ rawDelta [⟨10, 0⟩] = ⟨0, 0⟩ ∧
    (⟨10, 0⟩ : Point) + ((((⟨0, 0⟩ : Point) - ⟨0, 0⟩) + ⟨0, 0⟩).divInt 2) = ⟨10, 0⟩ ∧
    (⟨5, 0⟩ : Point) ≠ ⟨10, 0⟩ := by
  obtain ⟨h1, _, _, h4⟩ := doSingleTracking_vel
    ({ SingleTracker.new 0 ⟨-5, -5, 10, 10⟩ ⟨0, 0, 255, 0⟩ LABEL_PERSON with
          center := ⟨0, 0⟩, vel := ⟨0, 0⟩ } : SingleTracker) ⟨false⟩
        ⟨⟨10, 0⟩, ⟨5, -5, 10, 10⟩, 1, 0⟩ rfl
  refine ⟨h1, ?_, by decide, by decide, by decide, by decide⟩
  rw [h4]
  decide

/-- Claim C13. When the frame image is empty, `startTracking` returns `FAIL`
and the whole system (the registry, every field of every track, `last_event`)
is as before; and `doSingleTracking` returns `FAIL` with the track, all its
fields, as before. -/
theorem C13_empty_image (s : TrackingSystem) (t : SingleTracker) (img : Mat)
    (exts : Nat → External) (ext : External) (himg : img.empty = true) :
    s.startTracking img exts = (FAIL, s) ∧ t.doSingleTracking img ext = (FAIL, t) := by
  constructor
  · simp [TrackingSystem.startTracking, himg]
  · simp [SingleTracker.doSingleTracking, himg]

/-- Witness of claim C13: a system holding one track, the empty image. -/
theorem C13_empty_image_witness :
    (⟨640, 480, [], ⟨[SingleTracker.new 0 ⟨0, 0, 10, 10⟩ ⟨0, 0, 255, 0⟩ LABEL_PERSON], 1⟩, ""⟩ :
        TrackingSystem).startTracking ⟨true⟩ (fun _ => ⟨⟨9, 9⟩, ⟨4, 4, 10, 10⟩, 1, 0⟩) =
      (FAIL,
        ⟨640, 480, [], ⟨[SingleTracker.new 0 ⟨0, 0, 10, 10⟩ ⟨0, 0, 255, 0⟩ LABEL_PERSON], 1⟩, ""⟩) ∧
    (SingleTracker.new 0 ⟨0, 0, 10, 10⟩ ⟨0, 0, 255, 0⟩ LABEL_PERSON).doSingleTracking ⟨true⟩
        ⟨⟨9, 9⟩, ⟨4, 4, 10, 10⟩, 1, 0⟩ =
      (FAIL, SingleTracker.new 0 ⟨0, 0, 10, 10⟩ ⟨0, 0, 255, 0⟩ LABEL_PERSON) :=
  C13_empty_image _ _ ⟨true⟩ _ _ rfl

/-- What `isValidCollision` computes for two arguments of the same label,
PERSON or CAR. -/
theorem isValidCollision_same (a1 a2 : ℚ) (label : Int)
    (hl : label = LABEL_PERSON ∨ label = LABEL_CAR) :
    isValidCollision (a1, label) (a2, label) =
      decide (a1 > a2 * (1 - 2 / 10) ∧ a1 < a2 * (1 + 2 / 10)) := by
  rcases hl with rfl | rfl
  · simp [isValidCollision, LABEL_PERSON, LABEL_UNKNOWN, LABEL_CAR]
  · simp [isValidCollision, LABEL_PERSON, LABEL_UNKNOWN, LABEL_CAR]

/-- Claim C14. For two areas `a1`, `a2` with a common label PERSON or CAR,
`isValidCollision((a1,label),(a2,label))` is true if and only if
`0.8*a2 < a1 < 1.2*a2`; two PERSON boxes of areas 100 and 115 are a valid
collision, two PERSON boxes of areas 100 and 200 are not. -/
theorem C14_same_label_collision (a1 a2 : ℚ) (label : Int)
    (hl : label = LABEL_PERSON ∨ label = LABEL_CAR) :
    (isValidCollision (a1, label) (a2, label) = true ↔
      (8 / 10 : ℚ) * a2 < a1 ∧ a1 < (12 / 10 : ℚ) * a2) ∧
    isValidCollision (100, LABEL_PERSON) (115, LABEL_PERSON) = true ∧
    isValidCollision (100, LABEL_PERSON) (200, LABEL_PERSON) = false := by
  refine ⟨?_, ?_, ?_⟩
  · rw [isValidCollision_same a1 a2 label hl, decide_eq_true_eq]
    constructor
    · rintro ⟨h1, h2⟩
      constructor <;> linarith
    · rintro ⟨h1, h2⟩
      constructor <;> linarith
  · rw [isValidCollision_same _ _ _ (Or.inl rfl), decide_eq_true_eq]
    norm_num
  · rw [isValidCollision_same _ _ _ (Or.inl rfl), decide_eq_false_iff_not]
    norm_num

/-- Witness of claim C14: two CAR boxes of areas 1000 and 1100. -/
theorem C14_same_label_collision_witness :
    isValidCollision (1000, LABEL_CAR) (1100, LABEL_CAR) = true :=
  (C14_same_label_collision 1000 1100 LABEL_CAR (Or.inr rfl)).1.mpr (by norm_num)

/-- What `isValidCollision` computes for a PERSON area followed by a CAR
area. -/
theorem isValidCollision_person_car (p c : ℚ) :
    isValidCollision (p, LABEL_PERSON) (c, LABEL_CAR) =
      decide (p * 31 > c * (1 - 2 / 10) ∧ p * 31 < c * (1 + 2 / 10)) := by
  simp [isValidCollision, LABEL_PERSON, LABEL_UNKNOWN, LABEL_CAR]

/-- What `isValidCollision` computes for a CAR area followed by a PERSON
area: the labels are exchanged, the areas are not, so the factor 31 goes to
the CAR area. -/
theorem isValidCollision_car_person (c p : ℚ) :
    isValidCollision (c, LABEL_CAR) (p, LABEL_PERSON) =
      decide (c * 31 > p * (1 - 2 / 10) ∧ c * 31 < p * (1 + 2 / 10)) := by
  simp [isValidCollision, LABEL_PERSON, LABEL_UNKNOWN, LABEL_CAR]

/-- Claim C15, the failing input. For the person area 100 and the car area
3100 the order PERSON, CAR gives true (`0.8*3100 < 31*100 < 1.2*3100`), and
the order CAR, PERSON gives false: after the exchange of the labels `a1` is
still the CAR area, and `31*3100` is not below `1.2*100`. -/
theorem C15_person_car_order :
    isValidCollision (100, LABEL_PERSON) (3100, LABEL_CAR) = true ∧
    isValidCollision (3100, LABEL_CAR) (100, LABEL_PERSON) = false ∧
    ((8 / 10 : ℚ) * 3100 < 31 * 100 ∧ (31 : ℚ) * 100 < (12 / 10 : ℚ) * 3100) := by
  refine ⟨?_, ?_, ?_⟩
  · rw [isValidCollision_person_car, decide_eq_true_eq]
    norm_num
  · rw [isValidCollision_car_person, decide_eq_false_iff_not]
    norm_num
  · norm_num

/-! ## The collision scan -/

theorem collisionsWith_eq (a : SingleTracker) (rest : List SingleTracker) :
    collisionsWith a rest =
      (List.range rest.length).filterMap (fun j =>
        match rest[j]? with
        | some b =>
          if 0 < (a.rect.inter b.rect).area ∧
              isValidCollision ((a.rect.area : ℚ), a.label) ((b.rect.area : ℚ), b.label) = true
          then some ⟨a.target_id, b.target_id, midpoint a.center b.center⟩
          else none
        | none => none) := by
  induction rest with
  | nil => simp [collisionsWith]
  | cons b rest ih =>
    rw [collisionsWith, ih, List.length_cons, List.range_succ_eq_map, List.filterMap_cons,
      List.filterMap_map]
    by_cases h : 0 < (a.rect.inter b.rect).area ∧
        isValidCollision ((a.rect.area : ℚ), a.label) ((b.rect.area : ℚ), b.label) = true
    · have hc : collides a b = true := by simp [collides, h.1, h.2]
      simp [hc, h, Function.comp_def]
    · have hc : collides a b = false := by
        simp only [collides, gt_iff_lt, Bool.and_eq_false_imp, decide_eq_true_eq]
        intro h1
        by_contra h2
        exact h ⟨h1, by simpa using h2⟩
      simp [hc, h, Function.comp_def]

theorem collisionPairs_cons (a : SingleTracker) (rest : List SingleTracker) :
    collisionPairs (a :: rest) = collisionsWith a rest ++ collisionPairs rest := by
  rw [collisionsWith_eq]
  unfold collisionPairs
  rw [List.length_cons, List.range_succ_eq_map, List.flatMap_cons, List.flatMap_map,
    List.filterMap_cons, List.filterMap_map]
  congr 1
  · simp only [List.getElem?_cons_zero, Function.comp_def, List.getElem?_cons_succ,
      Nat.succ_eq_add_one, lt_self_iff_false, false_and, if_false, Nat.zero_lt_succ, true_and]
    congr 1
    funext x
    cases rest[x]? <;> rfl
  · apply List.flatMap_congr
    intro i _
    rw [List.filterMap_cons, List.filterMap_map]
    have h0 : (match (a :: rest)[Nat.succ i]?, (a :: rest)[0]? with
        | some a, some b =>
          if Nat.succ i < 0 ∧ 0 < (a.rect.inter b.rect).area ∧
              isValidCollision ((a.rect.area : ℚ), a.label) ((b.rect.area : ℚ), b.label) = true
          then some (⟨a.target_id, b.target_id, midpoint a.center b.center⟩ : Collision)
          else none
        | _, _ => none) = none := by
      split
      · simp
      · rfl
    rw [h0]
    simp [Function.comp_def]

theorem collisionLoop_eq_pairs (l : List SingleTracker) :
    collisionLoop l = collisionPairs l := by
  induction l with
  | nil => simp [collisionLoop, collisionPairs]
  | cons a rest ih => rw [collisionLoop, ih, collisionPairs_cons]

/-- Claim C16. `detectCollisions` returns `FAIL` (and reports nothing) when
the registry is empty; otherwise it returns `SUCCESS` and reports exactly the
pairs of tracks at positions `i < j` whose boxes have positive intersection
area and for which `isValidCollision((area_i,label_i),(area_j,label_j))`
holds, each once, with the two identities and the midpoint of the two centres
(`(c_i + c_j) * .5`, rounded to integer pixels); the system, with the
registry and every field of every track, is as before. -/
theorem C16_detectCollisions (s : TrackingSystem) :
    (s.manager.tracker_vec = [] → s.detectCollisions = (FAIL, [], s)) ∧
    (s.manager.tracker_vec ≠ [] →
      s.detectCollisions = (SUCCESS, collisionPairs s.manager.tracker_vec, s)) := by
  constructor
  · intro h
    simp [TrackingSystem.detectCollisions, h]
  · intro h
    have hl : s.manager.tracker_vec.length ≠ 0 := by
      intro h0
      exact h (List.length_eq_zero.mp h0)
    simp [TrackingSystem.detectCollisions, hl, collisionLoop_eq_pairs]

/-- Witness of claim C16: the empty system fails; with two overlapping PERSON
tracks of equal area the scan succeeds and reports the pairs of positions
`i < j` that collide. -/
theorem C16_detectCollisions_witness :
    (⟨640, 480, [], ⟨[], 0⟩, ""⟩ : TrackingSystem).detectCollisions =
      (FAIL, [], ⟨640, 480, [], ⟨[], 0⟩, ""⟩) ∧
    (⟨640, 480, [],
        ⟨[SingleTracker.new 0 ⟨0, 0, 10, 10⟩ ⟨0, 0, 255, 0⟩ LABEL_PERSON,
          SingleTracker.new 1 ⟨5, 5, 10, 10⟩ ⟨0, 0, 255, 0⟩ LABEL_PERSON], 2⟩, ""⟩ :
        TrackingSystem).detectCollisions =
      (SUCCESS,
        collisionPairs [SingleTracker.new 0 ⟨0, 0, 10, 10⟩ ⟨0, 0, 255, 0⟩ LABEL_PERSON,
          SingleTracker.new 1 ⟨5, 5, 10, 10⟩ ⟨0, 0, 255, 0⟩ LABEL_PERSON],
        ⟨640, 480, [],
        ⟨[SingleTracker.new 0 ⟨0, 0, 10, 10⟩ ⟨0, 0, 255, 0⟩ LABEL_PERSON,
          SingleTracker.new 1 ⟨5, 5, 10, 10⟩ ⟨0, 0, 255, 0⟩ LABEL_PERSON], 2⟩, ""⟩) :=
  ⟨(C16_detectCollisions ⟨640, 480, [], ⟨[], 0⟩, ""⟩).1 rfl,
   (C16_detectCollisions _).2 (by simp)⟩

/-! ## The frame cycle -/

theorem filter_ne_of_forall_ne (l : List SingleTracker) (id : Int)
    (h : ∀ t ∈ l, t.target_id ≠ id) :
    l.filter (fun t => decide (t.target_id ≠ id)) = l := by
  rw [List.filter_eq_self]
  intro t ht
  simpa using h t ht

/-- With pairwise distinct identities, `deleteTracker(id)` leaves exactly the
tracks whose identity is not `id`. -/
theorem deleteTracker_eq_filter (m : TrackerManager) (id : Int) (ev : String)
    (hnd : m.ids.Nodup) :
    (m.deleteTracker id ev).2.1.tracker_vec =
      m.tracker_vec.filter (fun t => decide (t.target_id ≠ id)) := by
  rcases findTrackerByID_cases m id with ⟨h1, h2⟩ | ⟨pre, t, post, h1, h2, h3, h4⟩
  · simp only [TrackerManager.deleteTracker, h1, if_true]
    exact (filter_ne_of_forall_ne _ id h2).symm
  · have hne : (pre.length : Int) ≠ FAIL := natCast_ne_FAIL _
    simp only [TrackerManager.deleteTracker, h4, hne, if_false, Int.toNat_ofNat]
    rw [h1, eraseIdx_append_cons, List.filter_append, List.filter_cons]
    have hpost : ∀ u ∈ post, u.target_id ≠ id := by
      intro u hu hui
      unfold TrackerManager.ids at hnd
      rw [h1] at hnd
      simp only [List.map_append, List.map_cons] at hnd
      have h5 := (List.nodup_append.mp hnd).2.1
      have h6 := (List.nodup_cons.mp h5).1
      apply h6
      rw [h3, ← hui]
      exact List.mem_map.mpr ⟨u, hu, rfl⟩
    rw [filter_ne_of_forall_ne pre id h2, filter_ne_of_forall_ne post id hpost]
    simp [h3]

theorem eraseAll_eq_filter (ids : List Int) (st : TrackerManager × String)
    (hnd : st.1.ids.Nodup) :
    (eraseAll ids st).1.tracker_vec =
      st.1.tracker_vec.filter (fun t => decide (t.target_id ∉ ids)) := by
  induction ids generalizing st with
  | nil => simp [eraseAll]
  | cons id ids ih =>
    have h1 := deleteTracker_eq_filter st.1 id st.2 hnd
    have h2 : (st.1.deleteTracker id st.2).2.1.ids.Nodup :=
      deleteTracker_ids_nodup st.1 id st.2 hnd
    have h3 := ih ((st.1.deleteTracker id st.2).2) h2
    simp only [eraseAll, List.foldl_cons] at h3 ⊢
    rw [h3, h1, List.filter_filter]
    apply List.filter_congr
    intro t _
    simp only [List.mem_cons, not_or, ne_eq, Bool.decide_and, Bool.and_comm]

theorem doSingleTracking_target_id (t : SingleTracker) (img : Mat) (ext : External) :
    (t.doSingleTracking img ext).2.target_id = t.target_id := by
  unfold SingleTracker.doSingleTracking
  cases hi : img.empty
  · simp only [Bool.false_eq_true, if_false]
    rw [(markForDeletion_frame _).2.2.2]
    cases t.update_from_detection <;> rfl
  · simp

theorem trackAll_ids (img : Mat) (ext : Nat → External) (k : Nat) (l : List SingleTracker) :
    (trackAll img ext k l).map (fun t => t.target_id) = l.map (fun t => t.target_id) := by
  induction l generalizing k with
  | nil => simp [trackAll]
  | cons a l ih => simp [trackAll, ih, doSingleTracking_target_id]

theorem startAll_ids (img : Mat) (l : List SingleTracker) :
    (startAll img l).map (fun t => t.target_id) = l.map (fun t => t.target_id) := by
  unfold startAll
  rw [List.map_map]
  apply List.map_congr_left
  intro t _
  simp only [Function.comp_apply]
  unfold SingleTracker.startSingleTracking
  cases t.is_tracking_started <;> cases img.empty <;> rfl

theorem isTargetInsideFrame_eq_FALSE (t : SingleTracker) (w h : Int) :
    t.isTargetInsideFrame w h = FALSE ↔
      ¬ (0 ≤ t.center.x ∧ t.center.x < w ∧ 0 ≤ t.center.y ∧ t.center.y < h) := by
  unfold SingleTracker.isTargetInsideFrame
  dsimp only
  by_cases hc : 0 ≤ t.center.x ∧ t.center.x < w ∧ 0 ≤ t.center.y ∧ t.center.y < h
  · simp [hc.1, hc.2.1, hc.2.2.1, hc.2.2.2, TRUE, FALSE]
  · simp only [hc, not_false_eq_true, iff_true]
    rw [if_neg]
    intro hh
    apply hc
    simp only [Bool.and_eq_true, decide_eq_true_eq] at hh
    exact ⟨hh.1.1, hh.1.2, hh.2.1, hh.2.2⟩

theorem mem_trackerErase (w h : Int) (l : List SingleTracker) (id : Int) :
    id ∈ trackerErase w h l ↔
      ∃ u ∈ l, (¬ (0 ≤ u.center.x ∧ u.center.x < w ∧ 0 ≤ u.center.y ∧ u.center.y < h) ∨
        u.to_delete = true) ∧ u.target_id = id := by
  unfold trackerErase
  simp only [List.mem_map, List.mem_filter, Bool.or_eq_true, decide_eq_true_eq,
    isTargetInsideFrame_eq_FALSE]
  constructor
  · rintro ⟨u, ⟨hu, hf⟩, hid⟩
    exact ⟨u, hu, hf, hid⟩
  · rintro ⟨u, hu, hf, hid⟩
    exact ⟨u, ⟨hu, hf⟩, hid⟩

/-- Claim C12. On a non-empty image `startTracking` returns `SUCCESS`, and,
the identities in the registry being pairwise distinct, the registry
afterwards consists of exactly those updated tracks (the tracks as the
per-track updates left them) whose centre satisfies `0 <= x < frameWidth`,
`0 <= y < frameHeight` and whose deletion mark is false, in their original
order; a track outside that range or marked is absent. -/
theorem C12_startTracking_purge (s : TrackingSystem) (img : Mat) (ext : Nat → External)
    (himg : img.empty = false)
    (hnd : (s.manager.tracker_vec.map (fun t => t.target_id)).Nodup) :
    (s.startTracking img ext).1 = SUCCESS ∧
    (s.startTracking img ext).2.manager.tracker_vec =
      (s.updatedTracks img ext).filter (fun t =>
        decide (0 ≤ t.center.x ∧ t.center.x < s.frame_width ∧
          0 ≤ t.center.y ∧ t.center.y < s.frame_height ∧ t.to_delete = false)) := by
  have hids : (s.updatedTracks img ext).map (fun t => t.target_id) =
      s.manager.tracker_vec.map (fun t => t.target_id) := by
    unfold TrackingSystem.updatedTracks
    rw [trackAll_ids, startAll_ids]
  have hnd' : ((s.updatedTracks img ext).map (fun t => t.target_id)).Nodup := by
    rw [hids]; exact hnd
  have hE := eraseAll_eq_filter
    (trackerErase s.frame_width s.frame_height (s.updatedTracks img ext))
    ({ s.manager with tracker_vec := s.updatedTracks img ext }, s.last_event) hnd'
  unfold TrackingSystem.startTracking
  simp only [himg, Bool.false_eq_true, if_false, true_and]
  rw [hE]
  apply List.filter_congr
  intro t ht
  rw [decide_eq_decide, mem_trackerErase]
  constructor
  · intro hno
    by_contra hc
    apply hno
    refine ⟨t, ht, ?_, rfl⟩
    by_cases hd : t.to_delete = true
    · exact Or.inr hd
    · left
      intro hin
      apply hc
      exact ⟨hin.1, hin.2.1, hin.2.2.1, hin.2.2.2, by simpa using hd⟩
  · rintro hc ⟨u, hu, hflag, hid⟩
    have hut : u = t := List.inj_on_of_nodup_map hnd' hu ht hid
    subst hut
    rcases hflag with hout | hdel
    · exact hout ⟨hc.1, hc.2.1, hc.2.2.1, hc.2.2.2.1⟩
    · rw [hc.2.2.2.2] at hdel
      exact Bool.noConfusion hdel

/-- Witness of claim C12: two tracks in a 640x480 frame; the update leaves
the first at (9,9) and moves the second to (700,9), outside the frame. -/
theorem C12_startTracking_purge_witness :
    ((⟨640, 480, [],
        ⟨[SingleTracker.new 0 ⟨0, 0, 10, 10⟩ ⟨0, 0, 255, 0⟩ LABEL_PERSON,
          SingleTracker.new 1 ⟨600, 0, 10, 10⟩ ⟨0, 0, 255, 0⟩ LABEL_PERSON], 2⟩, ""⟩ :
        TrackingSystem).startTracking ⟨false⟩
        (fun k => if k = 0 then ⟨⟨9, 9⟩, ⟨4, 4, 10, 10⟩, 1, 0⟩
          else ⟨⟨700, 9⟩, ⟨695, 4, 10, 10⟩, 1, 0⟩)).1 = SUCCESS ∧
    ((⟨640, 480, [],
        ⟨[SingleTracker.new 0 ⟨0, 0, 10, 10⟩ ⟨0, 0, 255, 0⟩ LABEL_PERSON,
          SingleTracker.new 1 ⟨600, 0, 10, 10⟩ ⟨0, 0, 255, 0⟩ LABEL_PERSON], 2⟩, ""⟩ :
        TrackingSystem).startTracking ⟨false⟩
        (fun k => if k = 0 then ⟨⟨9, 9⟩, ⟨4, 4, 10, 10⟩, 1, 0⟩
          else ⟨⟨700, 9⟩, ⟨695, 4, 10, 10⟩, 1, 0⟩)).2.manager.tracker_vec =
      ((⟨640, 480, [],
        ⟨[SingleTracker.new 0 ⟨0, 0, 10, 10⟩ ⟨0, 0, 255, 0⟩ LABEL_PERSON,
          SingleTracker.new 1 ⟨600, 0, 10, 10⟩ ⟨0, 0, 255, 0⟩ LABEL_PERSON], 2⟩, ""⟩ :
        TrackingSystem).updatedTracks ⟨false⟩
        (fun k => if k = 0 then ⟨⟨9, 9⟩, ⟨4, 4, 10, 10⟩, 1, 0⟩
          else ⟨⟨700, 9⟩, ⟨695, 4, 10, 10⟩, 1, 0⟩)).filter (fun t =>
        decide (0 ≤ t.center.x ∧ t.center.x < 640 ∧
          0 ≤ t.center.y ∧ t.center.y < 480 ∧ t.to_delete = false)) :=
  C12_startTracking_purge _ ⟨false⟩ _ rfl (by decide)

/-! ## Cold start and ingestion -/

theorem insertTracker_absent (m : TrackerManager) (box : Rect) (color : Scalar)
    (id label : Int) (update : Bool) (ev : String) (hbox : box.area ≠ 0)
    (hid : ∀ t ∈ m.tracker_vec, t.target_id ≠ id) :
    m.insertTracker box color id label update ev =
      (SUCCESS, { tracker_vec := m.tracker_vec ++ [SingleTracker.new id box color label],
                  id_list := id + 1 }, creationEvent id) := by
  have hf : m.findTrackerByID id = FAIL := (findTrackerByID_eq_FAIL_iff m id).mpr hid
  simp [TrackerManager.insertTracker, hbox, hf]

theorem insertTracker_zero_area (m : TrackerManager) (box : Rect) (color : Scalar)
    (id label : Int) (update : Bool) (ev : String) (hbox : box.area = 0) :
    m.insertTracker box color id label update ev = (FAIL, m, ev) := by
  simp [TrackerManager.insertTracker, hbox]

theorem SUCCESS_ne_FAIL : SUCCESS ≠ FAIL := by decide

/-- One turn of the loop of `initTrackingSystem` on a target of non-zero
area whose index is not an identity of the registry. -/
theorem initLoop_cons (c : Colors) (i : Rect × Int) (rest : List (Rect × Int)) (k : Int)
    (color : Scalar) (label : Int) (st : TrackerManager × String) (hi : i.1.area ≠ 0)
    (hst : ∀ t ∈ st.1.tracker_vec, t.target_id < k) :
    initLoop c (i :: rest) k color label st =
      initLoop c rest (k + 1) (pickLabel c i.2 color label).1 (pickLabel c i.2 color label).2
        ((⟨st.1.tracker_vec ++ [SingleTracker.new k i.1 (pickLabel c i.2 color label).1
            (pickLabel c i.2 color label).2], k + 1⟩ : TrackerManager), creationEvent k) := by
  have habs : ∀ t ∈ st.1.tracker_vec, t.target_id ≠ k := fun t ht => ne_of_lt (hst t ht)
  have hins := insertTracker_absent st.1 i.1 (pickLabel c i.2 color label).1 k
    (pickLabel c i.2 color label).2 false st.2 hi habs
  rw [initLoop]
  simp only [hins, SUCCESS_ne_FAIL, if_false]

theorem lt_succ_of_mem_append (l : List SingleTracker) (nt : SingleTracker) (k : Int)
    (hst : ∀ t ∈ l, t.target_id < k) (hnt : nt.target_id = k) :
    ∀ t ∈ l ++ [nt], t.target_id < k + 1 := by
  intro t ht
  rcases List.mem_append.mp ht with ht | ht
  · have := hst t ht; omega
  · simp only [List.mem_singleton] at ht
    subst ht
    omega

/-- The loop of `initTrackingSystem` on targets of non-zero area, started at
the index `k` on a registry whose identities are all below `k`. -/
theorem initLoop_success (c : Colors) (l : List (Rect × Int))
    (hl : ∀ i ∈ l, i.1.area ≠ 0) (k : Int) (color : Scalar) (label : Int)
    (st : TrackerManager × String) (hst : ∀ t ∈ st.1.tracker_vec, t.target_id < k) :
    ∃ new : List SingleTracker,
      new.map (fun t => t.target_id) =
        (List.range l.length).map (fun (j : Nat) => k + (j : Int)) ∧
      new.map (fun t => t.rect) = l.map (fun i => i.1) ∧
      (initLoop c l k color label st).1 = SUCCESS ∧
      (initLoop c l k color label st).2.1.tracker_vec = st.1.tracker_vec ++ new ∧
      (initLoop c l k color label st).2.1.id_list =
        if l = [] then st.1.id_list else k + (l.length : Int) := by
  induction l generalizing k color label st with
  | nil => exact ⟨[], by simp, by simp, by simp [initLoop], by simp [initLoop], by simp [initLoop]⟩
  | cons i rest ih =>
    have hi : i.1.area ≠ 0 := hl i (by simp)
    have hrest : ∀ j ∈ rest, j.1.area ≠ 0 := fun j hj => hl j (by simp [hj])
    have hloop := initLoop_cons c i rest k color label st hi hst
    obtain ⟨new, h1, h2, h3, h4, h5⟩ := ih hrest (k + 1) (pickLabel c i.2 color label).1
      (pickLabel c i.2 color label).2
      ((⟨st.1.tracker_vec ++ [SingleTracker.new k i.1 (pickLabel c i.2 color label).1
            (pickLabel c i.2 color label).2], k + 1⟩ : TrackerManager), creationEvent k)
      (lt_succ_of_mem_append st.1.tracker_vec
        (SingleTracker.new k i.1 (pickLabel c i.2 color label).1
          (pickLabel c i.2 color label).2) k hst rfl)
    refine ⟨SingleTracker.new k i.1 (pickLabel c i.2 color label).1
        (pickLabel c i.2 color label).2 :: new, ?_, ?_, ?_, ?_, ?_⟩
    · rw [List.map_cons, h1, List.length_cons, List.range_succ_eq_map, List.map_cons,
        List.map_map]
      simp only [Nat.cast_zero, add_zero, List.cons.injEq]
      refine ⟨rfl, ?_⟩
      apply List.map_congr_left
      intro j _
      simp only [Function.comp_apply, Nat.succ_eq_add_one, Nat.cast_add, Nat.cast_one]
      omega
    · rw [List.map_cons, h2, List.map_cons]
      rfl
    · rw [hloop]; exact h3
    · rw [hloop, h4]; simp
    · rw [hloop, h5]
      simp only [List.length_cons, Nat.cast_add, Nat.cast_one, reduceCtorEq, if_false]
      split_ifs with hr
      · subst hr; simp
      · omega

/-- The loop of `initTrackingSystem` fails as soon as a target has a
zero-area box. -/
theorem initLoop_fail (c : Colors) (l : List (Rect × Int))
    (hl : ∃ i ∈ l, i.1.area = 0) (k : Int) (color : Scalar) (label : Int)
    (st : TrackerManager × String) (hst : ∀ t ∈ st.1.tracker_vec, t.target_id < k) :
    (initLoop c l k color label st).1 = FAIL := by
  induction l generalizing k color label st with
  | nil => obtain ⟨i, hi, _⟩ := hl; simp at hi
  | cons i rest ih =>
    by_cases hi : i.1.area = 0
    · rw [initLoop]
      simp [insertTracker_zero_area _ _ _ _ _ _ _ hi]
    · have hrest : ∃ j ∈ rest, j.1.area = 0 := by
        obtain ⟨j, hj, hj0⟩ := hl
        rcases List.mem_cons.mp hj with rfl | hj
        · exact absurd hj0 hi
        · exact ⟨j, hj, hj0⟩
      rw [initLoop_cons c i rest k color label st hi hst]
      exact ih hrest (k + 1) _ _
        ((⟨st.1.tracker_vec ++ [SingleTracker.new k i.1 (pickLabel c i.2 color label).1
            (pickLabel c i.2 color label).2], k + 1⟩ : TrackerManager), creationEvent k)
        (lt_succ_of_mem_append st.1.tracker_vec
          (SingleTracker.new k i.1 (pickLabel c i.2 color label).1
            (pickLabel c i.2 color label).2) k hst rfl)

/-- Claim C17. On an empty registry, `initTrackingSystem` with `n` initial
targets all of non-zero area returns `SUCCESS` and leaves a registry of
exactly `n` tracks whose identities are `0, 1, ..., n-1` in target order,
each with its target's box, and `getNextID() = n` (for `n = 0` the counter
keeps its value, which is `n` when it starts at 0); if some target has a
zero-area box it returns `FAIL`. -/
theorem C17_initTrackingSystem (c : Colors) (s : TrackingSystem)
    (hempty : s.manager.tracker_vec = []) :
    ((∀ i ∈ s.init_target, i.1.area ≠ 0) →
      (s.initTrackingSystem c).1 = SUCCESS ∧
      (s.initTrackingSystem c).2.manager.tracker_vec.length = s.init_target.length ∧
      (s.initTrackingSystem c).2.manager.tracker_vec.map (fun t => t.target_id) =
        (List.range s.init_target.length).map (fun (j : Nat) => (j : Int)) ∧
      (s.initTrackingSystem c).2.manager.tracker_vec.map (fun t => t.rect) =
        s.init_target.map (fun i => i.1) ∧
      (s.init_target ≠ [] ∨ s.manager.id_list = 0 →
        (s.initTrackingSystem c).2.manager.getNextID = (s.init_target.length : Int))) ∧
    ((∃ i ∈ s.init_target, i.1.area = 0) → (s.initTrackingSystem c).1 = FAIL) := by
  have hst : ∀ t ∈ (s.manager, s.last_event).1.tracker_vec, t.target_id < 0 := by
    intro t ht
    rw [hempty] at ht
    simp at ht
  constructor
  · intro hall
    obtain ⟨new, h1, h2, h3, h4, h5⟩ := initLoop_success c s.init_target hall 0
      c.COLOR_UNKNOWN LABEL_UNKNOWN (s.manager, s.last_event) hst
    have hvec : (s.initTrackingSystem c).2.manager.tracker_vec = new := by
      simp only [TrackingSystem.initTrackingSystem]
      rw [h4, hempty, List.nil_append]
    refine ⟨h3, ?_, ?_, ?_, ?_⟩
    · rw [hvec]
      have := congrArg List.length h2
      simpa using this
    · rw [hvec, h1]
      simp
    · rw [hvec, h2]
    · intro hn
      simp only [TrackingSystem.initTrackingSystem, TrackerManager.getNextID]
      rw [h5]
      split_ifs with hnil
      · rcases hn with hn | hn
        · exact absurd hnil hn
        · rw [hnil]; simpa using hn
      · simp
  · intro hex
    exact initLoop_fail c s.init_target hex 0 c.COLOR_UNKNOWN LABEL_UNKNOWN
      (s.manager, s.last_event) hst

/-- Witness of claim C17: the single target (box=(0,0,10,10), PERSON) gives
one track with identity 0 and `getNextID() = 1`; a zero-area target fails. -/
theorem C17_initTrackingSystem_witness :
    (((⟨640, 480, [(⟨0, 0, 10, 10⟩, LABEL_PERSON)], ⟨[], 0⟩, ""⟩ :
        TrackingSystem).initTrackingSystem ⟨⟨0, 255, 0, 0⟩, ⟨255, 0, 0, 0⟩, ⟨0, 0, 255, 0⟩⟩).1
      = SUCCESS ∧
    ((⟨640, 480, [(⟨0, 0, 10, 10⟩, LABEL_PERSON)], ⟨[], 0⟩, ""⟩ :
        TrackingSystem).initTrackingSystem
          ⟨⟨0, 255, 0, 0⟩, ⟨255, 0, 0, 0⟩, ⟨0, 0, 255, 0⟩⟩).2.manager.tracker_vec.length = 1 ∧
    ((⟨640, 480, [(⟨0, 0, 10, 10⟩, LABEL_PERSON)], ⟨[], 0⟩, ""⟩ :
        TrackingSystem).initTrackingSystem
          ⟨⟨0, 255, 0, 0⟩, ⟨255, 0, 0, 0⟩, ⟨0, 0, 255, 0⟩⟩).2.manager.tracker_vec.map
        (fun t => t.target_id) = [0] ∧
    ((⟨640, 480, [(⟨0, 0, 10, 10⟩, LABEL_PERSON)], ⟨[], 0⟩, ""⟩ :
        TrackingSystem).initTrackingSystem
          ⟨⟨0, 255, 0, 0⟩, ⟨255, 0, 0, 0⟩, ⟨0, 0, 255, 0⟩⟩).2.manager.tracker_vec.map
        (fun t => t.rect) = [⟨0, 0, 10, 10⟩] ∧
    ((⟨640, 480, [(⟨0, 0, 10, 10⟩, LABEL_PERSON)], ⟨[], 0⟩, ""⟩ :
        TrackingSystem).initTrackingSystem
          ⟨⟨0, 255, 0, 0⟩, ⟨255, 0, 0, 0⟩, ⟨0, 0, 255, 0⟩⟩).2.manager.getNextID = 1) ∧
    ((⟨640, 480, [(⟨0, 0, 10, 10⟩, LABEL_PERSON), (⟨0, 0, 0, 10⟩, LABEL_CAR)], ⟨[], 0⟩, ""⟩ :
        TrackingSystem).initTrackingSystem ⟨⟨0, 255, 0, 0⟩, ⟨255, 0, 0, 0⟩, ⟨0, 0, 255, 0⟩⟩).1
      = FAIL := by
  refine ⟨?_, ?_⟩
  · have h := (C17_initTrackingSystem ⟨⟨0, 255, 0, 0⟩, ⟨255, 0, 0, 0⟩, ⟨0, 0, 255, 0⟩⟩
      (⟨640, 480, [(⟨0, 0, 10, 10⟩, LABEL_PERSON)], ⟨[], 0⟩, ""⟩ : TrackingSystem) rfl).1
      (by intro i hi; simp at hi; subst hi; decide)
    exact ⟨h.1, h.2.1, h.2.2.1, h.2.2.2.1, h.2.2.2.2 (Or.inl (by simp))⟩
  · exact (C17_initTrackingSystem ⟨⟨0, 255, 0, 0⟩, ⟨255, 0, 0, 0⟩, ⟨0, 0, 255, 0⟩⟩
      (⟨640, 480, [(⟨0, 0, 10, 10⟩, LABEL_PERSON), (⟨0, 0, 0, 10⟩, LABEL_CAR)], ⟨[], 0⟩, ""⟩ :
        TrackingSystem) rfl).2
      ⟨(⟨0, 0, 0, 10⟩, LABEL_CAR), by simp, by decide⟩

/-- In a registry `pre ++ T :: post`, a detection with `T`'s box (positive
width and height, area at least 2) and label resolves to `T` when `T`'s
centre is the centre of its box and no earlier track has that centre. -/
theorem findTracker_identical (m : TrackerManager) (pre post : List SingleTracker)
    (T : SingleTracker) (hvec : m.tracker_vec = pre ++ T :: post)
    (hw : 0 < T.rect.width) (hh : 0 < T.rect.height)
    (harea : 2 ≤ T.rect.width * T.rect.height)
    (hcenter : T.center = T.rect.center)
    (hfirst : ∀ u ∈ pre, u.center ≠ T.rect.center) :
    m.findTracker T.rect T.label = T.target_id := by
  rw [findTracker_eq, hvec, List.filter_append, List.filter_cons]
  have hT : decide (Dbl.lt max_overlap_thresh (maxPerArea T T.rect) = true ∧
      (T.label = T.label ∨ T.label = LABEL_UNKNOWN)) = true := by
    rw [maxPerArea_self T hw hh]
    simp only [max_overlap_thresh, Dbl.lt, true_or, and_true, decide_eq_true_eq]
    norm_num
  rw [if_pos hT]
  have hth : (0 : Int) < (T.rect.height * T.rect.width) >>> (1 : Nat) :=
    shiftRight_one_pos _ (by rw [mul_comm]; exact harea)
  have hpre : ∀ u ∈ pre.filter (fun t =>
      decide (Dbl.lt max_overlap_thresh (maxPerArea t T.rect) = true ∧
        (t.label = T.label ∨ t.label = LABEL_UNKNOWN))), centerDistance u T.rect ≠ 0 := by
    intro u hu hd
    exact hfirst u (List.mem_filter.mp hu).1 ((centerDistance_eq_zero_iff u T.rect).mp hd)
  rw [bestLoop_first_zero T.rect _ hth _ _ T hpre
    ((centerDistance_eq_zero_iff T T.rect).mpr hcenter)]

theorem pickLabel_person_car (c : Colors) (l : Int) (color : Scalar) (label : Int)
    (hl : l = LABEL_PERSON ∨ l = LABEL_CAR) : (pickLabel c l color label).2 = l := by
  rcases hl with rfl | rfl
  · simp [pickLabel, LABEL_PERSON, LABEL_CAR]
  · simp [pickLabel]

/-- The registry `initTrackingSystem` builds from one target of non-zero
area on an empty registry. -/
theorem init_single (c : Colors) (s : TrackingSystem) (b : Rect) (l : Int)
    (hb : b.area ≠ 0) (hempty : s.manager.tracker_vec = [])
    (htarget : s.init_target = [(b, l)]) :
    s.initTrackingSystem c =
      (SUCCESS, { s with
        manager := ⟨[SingleTracker.new 0 b (pickLabel c l c.COLOR_UNKNOWN LABEL_UNKNOWN).1
          (pickLabel c l c.COLOR_UNKNOWN LABEL_UNKNOWN).2], 1⟩,
        last_event := creationEvent 0 }) := by
  unfold TrackingSystem.initTrackingSystem
  rw [htarget, initLoop_cons c (b, l) [] 0 _ _ _ hb (by rw [hempty]; simp)]
  simp [initLoop, hempty]

/-- An ingested detection that repeats the only track's box and label, a box
of positive width and height and area at least 2, updates that track. -/
theorem update_single (c : Colors) (s : TrackingSystem) (b : Rect) (l : Int) (col : Scalar)
    (hl : l = LABEL_PERSON ∨ l = LABEL_CAR)
    (hw : 0 < b.width) (hh : 0 < b.height) (harea : 2 ≤ b.width * b.height)
    (hm : s.manager = ⟨[SingleTracker.new 0 b col l], 1⟩) :
    s.updateTrackingSystem c [(b, l)] =
      (SUCCESS, { s with
        manager := ⟨[{ SingleTracker.new 0 b col l with
            color := (pickLabel c l c.COLOR_UNKNOWN LABEL_UNKNOWN).1,
            update_from_detection := true, no_update_counter := 0 }], 1⟩ }) := by
  have hb : b.area ≠ 0 := by
    unfold Rect.area
    omega
  have hlab := pickLabel_person_car c l c.COLOR_UNKNOWN LABEL_UNKNOWN hl
  have hfind : s.manager.findTracker b l = 0 := by
    have h := findTracker_identical s.manager [] [] (SingleTracker.new 0 b col l)
      (by rw [hm]; rfl) hw hh harea rfl (by simp)
    exact h
  have hbyid : s.manager.findTrackerByID 0 = 0 := by
    rw [hm]
    simp [TrackerManager.findTrackerByID, SingleTracker.new]
  unfold TrackingSystem.updateTrackingSystem
  simp only [updateLoop, hlab, hfind]
  have h01 : (0 : Int) ≠ -1 := by decide
  have h0F : (0 : Int) ≠ FAIL := by decide
  simp only [h01, ne_eq, not_false_eq_true, if_true, TrackerManager.insertTracker, hb, if_false,
    hbyid, h0F, Bool.not_true, Bool.false_eq_true, SUCCESS_ne_FAIL]
  rw [hm]
  rfl

/-- Claim C18, amended. For every box `b` of positive width and height with
`width*height >= 2` and every label `l` in {PERSON, CAR}: after
`initTrackingSystem` on an empty registry with the single target `(b,l)`,
followed by `updateTrackingSystem([(b,l)])`, both calls return `SUCCESS`, the
registry holds exactly one track, its identity is 0, its box is `b`,
`getNextID()` is still 1, and the track has the update-from-detection flag
set and the no-update counter 0. -/
theorem C18_detection_updates (c : Colors) (s : TrackingSystem) (b : Rect) (l : Int)
    (hl : l = LABEL_PERSON ∨ l = LABEL_CAR)
    (hw : 0 < b.width) (hh : 0 < b.height) (harea : 2 ≤ b.width * b.height)
    (hempty : s.manager.tracker_vec = []) (htarget : s.init_target = [(b, l)]) :
    (s.initTrackingSystem c).1 = SUCCESS ∧
    ((s.initTrackingSystem c).2.updateTrackingSystem c [(b, l)]).1 = SUCCESS ∧
    ∃ t : SingleTracker,
      ((s.initTrackingSystem c).2.updateTrackingSystem c [(b, l)]).2.manager.tracker_vec = [t] ∧
      t.target_id = 0 ∧ t.rect = b ∧ t.label = l ∧
      t.update_from_detection = true ∧ t.no_update_counter = 0 ∧
      ((s.initTrackingSystem c).2.updateTrackingSystem c [(b, l)]).2.manager.getNextID = 1 := by
  have hb : b.area ≠ 0 := by
    unfold Rect.area
    omega
  have hlab := pickLabel_person_car c l c.COLOR_UNKNOWN LABEL_UNKNOWN hl
  rw [init_single c s b l hb hempty htarget]
  rw [update_single c _ b l (pickLabel c l c.COLOR_UNKNOWN LABEL_UNKNOWN).1 hl hw hh harea
    (by rw [hlab])]
  exact ⟨rfl, rfl, _, rfl, rfl, rfl, rfl, rfl, rfl, rfl⟩

/-- Witness of claim C18 as amended: `b = (0,0,10,10)`, `l = PERSON`. -/
theorem C18_detection_updates_witness :
    ∃ t : SingleTracker,
      (((⟨640, 480, [(⟨0, 0, 10, 10⟩, LABEL_PERSON)], ⟨[], 0⟩, ""⟩ :
          TrackingSystem).initTrackingSystem
            ⟨⟨0, 255, 0, 0⟩, ⟨255, 0, 0, 0⟩, ⟨0, 0, 255, 0⟩⟩).2.updateTrackingSystem
            ⟨⟨0, 255, 0, 0⟩, ⟨255, 0, 0, 0⟩, ⟨0, 0, 255, 0⟩⟩
            [(⟨0, 0, 10, 10⟩, LABEL_PERSON)]).2.manager.tracker_vec = [t] ∧
      t.target_id = 0 ∧ t.rect = ⟨0, 0, 10, 10⟩ ∧ t.label = LABEL_PERSON ∧
      t.update_from_detection = true ∧ t.no_update_counter = 0 ∧
      (((⟨640, 480, [(⟨0, 0, 10, 10⟩, LABEL_PERSON)], ⟨[], 0⟩, ""⟩ :
          TrackingSystem).initTrackingSystem
            ⟨⟨0, 255, 0, 0⟩, ⟨255, 0, 0, 0⟩, ⟨0, 0, 255, 0⟩⟩).2.updateTrackingSystem
            ⟨⟨0, 255, 0, 0⟩, ⟨255, 0, 0, 0⟩, ⟨0, 0, 255, 0⟩⟩
            [(⟨0, 0, 10, 10⟩, LABEL_PERSON)]).2.manager.getNextID = 1 :=
  (C18_detection_updates ⟨⟨0, 255, 0, 0⟩, ⟨255, 0, 0, 0⟩, ⟨0, 0, 255, 0⟩⟩
    (⟨640, 480, [(⟨0, 0, 10, 10⟩, LABEL_PERSON)], ⟨[], 0⟩, ""⟩ : TrackingSystem)
    ⟨0, 0, 10, 10⟩ LABEL_PERSON (Or.inl rfl) (by decide) (by decide) (by decide) rfl rfl).2.2

/-- The create path of `updateTrackingSystem` on one detection: no track of
zero area, no intersection with any track, a box of non-zero area, and a
next identity that is not in the registry. -/
theorem update_creates (c : Colors) (s : TrackingSystem) (b : Rect) (l : Int)
    (hb : b.area ≠ 0) (ht : ∀ t ∈ s.manager.tracker_vec, t.rect.area ≠ 0)
    (hin : ∀ t ∈ s.manager.tracker_vec, (t.rect.inter b).area = 0)
    (hnext : s.manager.getNextID ≠ -1)
    (hfree : ∀ t ∈ s.manager.tracker_vec, t.target_id ≠ s.manager.getNextID) :
    (s.updateTrackingSystem c [(b, l)]).2.manager =
      ⟨s.manager.tracker_vec ++
        [SingleTracker.new s.manager.getNextID b (pickLabel c l c.COLOR_UNKNOWN LABEL_UNKNOWN).1
          (pickLabel c l c.COLOR_UNKNOWN LABEL_UNKNOWN).2], s.manager.getNextID + 1⟩ := by
  have hfind := findTracker_no_overlap s.manager b
    (pickLabel c l c.COLOR_UNKNOWN LABEL_UNKNOWN).2 hb ht hin
  have hins := insertTracker_absent s.manager b (pickLabel c l c.COLOR_UNKNOWN LABEL_UNKNOWN).1
    s.manager.getNextID (pickLabel c l c.COLOR_UNKNOWN LABEL_UNKNOWN).2 true s.last_event hb hfree
  unfold TrackingSystem.updateTrackingSystem
  simp only [updateLoop, hfind, hnext, ne_eq, not_false_eq_true, if_true, hins,
    SUCCESS_ne_FAIL, if_false]

/-- Counterexample to claim C18. The box `b = (0,0,-1,-2)` has
`width*height = 2` and the label is PERSON. `initTrackingSystem` on the
single target creates identity 0; the box has no positive width, so its
intersection with itself is empty, `updateTrackingSystem([(b,PERSON)])`
takes the create path, and the registry then holds two tracks, of identities
0 and 1, with `getNextID() = 2`. -/
theorem C18_counterexample :
    (2 : Int) ≤ (⟨0, 0, -1, -2⟩ : Rect).width * (⟨0, 0, -1, -2⟩ : Rect).height ∧
    (((⟨640, 480, [(⟨0, 0, -1, -2⟩, LABEL_PERSON)], ⟨[], 0⟩, ""⟩ :
        TrackingSystem).initTrackingSystem
          ⟨⟨0, 255, 0, 0⟩, ⟨255, 0, 0, 0⟩, ⟨0, 0, 255, 0⟩⟩).2.updateTrackingSystem
          ⟨⟨0, 255, 0, 0⟩, ⟨255, 0, 0, 0⟩, ⟨0, 0, 255, 0⟩⟩
          [(⟨0, 0, -1, -2⟩, LABEL_PERSON)]).2.manager.tracker_vec.map (fun t => t.target_id)
      = [0, 1] ∧
    (((⟨640, 480, [(⟨0, 0, -1, -2⟩, LABEL_PERSON)], ⟨[], 0⟩, ""⟩ :
        TrackingSystem).initTrackingSystem
          ⟨⟨0, 255, 0, 0⟩, ⟨255, 0, 0, 0⟩, ⟨0, 0, 255, 0⟩⟩).2.updateTrackingSystem
          ⟨⟨0, 255, 0, 0⟩, ⟨255, 0, 0, 0⟩, ⟨0, 0, 255, 0⟩⟩
          [(⟨0, 0, -1, -2⟩, LABEL_PERSON)]).2.manager.getNextID = 2 := by
  have hinit := init_single ⟨⟨0, 255, 0, 0⟩, ⟨255, 0, 0, 0⟩, ⟨0, 0, 255, 0⟩⟩
    (⟨640, 480, [(⟨0, 0, -1, -2⟩, LABEL_PERSON)], ⟨[], 0⟩, ""⟩ : TrackingSystem)
    ⟨0, 0, -1, -2⟩ LABEL_PERSON (by decide) rfl rfl
  rw [hinit]
  have hup := update_creates ⟨⟨0, 255, 0, 0⟩, ⟨255, 0, 0, 0⟩, ⟨0, 0, 255, 0⟩⟩
    ({ (⟨640, 480, [(⟨0, 0, -1, -2⟩, LABEL_PERSON)], ⟨[], 0⟩, ""⟩ : TrackingSystem) with
        manager := ⟨[SingleTracker.new 0 ⟨0, 0, -1, -2⟩
          (pickLabel ⟨⟨0, 255, 0, 0⟩, ⟨255, 0, 0, 0⟩, ⟨0, 0, 255, 0⟩⟩ LABEL_PERSON
            (⟨0, 0, 255, 0⟩ : Scalar) LABEL_UNKNOWN).1
          (pickLabel ⟨⟨0, 255, 0, 0⟩, ⟨255, 0, 0, 0⟩, ⟨0, 0, 255, 0⟩⟩ LABEL_PERSON
            (⟨0, 0, 255, 0⟩ : Scalar) LABEL_UNKNOWN).2], 1⟩,
        last_event := creationEvent 0 })
    ⟨0, 0, -1, -2⟩ LABEL_PERSON (by decide)
    (by intro t ht; simp only [List.mem_singleton] at ht; subst ht; decide)
    (by intro t ht; simp only [List.mem_singleton] at ht; subst ht; decide)
    (by decide)
    (by intro t ht; simp only [List.mem_singleton] at ht; subst ht; decide)
  refine ⟨by decide, ?_, ?_⟩
  · rw [hup]; rfl
  · rw [hup]; rfl

/-! ## The next-identity counter -/

theorem mem_ids_of_mem_modifyAt (f : SingleTracker → SingleTracker)
    (hf : ∀ t, (f t).target_id = t.target_id) (l : List SingleTracker) (i : Nat)
    (t : SingleTracker) (ht : t ∈ modifyAt f l i) :
    t.target_id ∈ l.map (fun u => u.target_id) := by
  rw [← ids_modifyAt f hf l i]
  exact List.mem_map.mpr ⟨t, ht, rfl⟩

/-- One call that respects the counter keeps every identity below it and
does not lower it. -/
theorem apply_respects (st : TrackerManager × String) (c : Call)
    (hinv : ∀ t ∈ st.1.tracker_vec, t.target_id < st.1.id_list)
    (hc : c.respectsCounter st.1 = true) :
    (∀ t ∈ (c.apply st).1.tracker_vec, t.target_id < (c.apply st).1.id_list) ∧
    st.1.id_list ≤ (c.apply st).1.id_list := by
  have hinv' : ∀ i ∈ st.1.tracker_vec.map (fun u => u.target_id), i < st.1.id_list := by
    intro i hi
    rcases List.mem_map.mp hi with ⟨u, hu, rfl⟩
    exact hinv u hu
  cases c with
  | insertRect rect color id label update =>
    simp only [Call.apply, TrackerManager.insertTracker]
    by_cases ha : rect.area = 0
    · simp only [ha, if_true]
      exact ⟨hinv, le_refl _⟩
    · rcases findTrackerByID_cases st.1 id with ⟨h1, h2⟩ | ⟨pre, t, post, h1, h2, h3, h4⟩
      · have hle : st.1.id_list ≤ id := by
          simp only [Call.respectsCounter, Bool.or_eq_true, decide_eq_true_eq,
            TrackerManager.ids, TrackerManager.getNextID] at hc
          rcases hc with hc | hc
          · rcases List.contains_iff_exists_mem_beq.mp hc with ⟨i, hi, hbeq⟩
            rcases List.mem_map.mp hi with ⟨u, hu, hui⟩
            have hieq := eq_of_beq hbeq
            exact absurd (hui.trans hieq.symm) (h2 u hu)
          · exact hc
        simp only [ha, h1, if_false, ne_eq, not_true_eq_false]
        refine ⟨?_, by omega⟩
        intro t ht
        rcases List.mem_append.mp ht with ht | ht
        · have := hinv t ht; omega
        · simp only [List.mem_singleton] at ht
          subst ht
          show id < id + 1
          omega
      · have hne : (pre.length : Int) ≠ FAIL := natCast_ne_FAIL _
        cases update with
        | false =>
          simp only [ha, h4, hne, if_false, ne_eq, not_false_eq_true, if_true, Bool.not_false]
          exact ⟨hinv, le_refl _⟩
        | true =>
          simp only [ha, h4, hne, if_false, ne_eq, not_false_eq_true, if_true,
            Bool.not_true, Bool.false_eq_true]
          refine ⟨?_, le_refl _⟩
          intro t ht
          refine hinv' _ (mem_ids_of_mem_modifyAt _ ?_ _ _ t ht)
          intro u
          rfl
  | insertShared p update =>
    simp only [Call.apply, TrackerManager.insertTrackerPtr]
    cases p with
    | none => exact ⟨hinv, le_refl _⟩
    | some nt =>
      rcases findTrackerByID_cases st.1 nt.target_id with
        ⟨h1, h2⟩ | ⟨pre, t, post, h1, h2, h3, h4⟩
      · have hle : st.1.id_list ≤ nt.target_id := by
          simp only [Call.respectsCounter, Bool.or_eq_true, decide_eq_true_eq,
            TrackerManager.ids, TrackerManager.getNextID] at hc
          rcases hc with hc | hc
          · rcases List.contains_iff_exists_mem_beq.mp hc with ⟨i, hi, hbeq⟩
            rcases List.mem_map.mp hi with ⟨u, hu, hui⟩
            have hieq := eq_of_beq hbeq
            exact absurd (hui.trans hieq.symm) (h2 u hu)
          · exact hc
        simp only [h1, if_false, ne_eq, not_true_eq_false]
        refine ⟨?_, by omega⟩
        intro t ht
        rcases List.mem_append.mp ht with ht | ht
        · have := hinv t ht; omega
        · simp only [List.mem_singleton] at ht
          subst ht
          omega
      · have hne : (pre.length : Int) ≠ FAIL := natCast_ne_FAIL _
        cases update with
        | false =>
          simp only [h4, hne, if_false, ne_eq, not_false_eq_true, if_true, Bool.not_false]
          exact ⟨hinv, le_refl _⟩
        | true =>
          simp only [h4, hne, if_false, ne_eq, not_false_eq_true, if_true,
            Bool.not_true, Bool.false_eq_true]
          refine ⟨?_, le_refl _⟩
          intro t ht
          refine hinv' _ (mem_ids_of_mem_modifyAt _ ?_ _ _ t ht)
          intro u
          rfl
  | erase id =>
    simp only [Call.apply, TrackerManager.deleteTracker]
    by_cases hf : st.1.findTrackerByID id = FAIL
    · simp only [hf, if_true]
      exact ⟨hinv, le_refl _⟩
    · simp only [hf, if_false]
      refine ⟨?_, le_refl _⟩
      intro t ht
      exact hinv t ((List.eraseIdx_sublist _ _).subset ht)

theorem runCalls_respects (calls : List Call) (st : TrackerManager × String)
    (hinv : ∀ t ∈ st.1.tracker_vec, t.target_id < st.1.id_list)
    (hc : callsRespectCounter st calls = true) :
    (∀ t ∈ (runCalls st calls).1.tracker_vec, t.target_id < (runCalls st calls).1.id_list) ∧
    st.1.id_list ≤ (runCalls st calls).1.id_list := by
  induction calls generalizing st with
  | nil => exact ⟨hinv, le_refl _⟩
  | cons c cs ih =>
    simp only [callsRespectCounter, Bool.and_eq_true] at hc
    obtain ⟨h1, h2⟩ := apply_respects st c hinv hc.1
    obtain ⟨h3, h4⟩ := ih (c.apply st) h1 hc.2
    exact ⟨h3, le_trans h2 h4⟩

theorem callsRespectCounter_append (c1 c2 : List Call) (st : TrackerManager × String)
    (hc : callsRespectCounter st (c1 ++ c2) = true) :
    callsRespectCounter st c1 = true ∧ callsRespectCounter (runCalls st c1) c2 = true := by
  induction c1 generalizing st with
  | nil => exact ⟨rfl, hc⟩
  | cons c cs ih =>
    simp only [List.cons_append, callsRespectCounter, Bool.and_eq_true] at hc
    obtain ⟨h1, h2⟩ := ih (c.apply st) hc.2
    exact ⟨by simp [callsRespectCounter, hc.1, h1], h2⟩

/-- Claim C19, amended. Starting from an empty registry, along every sequence
of `insertTracker` and `deleteTracker` calls in which each `insertTracker`
call names an identity that is already in the registry or is at least
`getNextID()`, the counter `getNextID()` never decreases (its value after a
prefix of the calls is at most its value after the whole sequence) and is
strictly greater than every identity in the registry. -/
theorem C19_counter_monotone (n : Int) (ev : String) (calls : List Call)
    (hc : callsRespectCounter (⟨[], n⟩, ev) calls = true) :
    (∀ t ∈ (runCalls (⟨[], n⟩, ev) calls).1.tracker_vec,
      t.target_id < (runCalls (⟨[], n⟩, ev) calls).1.getNextID) ∧
    (∀ c1 c2 : List Call, calls = c1 ++ c2 →
      (runCalls (⟨[], n⟩, ev) c1).1.getNextID ≤ (runCalls (⟨[], n⟩, ev) calls).1.getNextID) := by
  have h0 : ∀ t ∈ ((⟨[], n⟩, ev) : TrackerManager × String).1.tracker_vec,
      t.target_id < ((⟨[], n⟩, ev) : TrackerManager × String).1.id_list := by
    intro t ht
    simp at ht
  refine ⟨(runCalls_respects calls _ h0 hc).1, ?_⟩
  intro c1 c2 hsplit
  subst hsplit
  obtain ⟨hc1, hc2⟩ := callsRespectCounter_append c1 c2 _ hc
  have hmid := (runCalls_respects c1 _ h0 hc1).1
  have hrun : runCalls (⟨[], n⟩, ev) (c1 ++ c2) = runCalls (runCalls (⟨[], n⟩, ev) c1) c2 := by
    simp [runCalls, List.foldl_append]
  rw [hrun]
  exact (runCalls_respects c2 _ hmid hc2).2

/-- Witness of claim C19 as amended: identities 0 and 1 inserted in turn,
then 0 deleted; the counter after the first call is at most the counter after
all three. -/
theorem C19_counter_monotone_witness :
    (runCalls (⟨[], 0⟩, "")
        [Call.insertRect ⟨0, 0, 10, 10⟩ ⟨0, 0, 255, 0⟩ 0 LABEL_PERSON false]).1.getNextID ≤
      (runCalls (⟨[], 0⟩, "")
        [Call.insertRect ⟨0, 0, 10, 10⟩ ⟨0, 0, 255, 0⟩ 0 LABEL_PERSON false,
         Call.insertRect ⟨50, 0, 10, 10⟩ ⟨0, 0, 255, 0⟩ 1 LABEL_PERSON false,
         Call.erase 0]).1.getNextID :=
  (C19_counter_monotone 0 ""
    [Call.insertRect ⟨0, 0, 10, 10⟩ ⟨0, 0, 255, 0⟩ 0 LABEL_PERSON false,
     Call.insertRect ⟨50, 0, 10, 10⟩ ⟨0, 0, 255, 0⟩ 1 LABEL_PERSON false,
     Call.erase 0] (by decide)).2
    [Call.insertRect ⟨0, 0, 10, 10⟩ ⟨0, 0, 255, 0⟩ 0 LABEL_PERSON false]
    [Call.insertRect ⟨50, 0, 10, 10⟩ ⟨0, 0, 255, 0⟩ 1 LABEL_PERSON false, Call.erase 0] rfl

/-- Counterexample to claim C19. From the empty registry, `insertTracker`
with identity 5 and then with identity 3 (both succeed): `getNextID()` is 6
after the first call and 4 after the second, so it decreased, and identity 5,
which is in the registry, is not below it. -/
theorem C19_counterexample :
    (runCalls (⟨[], 0⟩, "")
      [Call.insertRect ⟨0, 0, 10, 10⟩ ⟨0, 0, 255, 0⟩ 5 LABEL_PERSON false]).1.getNextID = 6 ∧
    (runCalls (⟨[], 0⟩, "")
      [Call.insertRect ⟨0, 0, 10, 10⟩ ⟨0, 0, 255, 0⟩ 5 LABEL_PERSON false,
       Call.insertRect ⟨50, 0, 10, 10⟩ ⟨0, 0, 255, 0⟩ 3 LABEL_PERSON false]).1.getNextID = 4 ∧
    (runCalls (⟨[], 0⟩, "")
      [Call.insertRect ⟨0, 0, 10, 10⟩ ⟨0, 0, 255, 0⟩ 5 LABEL_PERSON false,
       Call.insertRect ⟨50, 0, 10, 10⟩ ⟨0, 0, 255, 0⟩ 3 LABEL_PERSON false]).1.tracker_vec.map
      (fun t => t.target_id) = [5, 3] := by
  refine ⟨by decide, by decide, by decide⟩

/-! ## The selection loop as a gated arg-min -/

theorem FirstArgMin.le {d : SingleTracker → Int} {l : List SingleTracker} {b : SingleTracker}
    (h : FirstArgMin d l b) : ∀ u ∈ l, d b ≤ d u := by
  obtain ⟨p, q, hl, hp, hq⟩ := h
  intro u hu
  rw [hl] at hu
  rcases List.mem_append.mp hu with hu | hu
  · exact le_of_lt (hp u hu)
  · rcases List.mem_cons.mp hu with rfl | hu
    · exact le_refl _
    · exact hq u hu

theorem FirstArgMin.mem {d : SingleTracker → Int} {l : List SingleTracker} {b : SingleTracker}
    (h : FirstArgMin d l b) : b ∈ l := by
  obtain ⟨p, q, hl, _, _⟩ := h
  rw [hl]
  simp

/-- Once a candidate is held, the loop ends on the first candidate of least
distance among the one held and those that follow. -/
theorem bestLoop_held (rect : Rect) (th : Int) (l : List SingleTracker) (b : SingleTracker) :
    ∃ b', bestLoop rect th l (centerDistance b rect, some b) =
        (centerDistance b' rect, some b') ∧
      FirstArgMin (fun t => centerDistance t rect) (b :: l) b' := by
  induction l generalizing b with
  | nil => exact ⟨b, by simp [bestLoop], [], [], rfl, by simp, by simp⟩
  | cons a rest ih =>
    have h1 : ¬ ((some b : Option SingleTracker) = none ∧ centerDistance a rect < th) := by
      simp
    by_cases hlt : centerDistance a rect < centerDistance b rect
    · have h2 : (some b : Option SingleTracker) ≠ none ∧
          centerDistance a rect < centerDistance b rect := ⟨by simp, hlt⟩
      obtain ⟨b', hb', hmin⟩ := ih a
      refine ⟨b', ?_, ?_⟩
      · rw [bestLoop, if_neg h1, if_pos h2, hb']
      · have hle : centerDistance b' rect ≤ centerDistance a rect := hmin.le a (by simp)
        obtain ⟨p, q, hl, hp, hq⟩ := hmin
        refine ⟨b :: p, q, by rw [hl]; rfl, ?_, hq⟩
        intro u hu
        rcases List.mem_cons.mp hu with rfl | hu
        · exact lt_of_le_of_lt hle hlt
        · exact hp u hu
    · have h2 : ¬ ((some b : Option SingleTracker) ≠ none ∧
          centerDistance a rect < centerDistance b rect) := fun h => hlt h.2
      obtain ⟨b', hb', hmin⟩ := ih b
      refine ⟨b', ?_, ?_⟩
      · rw [bestLoop, if_neg h1, if_neg h2, hb']
      · obtain ⟨p, q, hl, hp, hq⟩ := hmin
        cases p with
        | nil =>
          simp only [List.nil_append, List.cons.injEq] at hl
          obtain ⟨hbb, hrq⟩ := hl
          subst hbb
          subst hrq
          refine ⟨[], a :: rest, rfl, by simp, ?_⟩
          intro u hu
          rcases List.mem_cons.mp hu with rfl | hu
          · exact not_lt.mp hlt
          · exact hq u hu
        | cons x p' =>
          simp only [List.cons_append, List.cons.injEq] at hl
          obtain ⟨hbx, hrest⟩ := hl
          subst hbx
          refine ⟨b :: a :: p', q, by rw [hrest]; rfl, ?_, hq⟩
          intro u hu
          have hbb : centerDistance b' rect < centerDistance b rect := hp b (by simp)
          rcases List.mem_cons.mp hu with rfl | hu
          · exact hbb
          · rcases List.mem_cons.mp hu with rfl | hu
            · exact lt_of_lt_of_le hbb (not_lt.mp hlt)
            · exact hp u (by simp [hu])

/-- While no candidate is below the threshold, nothing is held. -/
theorem bestLoop_skip (rect : Rect) (th md : Int) (l : List SingleTracker)
    (hl : ∀ u ∈ l, th ≤ centerDistance u rect) :
    bestLoop rect th l (md, none) = (md, none) := by
  induction l with
  | nil => simp [bestLoop]
  | cons a rest ih =>
    have ha : th ≤ centerDistance a rect := hl a (by simp)
    have h1 : ¬ ((none : Option SingleTracker) = none ∧ centerDistance a rect < th) := by
      intro h; omega
    have h2 : ¬ ((none : Option SingleTracker) ≠ none ∧ centerDistance a rect < md) := by
      simp
    rw [bestLoop, if_neg h1, if_neg h2]
    exact ih (fun u hu => hl u (by simp [hu]))

theorem split_at_threshold (d : SingleTracker → Int) (th : Int) (l : List SingleTracker) :
    (∀ u ∈ l, th ≤ d u) ∨
    ∃ pre t post, l = pre ++ t :: post ∧ (∀ u ∈ pre, th ≤ d u) ∧ d t < th := by
  induction l with
  | nil => left; simp
  | cons a rest ih =>
    by_cases ha : d a < th
    · right
      exact ⟨[], a, rest, rfl, by simp, ha⟩
    · rcases ih with h | ⟨pre, t, post, h1, h2, h3⟩
      · left
        intro u hu
        rcases List.mem_cons.mp hu with rfl | hu
        · exact not_lt.mp ha
        · exact h u hu
      · right
        refine ⟨a :: pre, t, post, by rw [h1]; rfl, ?_, h3⟩
        intro u hu
        rcases List.mem_cons.mp hu with rfl | hu
        · exact not_lt.mp ha
        · exact h2 u hu

theorem minDist_some (d : SingleTracker → Int) (l : List SingleTracker) (m : Int)
    (h : minDist d l = some m) : (∃ t ∈ l, d t = m) ∧ ∀ u ∈ l, m ≤ d u := by
  induction l generalizing m with
  | nil => simp [minDist] at h
  | cons a rest ih =>
    rw [minDist] at h
    cases hr : minDist d rest with
    | none =>
      rw [hr] at h
      simp only [Option.some.injEq] at h
      have hnil : rest = [] := by
        cases rest with
        | nil => rfl
        | cons x xs =>
          rw [minDist] at hr
          cases hx : minDist d xs <;> rw [hx] at hr <;> simp at hr
      subst hnil
      subst h
      exact ⟨⟨a, by simp, rfl⟩, by simp⟩
    | some m' =>
      rw [hr] at h
      simp only [Option.some.injEq] at h
      obtain ⟨⟨t, ht, htm⟩, hall⟩ := ih m' hr
      subst h
      constructor
      · by_cases hc : d a ≤ m'
        · exact ⟨a, by simp, by rw [min_eq_left hc]⟩
        · exact ⟨t, by simp [ht], by rw [min_eq_right (le_of_lt (not_le.mp hc)), htm]⟩
      · intro u hu
        rcases List.mem_cons.mp hu with rfl | hu
        · exact min_le_left _ _
        · exact le_trans (min_le_right _ _) (hall u hu)

theorem minDist_cons_isSome (d : SingleTracker → Int) (a : SingleTracker)
    (rest : List SingleTracker) : ∃ m, minDist d (a :: rest) = some m := by
  rw [minDist]
  cases minDist d rest with
  | none => exact ⟨_, rfl⟩
  | some m' => exact ⟨_, rfl⟩

theorem gatedArgMin_none (d : SingleTracker → Int) (th : Int) (l : List SingleTracker)
    (hl : ∀ u ∈ l, th ≤ d u) : gatedArgMin d th l = none := by
  unfold gatedArgMin
  cases hm : minDist d l with
  | none => rfl
  | some m =>
    obtain ⟨⟨t, ht, htm⟩, _⟩ := minDist_some d l m hm
    have : ¬ m < th := by
      have := hl t ht
      omega
    simp [this]

theorem gatedArgMin_some (d : SingleTracker → Int) (th : Int) (l : List SingleTracker)
    (b : SingleTracker) (hb : FirstArgMin d l b) (hth : d b < th) :
    gatedArgMin d th l = some b := by
  have hle := hb.le
  have hmem := hb.mem
  obtain ⟨p, q, hl, hp, hq⟩ := hb
  have hne : ∃ m, minDist d l = some m := by
    cases l with
    | nil => simp at hmem
    | cons a rest => exact minDist_cons_isSome d a rest
  obtain ⟨m, hm⟩ := hne
  obtain ⟨⟨t, ht, htm⟩, hall⟩ := minDist_some d l m hm
  have hmb : m = d b := le_antisymm (hall b hmem) (htm ▸ hle t ht)
  unfold gatedArgMin
  rw [hm]
  simp only [hmb, hth, if_true]
  rw [hl, List.find?_append]
  have hpnone : List.find? (fun t => d t == d b) p = none := by
    rw [List.find?_eq_none]
    intro u hu
    have := hp u hu
    simp only [beq_iff_eq]
    omega
  rw [hpnone]
  simp

/-- Claim C20. The selection loop of `findTracker` over the candidates, run
from "no best candidate" with any initial `min_distance`, yields the gated
arg-min: with `d(T)` the squared Euclidean distance between the detection's
centre and `T`'s centre and `dist_thresh = (width * height) / 2` (integer
division, the code's `>> 1`), a best candidate is selected exactly when the
minimum of `d` over all candidates is below `dist_thresh`, and it is then the
first candidate in registry order attaining that minimum. -/
theorem C20_selection_is_gated_argmin (rect : Rect) (min_distance : Int)
    (selection : List SingleTracker) :
    (bestLoop rect ((rect.height * rect.width) >>> (1 : Nat)) selection
        (min_distance, none)).2 =
      gatedArgMin (fun t => centerDistance t rect) ((rect.width * rect.height) / 2)
        selection ∧
    ((bestLoop rect ((rect.height * rect.width) >>> (1 : Nat)) selection
        (min_distance, none)).2 ≠ none ↔
      ∃ m, minDist (fun t => centerDistance t rect) selection = some m ∧
        m < (rect.width * rect.height) / 2) := by
  have hth : (rect.height * rect.width) >>> (1 : Nat) = (rect.width * rect.height) / 2 := by
    rw [Int.shiftRight_eq_div_pow, mul_comm]
    norm_num
  rw [hth]
  have heq : (bestLoop rect ((rect.width * rect.height) / 2) selection
        (min_distance, none)).2 =
      gatedArgMin (fun t => centerDistance t rect) ((rect.width * rect.height) / 2)
        selection := by
    rcases split_at_threshold (fun t => centerDistance t rect)
        ((rect.width * rect.height) / 2) selection with h | ⟨pre, t, post, h1, h2, h3⟩
    · rw [bestLoop_skip rect _ min_distance selection h, gatedArgMin_none _ _ _ h]
    · obtain ⟨b', hb', hmin⟩ := bestLoop_held rect ((rect.width * rect.height) / 2) post t
      have hstep : bestLoop rect ((rect.width * rect.height) / 2) (t :: post)
          (min_distance, none) =
          bestLoop rect ((rect.width * rect.height) / 2) post (centerDistance t rect, some t) := by
        have hc : (none : Option SingleTracker) = none ∧
            centerDistance t rect < (rect.width * rect.height) / 2 := ⟨rfl, h3⟩
        rw [bestLoop, if_pos hc]
      rw [h1, bestLoop_append, bestLoop_skip rect _ min_distance pre h2, hstep, hb']
      have hbt : centerDistance b' rect ≤ centerDistance t rect := hmin.le t (by simp)
      have hfirst : FirstArgMin (fun t => centerDistance t rect) (pre ++ t :: post) b' := by
        obtain ⟨p, q, hl, hp, hq⟩ := hmin
        refine ⟨pre ++ p, q, by rw [hl]; simp, ?_, hq⟩
        intro u hu
        rcases List.mem_append.mp hu with hu | hu
        · have := h2 u hu
          show centerDistance b' rect < centerDistance u rect
          omega
        · exact hp u hu
      rw [gatedArgMin_some _ _ _ b' hfirst (lt_of_le_of_lt hbt h3)]
  refine ⟨heq, ?_⟩
  rw [heq]
  unfold gatedArgMin
  cases hm : minDist (fun t => centerDistance t rect) selection with
  | none => simp
  | some m =>
    by_cases hlt : m < (rect.width * rect.height) / 2
    · obtain ⟨⟨t, ht, htm⟩, _⟩ := minDist_some _ selection m hm
      have hfind : (List.find? (fun t => centerDistance t rect == m) selection).isSome := by
        rw [List.find?_isSome]
        exact ⟨t, ht, by simpa using htm⟩
      simp only [hlt, if_true, ne_eq, Option.some.injEq, exists_eq_left', iff_true]
      intro hnone
      rw [hnone] at hfind
      simp at hfind
    · simp [hlt]

/-! ## The overlap ratio, the stored confidence, the labels of a batch -/

/-- For boxes of positive area the value `max_per_area` is the intersection
area over the smaller of the two areas. -/
theorem maxPerArea_eq_div_min (t : SingleTracker) (rect : Rect)
    (ht : 0 < t.rect.area) (hr : 0 < rect.area) :
    maxPerArea t rect =
      Dbl.fin (((t.rect.inter rect).area : ℚ) / ((min t.rect.area rect.area : Int) : ℚ)) := by
  have hin : (0 : ℚ) ≤ ((t.rect.inter rect).area : ℚ) := by
    exact_mod_cast Rect.inter_area_nonneg t.rect rect
  have htq : (0 : ℚ) < (t.rect.area : ℚ) := by exact_mod_cast ht
  have hrq : (0 : ℚ) < (rect.area : ℚ) := by exact_mod_cast hr
  have ht0 : t.rect.area ≠ 0 := ne_of_gt ht
  have hr0 : rect.area ≠ 0 := ne_of_gt hr
  unfold maxPerArea
  simp only [Dbl.divInt, ht0, hr0, if_false, Dbl.max, Dbl.lt]
  by_cases hle : t.rect.area ≤ rect.area
  · rw [min_eq_left hle]
    have hleq : (t.rect.area : ℚ) ≤ (rect.area : ℚ) := by exact_mod_cast hle
    have hge : ((t.rect.inter rect).area : ℚ) / (rect.area : ℚ) ≤
        ((t.rect.inter rect).area : ℚ) / (t.rect.area : ℚ) :=
      div_le_div_of_nonneg_left hin htq hleq
    have hn : ¬ ((t.rect.inter rect).area : ℚ) / (t.rect.area : ℚ) <
        ((t.rect.inter rect).area : ℚ) / (rect.area : ℚ) := not_lt.mpr hge
    simp [hn]
  · have hlt : rect.area < t.rect.area := not_le.mp hle
    rw [min_eq_right (le_of_lt hlt)]
    have hleq : (rect.area : ℚ) ≤ (t.rect.area : ℚ) := by exact_mod_cast (le_of_lt hlt)
    have hge : ((t.rect.inter rect).area : ℚ) / (t.rect.area : ℚ) ≤
        ((t.rect.inter rect).area : ℚ) / (rect.area : ℚ) :=
      div_le_div_of_nonneg_left hin hrq hleq
    by_cases hs : ((t.rect.inter rect).area : ℚ) / (t.rect.area : ℚ) <
        ((t.rect.inter rect).area : ℚ) / (rect.area : ℚ)
    · simp [hs]
    · have heq : ((t.rect.inter rect).area : ℚ) / (t.rect.area : ℚ) =
          ((t.rect.inter rect).area : ℚ) / (rect.area : ℚ) :=
        le_antisymm hge (not_lt.mp hs)
      simp [hs, heq]

/-- The intersection of a track box with a box of positive width and height
that lies inside it is that box. -/
theorem Rect.inter_of_inside (a b : Rect) (hw : 0 < b.width) (hh : 0 < b.height)
    (hx : a.x ≤ b.x) (hy : a.y ≤ b.y) (hx2 : b.x + b.width ≤ a.x + a.width)
    (hy2 : b.y + b.height ≤ a.y + a.height) : a.inter b = b := by
  unfold Rect.inter
  simp only [max_eq_right hx, max_eq_right hy, min_eq_right hx2, min_eq_right hy2,
    add_sub_cancel_left]
  rw [if_neg (by omega)]

/-- A track whose box contains the detection box (positive width and height)
has ratio 1 with it. -/
theorem maxPerArea_of_inside (t : SingleTracker) (rect : Rect)
    (hw : 0 < rect.width) (hh : 0 < rect.height)
    (hx : t.rect.x ≤ rect.x) (hy : t.rect.y ≤ rect.y)
    (hx2 : rect.x + rect.width ≤ t.rect.x + t.rect.width)
    (hy2 : rect.y + rect.height ≤ t.rect.y + t.rect.height) :
    maxPerArea t rect = Dbl.fin 1 := by
  have hr : 0 < rect.area := mul_pos hw hh
  have hle : rect.area ≤ t.rect.area := by
    unfold Rect.area
    exact mul_le_mul (by omega) (by omega) (le_of_lt hh) (by omega)
  have ht : 0 < t.rect.area := lt_of_lt_of_le hr hle
  rw [maxPerArea_eq_div_min t rect ht hr, Rect.inter_of_inside t.rect rect hw hh hx hy hx2 hy2,
    min_eq_right hle]
  have hq : (rect.area : ℚ) ≠ 0 := by exact_mod_cast (ne_of_gt hr)
  rw [div_self hq]

/-- Claim C22, amended. The overlap ratio `findTracker` compares against 0.9
is, for boxes of positive area, the intersection area divided by the smaller
of the track's area and the detection's area (the larger of the two
quotients); hence a detection box of positive width and height lying entirely
inside a same-label track box has ratio 1 and is a candidate for that track,
however large the track box is. -/
theorem C22_overlap_ratio (t : SingleTracker) (rect : Rect) :
    (0 < t.rect.area → 0 < rect.area →
      maxPerArea t rect =
        Dbl.fin (((t.rect.inter rect).area : ℚ) / ((min t.rect.area rect.area : Int) : ℚ))) ∧
    (0 < rect.width → 0 < rect.height → t.rect.x ≤ rect.x → t.rect.y ≤ rect.y →
      rect.x + rect.width ≤ t.rect.x + t.rect.width →
      rect.y + rect.height ≤ t.rect.y + t.rect.height →
      maxPerArea t rect = Dbl.fin 1 ∧ (overlapLoop rect t.label [t] ([], [])).2 = [t]) := by
  refine ⟨maxPerArea_eq_div_min t rect, ?_⟩
  intro hw hh hx hy hx2 hy2
  have h1 := maxPerArea_of_inside t rect hw hh hx hy hx2 hy2
  refine ⟨h1, ?_⟩
  rw [overlapLoop_eq, List.nil_append, List.filter_cons, List.filter_nil]
  have hc : decide (Dbl.lt max_overlap_thresh (maxPerArea t rect) = true ∧
      (t.label = t.label ∨ t.label = LABEL_UNKNOWN)) = true := by
    rw [h1]
    simp only [max_overlap_thresh, Dbl.lt, true_or, and_true, decide_eq_true_eq]
    norm_num
  rw [if_pos hc]
  rfl

/-- Witness of claim C22 as amended: the 10x10 detection at the corner of a
100x100 track box of the same label. -/
theorem C22_overlap_ratio_witness :
    maxPerArea (SingleTracker.new 0 ⟨0, 0, 100, 100⟩ ⟨0, 0, 255, 0⟩ LABEL_PERSON)
        ⟨0, 0, 10, 10⟩ = Dbl.fin 1 ∧
    (overlapLoop ⟨0, 0, 10, 10⟩
        (SingleTracker.new 0 ⟨0, 0, 100, 100⟩ ⟨0, 0, 255, 0⟩ LABEL_PERSON).label
        [SingleTracker.new 0 ⟨0, 0, 100, 100⟩ ⟨0, 0, 255, 0⟩ LABEL_PERSON] ([], [])).2 =
      [SingleTracker.new 0 ⟨0, 0, 100, 100⟩ ⟨0, 0, 255, 0⟩ LABEL_PERSON] :=
  (C22_overlap_ratio (SingleTracker.new 0 ⟨0, 0, 100, 100⟩ ⟨0, 0, 255, 0⟩ LABEL_PERSON)
    ⟨0, 0, 10, 10⟩).2 (by decide) (by decide) (by decide) (by decide) (by decide) (by decide)

/-- Counterexample to claim C22. The PERSON track box (0,0,100,100) has area
10000, the PERSON detection box (0,0,10,10) lies inside it and has area 100,
so the track's area is more than 1/0.9 times the detection's and the
intersection over the larger area is 100/10000. The ratio of the code is 1
and the track is a candidate. -/
theorem C22_counterexample :
    ((SingleTracker.new 0 ⟨0, 0, 100, 100⟩ ⟨0, 0, 255, 0⟩ LABEL_PERSON).rect.inter
        ⟨0, 0, 10, 10⟩).area = 100 ∧
    max (SingleTracker.new 0 ⟨0, 0, 100, 100⟩ ⟨0, 0, 255, 0⟩ LABEL_PERSON).rect.area
        (Rect.area ⟨0, 0, 10, 10⟩) = 10000 ∧
    (9 : Int) * 10000 > 10 * 100 ∧
    maxPerArea (SingleTracker.new 0 ⟨0, 0, 100, 100⟩ ⟨0, 0, 255, 0⟩ LABEL_PERSON)
        ⟨0, 0, 10, 10⟩ = Dbl.fin 1 ∧
    (overlapLoop ⟨0, 0, 10, 10⟩ LABEL_PERSON
        [SingleTracker.new 0 ⟨0, 0, 100, 100⟩ ⟨0, 0, 255, 0⟩ LABEL_PERSON] ([], [])).2 =
      [SingleTracker.new 0 ⟨0, 0, 100, 100⟩ ⟨0, 0, 255, 0⟩ LABEL_PERSON] := by
  have h1 := maxPerArea_of_inside
    (SingleTracker.new 0 ⟨0, 0, 100, 100⟩ ⟨0, 0, 255, 0⟩ LABEL_PERSON) ⟨0, 0, 10, 10⟩
    (by decide) (by decide) (by decide) (by decide) (by decide) (by decide)
  refine ⟨by decide, by decide, by decide, h1, ?_⟩
  rw [overlapLoop_eq, List.nil_append, List.filter_cons, List.filter_nil]
  have hc : decide (Dbl.lt max_overlap_thresh
      (maxPerArea (SingleTracker.new 0 ⟨0, 0, 100, 100⟩ ⟨0, 0, 255, 0⟩ LABEL_PERSON)
        ⟨0, 0, 10, 10⟩) = true ∧
      ((SingleTracker.new 0 ⟨0, 0, 100, 100⟩ ⟨0, 0, 255, 0⟩ LABEL_PERSON).label = LABEL_PERSON ∨
        (SingleTracker.new 0 ⟨0, 0, 100, 100⟩ ⟨0, 0, 255, 0⟩ LABEL_PERSON).label =
          LABEL_UNKNOWN)) = true := by
    rw [h1]
    simp only [max_overlap_thresh, Dbl.lt, SingleTracker.new, true_or, and_true,
      decide_eq_true_eq]
    norm_num
  rw [if_pos hc]
  rfl

theorem markForDeletion_confidence (t : SingleTracker) :
    t.markForDeletion.confidence = t.confidence ∧ t.markForDeletion.label = t.label := by
  unfold SingleTracker.markForDeletion
  dsimp only
  split_ifs <;> exact ⟨rfl, rfl⟩

/-- The confidence `doSingleTracking` leaves in the track is the one it had:
`setConfidence` is handed the member, whatever the dlib tracker returned. -/
theorem doSingleTracking_confidence (t : SingleTracker) (img : Mat) (ext : External) :
    (t.doSingleTracking img ext).2.confidence = t.confidence := by
  unfold SingleTracker.doSingleTracking
  cases hi : img.empty
  · simp only [Bool.false_eq_true, if_false]
    rw [(markForDeletion_confidence _).1]
    cases t.update_from_detection <;> rfl
  · simp

/-- Claim C23, the failing input. A fresh track (stored confidence 0, not
reseeded: update-from-detection flag false) is updated on a non-empty frame
for which the dlib tracker's `update_noscale` returns 15/2. The update
succeeds and the stored confidence is still 0. -/
theorem C23_confidence_not_stored :
    (SingleTracker.new 0 ⟨0, 0, 10, 10⟩ ⟨0, 0, 255, 0⟩ LABEL_PERSON).update_from_detection
      = false ∧
    ((SingleTracker.new 0 ⟨0, 0, 10, 10⟩ ⟨0, 0, 255, 0⟩ LABEL_PERSON).doSingleTracking
        ⟨false⟩ ⟨⟨6, 5⟩, ⟨1, 0, 10, 10⟩, 15 / 2, 0⟩).1 = SUCCESS ∧
    ((SingleTracker.new 0 ⟨0, 0, 10, 10⟩ ⟨0, 0, 255, 0⟩ LABEL_PERSON).doSingleTracking
        ⟨false⟩ ⟨⟨6, 5⟩, ⟨1, 0, 10, 10⟩, 15 / 2, 0⟩).2.confidence = 0 ∧
    (External.confidence ⟨⟨6, 5⟩, ⟨1, 0, 10, 10⟩, 15 / 2, 0⟩ = 15 / 2 ∧ (0 : ℚ) ≠ 15 / 2) := by
  refine ⟨rfl, ?_, ?_, rfl, by norm_num⟩
  · exact (doSingleTracking_vel _ ⟨false⟩ _ rfl).1
  · rw [doSingleTracking_confidence]
    rfl

/-- One turn of the loop of `updateTrackingSystem` that takes the create
path: no track of zero area, no intersection with any track, a box of
non-zero area, and a next identity that is not -1 and not in the registry. -/
theorem updateLoop_cons_create (c : Colors) (i : Rect × Int) (rest : List (Rect × Int))
    (color : Scalar) (label : Int) (st : TrackerManager × String)
    (hb : i.1.area ≠ 0) (ht : ∀ t ∈ st.1.tracker_vec, t.rect.area ≠ 0)
    (hin : ∀ t ∈ st.1.tracker_vec, (t.rect.inter i.1).area = 0)
    (hnext : st.1.getNextID ≠ -1)
    (hfree : ∀ t ∈ st.1.tracker_vec, t.target_id ≠ st.1.getNextID) :
    updateLoop c (i :: rest) color label st =
      updateLoop c rest (pickLabel c i.2 color label).1 (pickLabel c i.2 color label).2
        ((⟨st.1.tracker_vec ++ [SingleTracker.new st.1.getNextID i.1
            (pickLabel c i.2 color label).1 (pickLabel c i.2 color label).2],
          st.1.getNextID + 1⟩ : TrackerManager), creationEvent st.1.getNextID) := by
  have hfind := findTracker_no_overlap st.1 i.1 (pickLabel c i.2 color label).2 hb ht hin
  have hins := insertTracker_absent st.1 i.1 (pickLabel c i.2 color label).1
    st.1.getNextID (pickLabel c i.2 color label).2 true st.2 hb hfree
  rw [updateLoop]
  simp only [hfind, hnext, ne_eq, not_false_eq_true, if_true, hins, SUCCESS_ne_FAIL, if_false]

/-- Claim C24, the failing input. With the targets, respectively the
detections, `[((0,0,10,10),CAR), ((50,0,10,10),BUS)]` on an empty registry,
`initTrackingSystem` and `updateTrackingSystem` both create the second track
with label CAR and the colour of CAR: `label` and `color` still hold what the
first item left in them. Alone, the BUS item is created with label UNKNOWN. -/
theorem C24_label_carried_over :
    ((⟨640, 480, [(⟨0, 0, 10, 10⟩, LABEL_CAR), (⟨50, 0, 10, 10⟩, LABEL_BUS)], ⟨[], 0⟩, ""⟩ :
        TrackingSystem).initTrackingSystem
          ⟨⟨0, 255, 0, 0⟩, ⟨255, 0, 0, 0⟩, ⟨0, 0, 255, 0⟩⟩).2.manager.tracker_vec.map
        (fun t => (t.target_id, t.label, t.color)) =
      [(0, LABEL_CAR, ⟨0, 255, 0, 0⟩), (1, LABEL_CAR, ⟨0, 255, 0, 0⟩)] ∧
    ((⟨640, 480, [], ⟨[], 0⟩, ""⟩ : TrackingSystem).updateTrackingSystem
          ⟨⟨0, 255, 0, 0⟩, ⟨255, 0, 0, 0⟩, ⟨0, 0, 255, 0⟩⟩
          [(⟨0, 0, 10, 10⟩, LABEL_CAR), (⟨50, 0, 10, 10⟩, LABEL_BUS)]).2.manager.tracker_vec.map
        (fun t => (t.target_id, t.label, t.color)) =
      [(0, LABEL_CAR, ⟨0, 255, 0, 0⟩), (1, LABEL_CAR, ⟨0, 255, 0, 0⟩)] ∧
    ((⟨640, 480, [(⟨50, 0, 10, 10⟩, LABEL_BUS)], ⟨[], 0⟩, ""⟩ :
        TrackingSystem).initTrackingSystem
          ⟨⟨0, 255, 0, 0⟩, ⟨255, 0, 0, 0⟩, ⟨0, 0, 255, 0⟩⟩).2.manager.tracker_vec.map
        (fun t => (t.target_id, t.label, t.color)) =
      [(0, LABEL_UNKNOWN, ⟨0, 0, 255, 0⟩)] ∧
    LABEL_BUS ≠ LABEL_CAR ∧ LABEL_BUS ≠ LABEL_PERSON ∧ LABEL_CAR ≠ LABEL_UNKNOWN := by
  refine ⟨?_, ?_, ?_, by decide, by decide, by decide⟩
  · unfold TrackingSystem.initTrackingSystem
    rw [initLoop_cons _ _ _ _ _ _ _ (by decide) (by simp),
      initLoop_cons _ _ _ _ _ _ _ (by decide)
        (by intro t ht; simp only [List.nil_append, List.mem_singleton] at ht; subst ht; decide)]
    rfl
  · unfold TrackingSystem.updateTrackingSystem
    rw [updateLoop_cons_create _ _ _ _ _ _ (by decide) (by simp) (by simp) (by decide) (by simp),
      updateLoop_cons_create _ _ _ _ _ _ (by decide)
        (by intro t ht; simp only [List.nil_append, List.mem_singleton] at ht; subst ht; decide)
        (by intro t ht; simp only [List.nil_append, List.mem_singleton] at ht; subst ht; decide)
        (by decide)
        (by intro t ht; simp only [List.nil_append, List.mem_singleton] at ht; subst ht; decide)]
    rfl
  · unfold TrackingSystem.initTrackingSystem
    rw [initLoop_cons _ _ _ _ _ _ _ (by decide) (by simp)]
    rfl

/-- Claim C26, amended. For a common label PERSON or CAR and areas
`0 < a1 <= a2`: in the order `(a1, a2)` the collision is valid exactly when
`a2 < 1.25*a1`, in the order `(a2, a1)` exactly when `a2 < 1.2*a1`; so the two
orders give the same verdict unless `1.2*a1 <= a2 < 1.25*a1`, where only the
order with the smaller area first is valid. -/
theorem C26_same_label_order (a1 a2 : ℚ) (label : Int)
    (hl : label = LABEL_PERSON ∨ label = LABEL_CAR) (h1 : 0 < a1) (h12 : a1 ≤ a2) :
    (isValidCollision (a1, label) (a2, label) = true ↔ a2 < (5 / 4 : ℚ) * a1) ∧
    (isValidCollision (a2, label) (a1, label) = true ↔ a2 < (6 / 5 : ℚ) * a1) ∧
    (isValidCollision (a1, label) (a2, label) = isValidCollision (a2, label) (a1, label) ↔
      ¬ ((6 / 5 : ℚ) * a1 ≤ a2 ∧ a2 < (5 / 4 : ℚ) * a1)) := by
  have hA : isValidCollision (a1, label) (a2, label) = true ↔ a2 < (5 / 4 : ℚ) * a1 := by
    rw [isValidCollision_same a1 a2 label hl, decide_eq_true_eq]
    constructor
    · rintro ⟨h, _⟩
      linarith
    · intro h
      constructor <;> linarith
  have hB : isValidCollision (a2, label) (a1, label) = true ↔ a2 < (6 / 5 : ℚ) * a1 := by
    rw [isValidCollision_same a2 a1 label hl, decide_eq_true_eq]
    constructor
    · rintro ⟨_, h⟩
      linarith
    · intro h
      constructor <;> linarith
  refine ⟨hA, hB, ?_⟩
  rw [Bool.eq_iff_iff, hA, hB]
  constructor
  · rintro h ⟨h3, h4⟩
    have := h.mp h4
    linarith
  · intro h
    constructor
    · intro h4
      by_contra h5
      exact h ⟨not_lt.mp h5, h4⟩
    · intro h5
      linarith

/-- Witness of claim C26 as amended: two CAR areas 100 and 110 are valid in
the order (110, 100). -/
theorem C26_same_label_order_witness :
    isValidCollision (110, LABEL_CAR) (100, LABEL_CAR) = true :=
  (C26_same_label_order 100 110 LABEL_CAR (Or.inr rfl) (by norm_num) (by norm_num)).2.1.mpr
    (by norm_num)

/-- Counterexample to claim C26. Two PERSON areas 100 and 120: the order
(100, 120) is a valid collision (`0.8*120 < 100 < 1.2*120`), the order
(120, 100) is not (`120 < 1.2*100` fails). -/
theorem C26_counterexample :
    isValidCollision (100, LABEL_PERSON) (120, LABEL_PERSON) = true ∧
    isValidCollision (120, LABEL_PERSON) (100, LABEL_PERSON) = false := by
  constructor
  · rw [isValidCollision_same _ _ _ (Or.inl rfl), decide_eq_true_eq]
    norm_num
  · rw [isValidCollision_same _ _ _ (Or.inl rfl), decide_eq_false_iff_not]
    norm_num

/-! ## The ignore path and the outcomes of `findTracker` -/

theorem bestLoop_mem (rect : Rect) (th : Int) (l : List SingleTracker)
    (st : Int × Option SingleTracker) (b : SingleTracker)
    (h : (bestLoop rect th l st).2 = some b) : st.2 = some b ∨ b ∈ l := by
  induction l generalizing st with
  | nil => left; simpa [bestLoop] using h
  | cons a rest ih =>
    obtain ⟨md, best⟩ := st
    rw [bestLoop] at h
    split_ifs at h
    · rcases ih _ h with h' | h'
      · right
        simp only [Option.some.injEq] at h'
        simp [h']
      · right; simp [h']
    · rcases ih _ h with h' | h'
      · right
        simp only [Option.some.injEq] at h'
        simp [h']
      · right; simp [h']
    · rcases ih _ h with h' | h'
      · left; exact h'
      · right; simp [h']

/-- The three outcomes of `findTracker`: the identity of a track of the
registry, the next identity, or -1; and no path leaves `index` unassigned. -/
theorem findTracker_outcomes (m : TrackerManager) (rect : Rect) (label : Int) :
    m.findTrackerChecked rect label = some (m.findTracker rect label) ∧
    ((∃ t ∈ m.tracker_vec, m.findTracker rect label = t.target_id) ∨
      m.findTracker rect label = m.getNextID ∨ m.findTracker rect label = -1) := by
  unfold TrackerManager.findTrackerChecked TrackerManager.findTracker
  simp only [overlapLoop_eq, List.nil_append]
  cases hb : (bestLoop rect ((rect.height * rect.width) >>> (1 : Nat))
      (m.tracker_vec.filter (fun t =>
        decide (Dbl.lt max_overlap_thresh (maxPerArea t rect) = true ∧
          (t.label = label ∨ t.label = LABEL_UNKNOWN))))
      ((rect.height * rect.width) + 10, none)).2 with
  | none =>
    cases hn : newObjectLoop (m.tracker_vec.map (fun t => maxPerArea t rect)) with
    | true => simp [assignIndex]
    | false => simp [assignIndex]
  | some b =>
    have hmem : b ∈ m.tracker_vec := by
      rcases bestLoop_mem _ _ _ _ b hb with h | h
      · simp at h
      · exact (List.mem_filter.mp h).1
    refine ⟨by simp [assignIndex], Or.inl ⟨b, hmem, rfl⟩⟩

/-- Claim C21. For a detection `(rect, second)` ingested alone, with the
label `updateTrackingSystem` gives it: when some track has a non-zero overlap
ratio with `rect` but the selection loop ends without a best candidate,
`findTracker` returns -1 and `updateTrackingSystem` returns `SUCCESS` with
the whole system (registry, every field of every track, next-identity
counter, `last_event`) as before. And for every registry, box and label the
closing chain of `findTracker` assigns `index`: the result is the identity of
a track of the registry, `getNextID()`, or -1. -/
theorem C21_ignore_path (c : Colors) (s : TrackingSystem) (rect : Rect) (second : Int) :
    ((bestLoop rect ((rect.height * rect.width) >>> (1 : Nat))
        (overlapLoop rect (pickLabel c second c.COLOR_UNKNOWN LABEL_UNKNOWN).2
          s.manager.tracker_vec ([], [])).2
        ((rect.height * rect.width) + 10, none)).2 = none →
      (∃ t ∈ s.manager.tracker_vec, Dbl.ne (maxPerArea t rect) (Dbl.fin 0) = true) →
      s.manager.findTracker rect (pickLabel c second c.COLOR_UNKNOWN LABEL_UNKNOWN).2 = -1 ∧
      s.updateTrackingSystem c [(rect, second)] = (SUCCESS, s)) ∧
    (∀ (m : TrackerManager) (label : Int),
      m.findTrackerChecked rect label = some (m.findTracker rect label) ∧
      ((∃ t ∈ m.tracker_vec, m.findTracker rect label = t.target_id) ∨
        m.findTracker rect label = m.getNextID ∨ m.findTracker rect label = -1)) := by
  refine ⟨?_, fun m label => findTracker_outcomes m rect label⟩
  intro hbest hratio
  have hnew : newObjectLoop (s.manager.tracker_vec.map (fun t => maxPerArea t rect)) = false := by
    cases hn : newObjectLoop (s.manager.tracker_vec.map (fun t => maxPerArea t rect)) with
    | false => rfl
    | true =>
      obtain ⟨t, ht, hne⟩ := hratio
      have := (newObjectLoop_eq_true_iff _).mp hn (maxPerArea t rect)
        (List.mem_map.mpr ⟨t, ht, rfl⟩)
      rw [this] at hne
      exact Bool.noConfusion hne
  have hfind : s.manager.findTracker rect
      (pickLabel c second c.COLOR_UNKNOWN LABEL_UNKNOWN).2 = -1 := by
    simp only [overlapLoop_eq, List.nil_append] at hbest
    rw [findTracker_eq, hbest, hnew]
    simp
  refine ⟨hfind, ?_⟩
  unfold TrackingSystem.updateTrackingSystem
  simp only [updateLoop, hfind, ne_eq, not_true_eq_false, if_false]

/-- Witness of claim C21: the PERSON track (0,0,10,10) and the CAR detection
(0,0,10,10): the ratio is 1, the labels differ, nothing is selected. -/
theorem C21_ignore_path_witness :
    (⟨[SingleTracker.new 0 ⟨0, 0, 10, 10⟩ ⟨0, 0, 255, 0⟩ LABEL_PERSON], 1⟩ :
        TrackerManager).findTracker ⟨0, 0, 10, 10⟩
      (pickLabel ⟨⟨0, 255, 0, 0⟩, ⟨255, 0, 0, 0⟩, ⟨0, 0, 255, 0⟩⟩ LABEL_CAR
        (⟨0, 0, 255, 0⟩ : Scalar) LABEL_UNKNOWN).2 = -1 ∧
    (⟨640, 480, [], ⟨[SingleTracker.new 0 ⟨0, 0, 10, 10⟩ ⟨0, 0, 255, 0⟩ LABEL_PERSON], 1⟩, ""⟩ :
        TrackingSystem).updateTrackingSystem ⟨⟨0, 255, 0, 0⟩, ⟨255, 0, 0, 0⟩, ⟨0, 0, 255, 0⟩⟩
        [(⟨0, 0, 10, 10⟩, LABEL_CAR)] =
      (SUCCESS,
        ⟨640, 480, [], ⟨[SingleTracker.new 0 ⟨0, 0, 10, 10⟩ ⟨0, 0, 255, 0⟩ LABEL_PERSON], 1⟩,
          ""⟩) := by
  have hr : maxPerArea (SingleTracker.new 0 ⟨0, 0, 10, 10⟩ ⟨0, 0, 255, 0⟩ LABEL_PERSON)
      ⟨0, 0, 10, 10⟩ = Dbl.fin 1 := maxPerArea_self _ (by decide) (by decide)
  refine (C21_ignore_path ⟨⟨0, 255, 0, 0⟩, ⟨255, 0, 0, 0⟩, ⟨0, 0, 255, 0⟩⟩
    (⟨640, 480, [], ⟨[SingleTracker.new 0 ⟨0, 0, 10, 10⟩ ⟨0, 0, 255, 0⟩ LABEL_PERSON], 1⟩, ""⟩ :
        TrackingSystem) ⟨0, 0, 10, 10⟩ LABEL_CAR).1 ?_ ?_
  · simp only [overlapLoop_eq, List.nil_append]
    rw [List.filter_cons, List.filter_nil]
    have hc : ¬ (decide (Dbl.lt max_overlap_thresh
        (maxPerArea (SingleTracker.new 0 ⟨0, 0, 10, 10⟩ ⟨0, 0, 255, 0⟩ LABEL_PERSON)
          ⟨0, 0, 10, 10⟩) = true ∧
        ((SingleTracker.new 0 ⟨0, 0, 10, 10⟩ ⟨0, 0, 255, 0⟩ LABEL_PERSON).label =
            (pickLabel ⟨⟨0, 255, 0, 0⟩, ⟨255, 0, 0, 0⟩, ⟨0, 0, 255, 0⟩⟩ LABEL_CAR
              (⟨0, 0, 255, 0⟩ : Scalar) LABEL_UNKNOWN).2 ∨
          (SingleTracker.new 0 ⟨0, 0, 10, 10⟩ ⟨0, 0, 255, 0⟩ LABEL_PERSON).label =
            LABEL_UNKNOWN)) = true) := by
      simp [SingleTracker.new, pickLabel, LABEL_PERSON, LABEL_CAR, LABEL_UNKNOWN]
    rw [if_neg hc]
    rfl
  · exact ⟨_, List.mem_singleton.mpr rfl, by rw [hr]; simp [Dbl.ne]⟩

/-! ## Freshness of new identities at system level -/

/-- The loop of `initTrackingSystem`, started at the index `k` on a registry
whose identities are below `k` and below the counter, ends on a registry
whose identities are below the counter, whether it fails or not. -/
theorem initLoop_inv (c : Colors) (l : List (Rect × Int)) (k : Int) (color : Scalar)
    (label : Int) (st : TrackerManager × String)
    (hk : ∀ t ∈ st.1.tracker_vec, t.target_id < k)
    (hinv : ∀ t ∈ st.1.tracker_vec, t.target_id < st.1.id_list) :
    ∀ t ∈ (initLoop c l k color label st).2.1.tracker_vec,
      t.target_id < (initLoop c l k color label st).2.1.id_list := by
  induction l generalizing k color label st with
  | nil => simpa [initLoop] using hinv
  | cons i rest ih =>
    by_cases hi : i.1.area = 0
    · rw [initLoop]
      simp only [insertTracker_zero_area _ _ _ _ _ _ _ hi, if_true]
      exact hinv
    · rw [initLoop_cons c i rest k color label st hi hk]
      have h' := lt_succ_of_mem_append st.1.tracker_vec
        (SingleTracker.new k i.1 (pickLabel c i.2 color label).1
          (pickLabel c i.2 color label).2) k hk rfl
      exact ih (k + 1) _ _
        ((⟨st.1.tracker_vec ++ [SingleTracker.new k i.1 (pickLabel c i.2 color label).1
            (pickLabel c i.2 color label).2], k + 1⟩ : TrackerManager), creationEvent k) h' h'

/-- The identity `updateTrackingSystem` hands to `insertTracker` is in the
registry or is the next identity. -/
theorem findTracker_respects (m : TrackerManager) (rect : Rect) (color : Scalar)
    (label : Int) (h : m.findTracker rect label ≠ -1) :
    (Call.insertRect rect color (m.findTracker rect label) label true).respectsCounter m
      = true := by
  simp only [Call.respectsCounter, Bool.or_eq_true, decide_eq_true_eq]
  rcases (findTracker_outcomes m rect label).2 with ⟨t, ht, hid⟩ | hnext | hneg
  · left
    rw [List.contains_iff_exists_mem_beq]
    exact ⟨t.target_id, List.mem_map.mpr ⟨t, ht, rfl⟩, by rw [hid]; simp⟩
  · right
    rw [hnext]
  · exact absurd hneg h

theorem updateLoop_inv (c : Colors) (l : List (Rect × Int)) (color : Scalar) (label : Int)
    (st : TrackerManager × String)
    (hinv : ∀ t ∈ st.1.tracker_vec, t.target_id < st.1.id_list) :
    ∀ t ∈ (updateLoop c l color label st).2.1.tracker_vec,
      t.target_id < (updateLoop c l color label st).2.1.id_list := by
  induction l generalizing color label st with
  | nil => simpa [updateLoop] using hinv
  | cons i rest ih =>
    rw [updateLoop]
    dsimp only
    by_cases hidx : st.1.findTracker i.1 (pickLabel c i.2 color label).2 = -1
    · rw [if_neg (by simpa using hidx)]
      exact ih _ _ st hinv
    · rw [if_pos hidx]
      have hstep := (apply_respects st
        (Call.insertRect i.1 (pickLabel c i.2 color label).1
          (st.1.findTracker i.1 (pickLabel c i.2 color label).2)
          (pickLabel c i.2 color label).2 true) hinv
        (findTracker_respects st.1 i.1 _ _ hidx)).1
      split_ifs
      · exact hstep
      · exact ih _ _ _ hstep

theorem eraseAll_sublist (ids : List Int) (st : TrackerManager × String) :
    (∀ t ∈ (eraseAll ids st).1.tracker_vec, t ∈ st.1.tracker_vec) ∧
    (eraseAll ids st).1.id_list = st.1.id_list := by
  induction ids generalizing st with
  | nil => exact ⟨fun _ h => h, rfl⟩
  | cons id ids ih =>
    obtain ⟨h1, h2⟩ := ih ((st.1.deleteTracker id st.2).2)
    have hd : (∀ t ∈ (st.1.deleteTracker id st.2).2.1.tracker_vec, t ∈ st.1.tracker_vec) ∧
        (st.1.deleteTracker id st.2).2.1.id_list = st.1.id_list := by
      unfold TrackerManager.deleteTracker
      by_cases hf : st.1.findTrackerByID id = FAIL
      · simp only [hf, if_true]
        exact ⟨fun _ h => h, trivial⟩
      · simp only [hf, if_false]
        exact ⟨fun t ht => (List.eraseIdx_sublist _ _).subset ht, trivial⟩
    simp only [eraseAll, List.foldl_cons] at h1 h2 ⊢
    exact ⟨fun t ht => hd.1 t (h1 t ht), h2.trans hd.2⟩

theorem startTracking_inv (s : TrackingSystem) (img : Mat) (ext : Nat → External)
    (hinv : ∀ t ∈ s.manager.tracker_vec, t.target_id < s.manager.id_list) :
    ∀ t ∈ (s.startTracking img ext).2.manager.tracker_vec,
      t.target_id < (s.startTracking img ext).2.manager.id_list := by
  unfold TrackingSystem.startTracking
  cases hi : img.empty
  · simp only [Bool.false_eq_true, if_false]
    obtain ⟨h1, h2⟩ := eraseAll_sublist
      (trackerErase s.frame_width s.frame_height (s.updatedTracks img ext))
      ({ s.manager with tracker_vec := s.updatedTracks img ext }, s.last_event)
    intro t ht
    rw [h2]
    have hmem : t ∈ s.updatedTracks img ext := h1 t ht
    have hid : t.target_id ∈ (s.updatedTracks img ext).map (fun u => u.target_id) :=
      List.mem_map.mpr ⟨t, hmem, rfl⟩
    unfold TrackingSystem.updatedTracks at hid
    rw [trackAll_ids, startAll_ids] at hid
    rcases List.mem_map.mp hid with ⟨u, hu, hui⟩
    rw [← hui]
    exact hinv u hu
  · simpa using hinv

theorem sysCall_inv (c : Colors) (s : TrackingSystem) (call : SysCall)
    (hinv : ∀ t ∈ s.manager.tracker_vec, t.target_id < s.manager.id_list) :
    ∀ t ∈ (call.apply c s).manager.tracker_vec,
      t.target_id < (call.apply c s).manager.id_list := by
  cases call with
  | update updated_results =>
    exact updateLoop_inv c updated_results _ _ (s.manager, s.last_event) hinv
  | track img ext => exact startTracking_inv s img ext hinv
  | erase id =>
    exact (apply_respects (s.manager, s.last_event) (Call.erase id) hinv rfl).1

theorem foldl_sysCall_inv (c : Colors) (calls : List SysCall) (s : TrackingSystem)
    (hinv : ∀ t ∈ s.manager.tracker_vec, t.target_id < s.manager.id_list) :
    ∀ t ∈ (calls.foldl (SysCall.apply c) s).manager.tracker_vec,
      t.target_id < (calls.foldl (SysCall.apply c) s).manager.id_list := by
  induction calls generalizing s with
  | nil => exact hinv
  | cons call rest ih => exact ih (call.apply c s) (sysCall_inv c s call hinv)

/-- Claim C25. In every state reached from an empty registry by one
`initTrackingSystem` call followed by any sequence of `updateTrackingSystem`
calls, `startTracking` calls and `deleteTracker` calls, every identity in the
registry is strictly less than `getNextID()`; hence no track has the identity
`getNextID()`, and `insertTracker` with that identity (the create path of
`updateTrackingSystem`) and a box of non-zero area appends a new track, the
registry before it being kept as it is. -/
theorem C25_system_freshness (c : Colors) (s : TrackingSystem) (calls : List SysCall)
    (hempty : s.manager.tracker_vec = []) :
    (∀ t ∈ (runSystem c s calls).manager.tracker_vec,
      t.target_id < (runSystem c s calls).manager.getNextID) ∧
    (runSystem c s calls).manager.findTrackerByID (runSystem c s calls).manager.getNextID
      = FAIL ∧
    (∀ (rect : Rect) (color : Scalar) (label : Int) (ev : String), rect.area ≠ 0 →
      (runSystem c s calls).manager.insertTracker rect color
          (runSystem c s calls).manager.getNextID label true ev =
        (SUCCESS,
          { tracker_vec := (runSystem c s calls).manager.tracker_vec ++
              [SingleTracker.new (runSystem c s calls).manager.getNextID rect color label],
            id_list := (runSystem c s calls).manager.getNextID + 1 },
          creationEvent (runSystem c s calls).manager.getNextID)) := by
  have h0 : ∀ t ∈ (s.initTrackingSystem c).2.manager.tracker_vec,
      t.target_id < (s.initTrackingSystem c).2.manager.id_list := by
    unfold TrackingSystem.initTrackingSystem
    exact initLoop_inv c s.init_target 0 _ _ (s.manager, s.last_event)
      (by intro t ht; rw [hempty] at ht; simp at ht)
      (by intro t ht; rw [hempty] at ht; simp at ht)
  have hinv := foldl_sysCall_inv c calls _ h0
  have hfree : ∀ t ∈ (runSystem c s calls).manager.tracker_vec,
      t.target_id ≠ (runSystem c s calls).manager.getNextID :=
    fun t ht => ne_of_lt (hinv t ht)
  refine ⟨hinv, (findTrackerByID_eq_FAIL_iff _ _).mpr hfree, ?_⟩
  intro rect color label ev hr
  exact insertTracker_absent _ rect color _ label true ev hr hfree

/-- Witness of claim C25: one target at start, then a detection elsewhere,
a frame update and a deletion. -/
theorem C25_system_freshness_witness :
    (runSystem ⟨⟨0, 255, 0, 0⟩, ⟨255, 0, 0, 0⟩, ⟨0, 0, 255, 0⟩⟩
        ⟨640, 480, [(⟨0, 0, 10, 10⟩, LABEL_PERSON)], ⟨[], 0⟩, ""⟩
        [SysCall.update [(⟨50, 0, 10, 10⟩, LABEL_CAR)],
         SysCall.track ⟨false⟩ (fun _ => ⟨⟨9, 9⟩, ⟨4, 4, 10, 10⟩, 1, 0⟩),
         SysCall.erase 0]).manager.findTrackerByID
      (runSystem ⟨⟨0, 255, 0, 0⟩, ⟨255, 0, 0, 0⟩, ⟨0, 0, 255, 0⟩⟩
        ⟨640, 480, [(⟨0, 0, 10, 10⟩, LABEL_PERSON)], ⟨[], 0⟩, ""⟩
        [SysCall.update [(⟨50, 0, 10, 10⟩, LABEL_CAR)],
         SysCall.track ⟨false⟩ (fun _ => ⟨⟨9, 9⟩, ⟨4, 4, 10, 10⟩, 1, 0⟩),
         SysCall.erase 0]).manager.getNextID = FAIL :=
  (C25_system_freshness ⟨⟨0, 255, 0, 0⟩, ⟨255, 0, 0, 0⟩, ⟨0, 0, 255, 0⟩⟩
    ⟨640, 480, [(⟨0, 0, 10, 10⟩, LABEL_PERSON)], ⟨[], 0⟩, ""⟩
    [SysCall.update [(⟨50, 0, 10, 10⟩, LABEL_CAR)],
     SysCall.track ⟨false⟩ (fun _ => ⟨⟨9, 9⟩, ⟨4, 4, 10, 10⟩, 1, 0⟩),
     SysCall.erase 0] rfl).2.1

end Tracker
